import Mathlib

/-!
# Synchronous SQLite statement layer (`src/node_sqlite.cc`)

A shallow embedding of `SQLiteDatabaseSync` and `SQLiteStatementSync`.

* The embedded SQL engine is outside the translated sources.  Everything the
  code asks of it is a field of `sqlite3_stmt` (one prepared statement) or of
  `Lib` (the library entry points); theorems quantify over these records.
* Host values are a small tagged type (`Value`, `Arg`); a text is a sequence of
  code points, and a C string stops at its first NUL.
* Every function threads a `State`: the engine-side bindings and cursor of the
  statement, the log of engine calls issued, and the exceptions thrown on the
  isolate (the pending one is the last).
* The two unbounded loops (`while (sqlite3_bind_parameter_name ...)` and
  `while (sqlite3_step ...)`) take fuel.
* A method that does not return yields `none`: the fuel ran out, or the
  process aborted inside the host (`Set` on an empty key handle).
* The host's objects are outside the translated sources as well.  A row object
  is its prototype together with its own properties in the order in which the
  host enumerates them; `objectSet` follows ECMAScript's ordinary `[[Set]]`.
-/

namespace NodeSqlite

/-! ## Engine constants (`sqlite3.h`) -/

def SQLITE_OK : Int := 0
def SQLITE_NOMEM : Int := 7
def SQLITE_RANGE : Int := 25
def SQLITE_ROW : Int := 100
def SQLITE_DONE : Int := 101

/-! ## Host values -/

/-- A JavaScript number.  The code never computes with doubles: it passes them
through (`sqlite3_bind_double`, `sqlite3_column_double`) and converts a C `int`
with `Number::New(isolate, int)`, which is exact.  Finite doubles are carried
as rationals. -/
inductive Double where
  | finite (q : ℚ)
  | nan
  | inf (negative : Bool)
  deriving DecidableEq

/-- A host value as `BindValue` classifies it, and as `ColumnToValue` builds it.
`buffer` stands for a TypedArray, ArrayBuffer or SharedArrayBuffer with the
given bytes; `other` is any value of no listed kind (function, class instance,
symbol, bigint, nested object, ...). -/
inductive Value where
  | number (d : Double)
  | string (s : String)
  | null
  | buffer (bytes : List (Fin 256))
  | undefined
  | boolean (b : Bool)
  | other
  deriving DecidableEq

/-- One call argument, by the three-way test of `BindParams`:
`pojo` is an object whose prototype is null or `Object.prototype`, given by its
own property names and values in `GetOwnPropertyNames` order; `array` is a
non-plain object for which `IsArray()` holds; `value` is anything else. -/
inductive Arg where
  | pojo (props : List (String × Value))
  | array (items : List Value)
  | value (v : Value)
  deriving DecidableEq

/-- Test `IsPOJO(args[i])`. -/
def IsPOJO : Arg → Bool
  | .pojo _ => true
  | _ => false

/-- Test `args[i]->IsArray()`. -/
def Arg.IsArray : Arg → Bool
  | .array _ => true
  | _ => false

/-- The NUL-terminated reading of a character buffer: what a callee that is
handed `const char*` without a length sees. -/
def cstr (s : String) : String :=
  ⟨s.data.takeWhile (fun c => c != Char.ofNat 0)⟩

/-! ## Engine cells -/

/-- A result cell of the engine, one constructor per value of
`sqlite3_column_type` (`SQLITE_INTEGER`, `SQLITE_FLOAT`, `SQLITE_TEXT`,
`SQLITE_NULL`, `SQLITE_BLOB`).  No sixth tag exists, so the `UNREACHABLE()` that
ends `ColumnToValue` has no counterpart.  A text cell holds all its characters,
embedded NULs included; an integer cell holds a signed 64-bit integer. -/
inductive Cell where
  | integer (n : Int)
  | float (d : Double)
  | text (s : String)
  | null
  | blob (bytes : List (Fin 256))
  deriving DecidableEq

/-- The C conversion of a 64-bit integer to `int`, as done by
`sqlite3_column_int`: the low 32 bits, read as signed. -/
def toInt32 (n : Int) : Int := (n + 2 ^ 31) % 2 ^ 32 - 2 ^ 31

/-- Outcome of one `sqlite3_step`: the status and, when the status is
`SQLITE_ROW`, the cells of the current row. -/
structure StepResult where
  rc : Int
  cells : List Cell

/-- One prepared statement as the engine answers for it. -/
structure sqlite3_stmt where
  /-- Result of `sqlite3_bind_parameter_count`. -/
  paramCount : Nat
  /-- Result of `sqlite3_bind_parameter_name(stmt, i)`; `none` is `nullptr`. -/
  paramName : Nat → Option String
  /-- Result of `sqlite3_column_name(stmt, i)` for `i < sqlite3_column_count`. -/
  columns : List (Option String)
  /-- Status returned by `sqlite3_reset`. -/
  resetRc : Int
  /-- Whether the engine's reset also drops the bound values.  SQLite's
  `sqlite3_reset` does not (dropping them is `sqlite3_clear_bindings`, which
  the code never calls); section 4.4 of the spec says that the reset does. -/
  resetClears : Bool
  /-- Status returned by a bind primitive for a slot and an encoded value. -/
  bindRc : Nat → Cell → Int
  /-- Outcome of the `n`-th step (from 0) after a reset, under the bindings. -/
  exec : (Nat → Cell) → Nat → StepResult

/-- A session handle, as far as error introspection reads it. -/
structure sqlite3 where
  extended_errcode : Int
  errmsg : String
  deriving DecidableEq

/-- The library entry points that do not belong to one statement. -/
structure Lib where
  /-- Lookup `sqlite3_errstr`. -/
  errstr : Int → String
  /-- Call `sqlite3_open(location, &handle)`: status and the handle stored. -/
  open_ : String → Int × Option sqlite3
  /-- Status returned by `sqlite3_close`. -/
  close : sqlite3 → Int
  /-- Call `sqlite3_prepare_v2`: status and the statement stored. -/
  prepare : sqlite3 → String → Int × sqlite3_stmt

/-! ## Errors and state -/

/-- The object built by `CreateSQLiteError`. -/
structure SQLiteError where
  message : String
  code : String
  errcode : Int
  errstr : String
  deriving DecidableEq

/-- The texts passed to `THROW_ERR_INVALID_STATE`. -/
inductive InvalidStateMsg where
  | databaseAlreadyOpen
  | databaseNotOpen
  | cannotGetColumnName (column : Nat)
  deriving DecidableEq

/-- The texts passed to `THROW_ERR_INVALID_ARG_TYPE`, with their format
arguments. -/
inductive InvalidArgMsg where
  | path
  | sql
  | namedParameter (key : String) (argument : Nat)
  | anonymousParameter (argument : Nat)
  deriving DecidableEq

/-- An exception handed to `isolate->ThrowException`. -/
inductive JSError where
  | ERR_SQLITE_ERROR (e : SQLiteError)
  | ERR_INVALID_STATE (m : InvalidStateMsg)
  | ERR_INVALID_ARG_TYPE (m : InvalidArgMsg)
  deriving DecidableEq

/-- An engine call on a statement, as logged. -/
inductive Call where
  | reset
  | bind (slot : Nat) (cell : Cell)
  | step
  | column_name (column : Nat)
  | column (column : Nat)
  deriving DecidableEq

/-- The own properties of a row object as a caller reads them: the keys in the
order in which the host enumerates them, each with its value. -/
abbrev Row := List (String × Value)

/-- What a method leaves in `args.GetReturnValue()`. -/
inductive Returned where
  | object (row : Row)
  | array (rows : List Row)
  deriving DecidableEq

/-- Mutable state around one statement. -/
structure State where
  /-- Values bound in the engine, latest first. -/
  bound : List (Nat × Cell)
  /-- Steps taken since the last reset. -/
  pc : Nat
  /-- Cells of the row the statement is positioned on. -/
  row : List Cell
  /-- Engine calls issued on the statement, oldest first. -/
  log : List Call
  /-- Exceptions thrown on the isolate, oldest first; the last is pending. -/
  thrown : List JSError
  deriving DecidableEq

/-- A freshly prepared statement on an isolate with no pending exception. -/
def State.init : State := ⟨[], 0, [], [], []⟩

/-- The value the engine holds for a slot; an unbound slot reads as NULL. -/
def State.boundCell (st : State) (slot : Nat) : Cell :=
  match st.bound.lookup slot with
  | some c => c
  | none => Cell.null

/-- The exception pending on the isolate, if any. -/
def State.pending (st : State) : Option JSError := st.thrown.getLast?

/-- Call `isolate->ThrowException`. -/
def State.throw (st : State) (e : JSError) : State :=
  { st with thrown := st.thrown ++ [e] }

/-! ## Error translator -/

/-- Function `CreateSQLiteError(isolate, db)`.  For a null handle the engine's
introspection answers `SQLITE_NOMEM` and "out of memory". -/
def CreateSQLiteError (lib : Lib) (db : Option sqlite3) : SQLiteError :=
  let errcode := match db with
    | some h => h.extended_errcode
    | none => SQLITE_NOMEM
  let errstr := lib.errstr errcode
  let errmsg := match db with
    | some h => h.errmsg
    | none => "out of memory"
  { message := errmsg, code := "ERR_SQLITE_ERROR", errcode := errcode, errstr := errstr }

/-- Function `THROW_ERR_SQLITE_ERROR(isolate, db)`. -/
def THROW_ERR_SQLITE_ERROR (lib : Lib) (db : Option sqlite3) (st : State) : State :=
  st.throw (JSError.ERR_SQLITE_ERROR (CreateSQLiteError lib db))

/-! ## Statement -/

/-- The fields of a `SQLiteStatementSync` wrapper. -/
structure SQLiteStatementSync where
  db_ : sqlite3
  statement_ : sqlite3_stmt

/-- Modelled from the spec: the engine's `sqlite3_bind_parameter_index(stmt,
name)`, which is not among the translated sources.  Section 4.2: "look up the
statement's parameter slot whose declared name textually matches the key",
failing "if no slot matches".  The result is the index of the slot in
`1..paramCount` that carries the name, 0 when no slot does. -/
def sqlite3_bind_parameter_index (s : sqlite3_stmt) (name : String) : Nat :=
  match (List.range' 1 s.paramCount).find? (fun i => s.paramName i == some name) with
  | some i => i
  | none => 0

/-- The `if`/`else if` chain of `BindValue`: which bind primitive is called,
with what payload (`sqlite3_bind_double`, `sqlite3_bind_text` with
`val.length()`, `sqlite3_bind_null`, `sqlite3_bind_blob` with `buf.length()`);
`none` is the final `else { return false; }`. -/
def encode : Value → Option Cell
  | .number val => some (Cell.float val)
  | .string val => some (Cell.text val)
  | .null => some Cell.null
  | .buffer buf => some (Cell.blob buf)
  | _ => none

/-- Method `SQLiteStatementSync::BindValue(value, index)`: the bind call chosen
by `encode`, followed by `CHECK_ERROR_OR_THROW(..., r, SQLITE_OK, false)`.  On
the engine's side a bind that reports `SQLITE_OK` replaces the value held for
the slot; a refused bind leaves the held values as they were. -/
def BindValue (lib : Lib) (stmt : SQLiteStatementSync) (st : State) (value : Value)
    (index : Nat) : Bool × State :=
  match encode value with
  | none => (false, st)
  | some c =>
    let r := stmt.statement_.bindRc index c
    let st1 : State :=
      { st with
        log := st.log ++ [Call.bind index c]
        bound := if r = SQLITE_OK then (index, c) :: st.bound else st.bound }
    if r ≠ SQLITE_OK then (false, THROW_ERR_SQLITE_ERROR lib (some stmt.db_) st1)
    else (true, st1)

/-- The `while (sqlite3_bind_parameter_name(statement_, anon_idx) != nullptr)`
loop of `BindParams`; the result is the cursor on exit. -/
def skipNamed (s : sqlite3_stmt) : Nat → Nat → Option Nat
  | 0, _ => none
  | fuel + 1, anon_idx =>
    match s.paramName anon_idx with
    | some _ => skipNamed s fuel (anon_idx + 1)
    | none => some anon_idx

/-- The inner `for (j = 0; j < len; j++)` loop of `BindParams` over the own
properties of argument `i` (0-based). -/
def bindNamed (lib : Lib) (stmt : SQLiteStatementSync) (i : Nat) :
    List (String × Value) → State → Bool × State
  | [], st => (true, st)
  | (key, value) :: rest, st =>
    let r := sqlite3_bind_parameter_index stmt.statement_ (cstr key)
    if r = 0 then
      -- TODO(cjihrig): Report error.
      (false, st)
    else
      match BindValue lib stmt st value r with
      | (false, st1) =>
        (false, st1.throw (.ERR_INVALID_ARG_TYPE (.namedParameter (cstr key) (i + 1))))
      | (true, st1) => bindNamed lib stmt i rest st1

/-- The outer `for (i = 0; i < args.Length(); ++i)` loop of `BindParams`,
entered at argument `i` with cursor `anon_idx`.  The result carries the return
value, the cursor on exit and the state. -/
def bindLoop (lib : Lib) (stmt : SQLiteStatementSync) (fuel : Nat) :
    List Arg → Nat → Nat → State → Option (Bool × Nat × State)
  | [], _, anon_idx, st => some (true, anon_idx, st)
  | arg :: rest, i, anon_idx, st =>
    if IsPOJO arg then
      match arg with
      | .pojo props =>
        match bindNamed lib stmt i props st with
        | (false, st1) => some (false, anon_idx, st1)
        | (true, st1) => bindLoop lib stmt fuel rest (i + 1) anon_idx st1
      | _ => bindLoop lib stmt fuel rest (i + 1) anon_idx st
    else if arg.IsArray then
      -- TODO(cjihrig): Support arrays of anonymous parameters.
      bindLoop lib stmt fuel rest (i + 1) anon_idx st
    else
      match skipNamed stmt.statement_ fuel anon_idx with
      | none => none
      | some idx =>
        let value := match arg with
          | .value v => v
          | _ => Value.other
        match BindValue lib stmt st value idx with
        | (false, st1) =>
          some (false, idx, st1.throw (.ERR_INVALID_ARG_TYPE (.anonymousParameter (i + 1))))
        | (true, st1) => bindLoop lib stmt fuel rest (i + 1) (idx + 1) st1

/-- Method `SQLiteStatementSync::BindParams(args)`. -/
def BindParams (lib : Lib) (stmt : SQLiteStatementSync) (fuel : Nat) (st : State)
    (args : List Arg) : Option (Bool × State) :=
  (bindLoop lib stmt fuel args 0 1 st).map (fun r => (r.1, r.2.2))

/-- Modelled from the spec: the engine's `sqlite3_reset(statement_)`, section 6
"reset(statement) → status" and section 4.4 "returns it to Idle": the step
counter starts over and no row is current.  Whether the bound values are
dropped as well is the engine's field `resetClears`. -/
def sqlite3_reset (s : sqlite3_stmt) (st : State) : Int × State :=
  (s.resetRc,
    { st with
      pc := 0
      row := []
      bound := if s.resetClears then [] else st.bound
      log := st.log ++ [Call.reset] })

/-- Modelled from the spec: the engine's `sqlite3_step(statement_)`, section 6
"step(statement) → row-available, done or error": the next outcome of the
statement under the values bound, whose cells become the current row. -/
def sqlite3_step (s : sqlite3_stmt) (st : State) : Int × State :=
  let res := s.exec st.boundCell st.pc
  (res.rc, { st with pc := st.pc + 1, row := res.cells, log := st.log ++ [Call.step] })

/-- The dispatch of `ColumnToValue` on the cell found at the column.  A text is
handed to `String::NewFromUtf8(isolate, value)` as a bare `const char*`. -/
def decodeCell : Cell → Value
  | .integer n => Value.number (Double.finite (toInt32 n))
  | .float d => Value.number d
  | .text s => Value.string (cstr s)
  | .null => Value.null
  | .blob bytes => Value.buffer bytes

/-- Method `SQLiteStatementSync::ColumnToValue(column)`.  A column past the end
of the row reads as NULL. -/
def ColumnToValue (st : State) (column : Nat) : Value × State :=
  (decodeCell (st.row.getD column Cell.null),
    { st with log := st.log ++ [Call.column column] })

/-- Method `SQLiteStatementSync::ColumnNameToValue(column)`; `none` is the empty
handle returned after `THROW_ERR_INVALID_STATE`. -/
def ColumnNameToValue (stmt : SQLiteStatementSync) (st : State) (column : Nat) :
    Option String × State :=
  let st1 : State := { st with log := st.log ++ [Call.column_name column] }
  match stmt.statement_.columns.getD column none with
  | none => (none, st1.throw (.ERR_INVALID_STATE (.cannotGetColumnName column)))
  | some col_name => (some col_name, st1)

/-! ### Host objects

The row loops call `Object::New(isolate)` and `row->Set(context, key, val)`.
Both belong to the host (`deps/v8`), which is not among the translated sources;
they are modelled after ECMAScript's ordinary objects, for string keys, for
the values that `ColumnToValue` builds, and for built-in prototypes that no
script has altered. -/

/-- The number written by a list of decimal digits. -/
def natOfDigits (ds : List Char) : Nat :=
  ds.foldl (fun n c => 10 * n + (c.toNat - 48)) 0

/-- A decimal numeral as the host prints an integer: digits only, without a
leading zero unless it is the numeral `0`. -/
def isPlainNumeral (ds : List Char) : Bool :=
  !ds.isEmpty && ds.all Char.isDigit && (ds.length = 1 || ds.head? != some '0')

/-- The array index that a property key stands for, if any: a plain numeral of
value at most 2^32 - 2.  The host enumerates such keys first, in ascending
order. -/
def arrayIndex? (key : String) : Option Nat :=
  if isPlainNumeral key.data && natOfDigits key.data ≤ 4294967294 then
    some (natOfDigits key.data)
  else none

/-- Two to an integer power. -/
def pow2 (e : Int) : ℚ :=
  if 0 ≤ e then (2 : ℚ) ^ e.toNat else 1 / (2 : ℚ) ^ (-e).toNat

/-- Ten to an integer power. -/
def pow10 (e : Int) : ℚ :=
  if 0 ≤ e then (10 : ℚ) ^ e.toNat else 1 / (10 : ℚ) ^ (-e).toNat

/-- The integer `e` with `2^e ≤ q < 2^(e+1)`, for a positive `q`. -/
def floorLog2 (q : ℚ) : Int :=
  let g : Int := (Nat.log2 q.num.toNat : Int) - (Nat.log2 q.den : Int)
  if pow2 g ≤ q then g else g - 1

/-- Rounding of a non-negative rational to the nearest integer, ties to even. -/
def roundHalfEven (x : ℚ) : Int :=
  let f : Int := x.num / (x.den : Int)
  let r : ℚ := x - f
  if r < 1 / 2 then f
  else if 1 / 2 < r then f + 1
  else if f % 2 = 0 then f else f + 1

/-- The binary64 number nearest to a positive rational `q`, with the two ends of
the set of reals that round to it and whether the ends belong to that set.
The result is `none` when `q` rounds to zero or to infinity. -/
def nearestDouble (q : ℚ) : Option (ℚ × ℚ × ℚ × Bool) :=
  let e0 := max (floorLog2 q) (-1022)
  let m0 := roundHalfEven (q / pow2 (e0 - 52))
  let e := if m0 = 2 ^ 53 then e0 + 1 else e0
  let m := if m0 = 2 ^ 53 then 2 ^ 52 else m0
  let ulp := pow2 (e - 52)
  let d := (m : ℚ) * ulp
  if m = 0 ∨ 1024 ≤ e then none
  else
    let below := if m = 2 ^ 52 ∧ -1022 < e then ulp / 4 else ulp / 2
    some (d, d - below, d + ulp / 2, m % 2 = 0)

/-- Membership in the set of reals that round to one binary64 number. -/
def inInterval (lo hi : ℚ) (closed : Bool) (x : ℚ) : Bool :=
  if closed then lo ≤ x && x ≤ hi else lo < x && x < hi

/-- Whether the set holds a multiple of the positive `step`. -/
def hasMultiple (lo hi : ℚ) (closed : Bool) (step : ℚ) : Bool :=
  let k : Int := (hi / step).num / ((hi / step).den : Int)
  inInterval lo hi closed (k * step) ||
    (0 < k && inInterval lo hi closed ((k - 1) * step))

/-- Whether the digits `s`, the last of which is not 0, at the decimal exponent
`e` are the digits the host prints for the binary64 number nearest to
`s * 10^e` (`Number::toString`): no shorter digit string rounds to that number
and no digit string of the same length lies closer to it. -/
def isShortest (s : Nat) (e : Int) : Bool :=
  let q : ℚ := s * pow10 e
  match nearestDouble q with
  | none => false
  | some (d, lo, hi, closed) =>
    let step := pow10 e
    let closer (x : ℚ) : Bool :=
      inInterval lo hi closed x &&
        (|x - d| < |q - d| || (|x - d| = |q - d| && s % 2 = 1))
    !hasMultiple lo hi closed (10 * step) && !closer (q - step) && !closer (q + step)

/-- A digit list without its trailing zeros. -/
def stripTrailingZeros (ds : List Char) : List Char :=
  (ds.reverse.dropWhile (fun c => c == '0')).reverse

/-- The digits and the decimal exponent of a positive numeral written in one of
the shapes the host prints (`123000`, `12.5`, `0.00012`, `1e+21`, `1.5e-7`);
`none` for a text of any other shape. -/
def printedShape (cs : List Char) : Option (Nat × Int) :=
  let mant := cs.takeWhile (fun c => c != 'e')
  let rest := cs.dropWhile (fun c => c != 'e')
  let ip := mant.takeWhile (fun c => c != '.')
  let fr := (mant.dropWhile (fun c => c != '.')).drop 1
  let hasDot := mant.contains '.'
  let fracOk := !hasDot || (!fr.isEmpty && fr.all Char.isDigit && fr.getLast? != some '0')
  if !isPlainNumeral ip || !fracOk then none
  else
    match rest with
    | [] =>
      if !hasDot then
        if ip = ['0'] || 21 < ip.length then none
        else
          let ds := stripTrailingZeros ip
          some (natOfDigits ds, (ip.length : Int) - ds.length)
      else if ip = ['0'] then
        if 5 < (fr.takeWhile (fun c => c == '0')).length then none
        else some (natOfDigits fr, -(fr.length : Int))
      else if 21 < ip.length then none
      else some (natOfDigits (ip ++ fr), -(fr.length : Int))
    | _ :: sign :: ex =>
      if ip.length != 1 || ip = ['0'] || !isPlainNumeral ex then none
      else
        let x := natOfDigits ex
        if sign = '+' then
          if x < 21 then none else some (natOfDigits (ip ++ fr), (x : Int) - fr.length)
        else if sign = '-' then
          if x < 7 then none else some (natOfDigits (ip ++ fr), -(x : Int) - fr.length)
        else none
    | _ => none

/-- Whether `CanonicalNumericIndexString(key)` is a number: the key is `-0`, or
it is the text the host prints for the number it reads from the key. -/
def canonicalNumeric (key : String) : Bool :=
  let cs := key.data
  let body := if cs.head? = some '-' then cs.drop 1 else cs
  if cs = "NaN".data then true
  else if body = "Infinity".data then true
  else if body = ['0'] then true
  else
    match printedShape body with
    | none => false
    | some (s, e) => isShortest s e

/-- The prototype of a row object.  `Object::New` gives `Object.prototype`; the
`__proto__` setter of `Object.prototype` replaces it by `null` or by an object,
and the only object `ColumnToValue` builds is a `Uint8Array`, of which the
length decides what `[[Set]]` does. -/
inductive Proto where
  | objectPrototype
  | null
  | typedArray (length : Nat)
  deriving DecidableEq

/-- A row object under construction. -/
structure RowObject where
  proto : Proto
  own : Row
  deriving DecidableEq

/-- Call `Object::New(isolate)`. -/
def RowObject.fresh : RowObject := ⟨Proto.objectPrototype, []⟩

/-- Assignment to an own property that exists: it keeps its place. -/
def updateOwn : Row → String → Value → Row
  | [], _, _ => []
  | (k, v) :: rest, key, val =>
    if k = key then (k, val) :: rest else (k, v) :: updateOwn rest key val

/-- Creation of an own property whose key is the array index `i`: it goes after
the smaller array indices and before every other key. -/
def insertIndexed (i : Nat) (key : String) (val : Value) : Row → Row
  | [] => [(key, val)]
  | (k, v) :: rest =>
    match arrayIndex? k with
    | some j =>
      if j < i then (k, v) :: insertIndexed i key val rest else (key, val) :: (k, v) :: rest
    | none => (key, val) :: (k, v) :: rest

/-- Creation of an own property (`CreateDataProperty` on the receiver): an array
index is placed among the array indices, any other key goes last. -/
def defineOwn (own : Row) (key : String) (val : Value) : Row :=
  match arrayIndex? key with
  | some i => insertIndexed i key val own
  | none => own ++ [(key, val)]

/-- The `__proto__` setter of `Object.prototype`, on the values `ColumnToValue`
builds: `null` and a `Uint8Array` replace the prototype, a number or a text is
ignored; no own property is created. -/
def protoSetter (obj : RowObject) : Value → RowObject
  | .null => { obj with proto := Proto.null }
  | .buffer bytes => { obj with proto := Proto.typedArray bytes.length }
  | _ => obj

/-- The string keys that `Uint8Array.prototype` and `%TypedArray%.prototype`
hold as a read-only value or as an accessor without setter; `[[Set]]` through
them stores nothing. -/
def typedArrayReadOnly : List String :=
  ["BYTES_PER_ELEMENT", "buffer", "byteLength", "byteOffset", "length"]

/-- The host's `obj->Set(context, key, val)` for a string key, after
ECMAScript's `OrdinarySet`.  An own property takes the new value.  Otherwise
the prototype chain decides: with a null prototype the property is created;
under `Object.prototype` the key `__proto__` reaches the setter and every other
key is created; under a `Uint8Array` a canonical numeric key is created only
when it is an index below the length, a key of `typedArrayReadOnly` is not
created, `__proto__` reaches the setter, every other key is created.  None of
these cases throws, so `Set` never reports nothing here. -/
def objectSet (obj : RowObject) (key : String) (val : Value) : RowObject :=
  if obj.own.any (fun p => p.1 == key) then { obj with own := updateOwn obj.own key val }
  else
    match obj.proto with
    | .null => { obj with own := defineOwn obj.own key val }
    | .objectPrototype =>
      if key = "__proto__" then protoSetter obj val
      else { obj with own := defineOwn obj.own key val }
    | .typedArray length =>
      if canonicalNumeric key then
        match arrayIndex? key with
        | some i => if i < length then { obj with own := defineOwn obj.own key val } else obj
        | none => obj
      else if key ∈ typedArrayReadOnly then obj
      else if key = "__proto__" then protoSetter obj val
      else { obj with own := defineOwn obj.own key val }

/-- The `for (int i = 0; i < num_cols; ++i)` loop shared by `All` and `Get`,
run over the column indices still to visit.  `Set` is handed the key handle
unchecked: on the empty handle that `ColumnNameToValue` returns for a column
without a name the host dereferences it and the process aborts, which is
`none`.  For a key that is present `Set` reports a value, so the `return`
guarded by `IsNothing()` is not taken. -/
def fillRow (stmt : SQLiteStatementSync) :
    List Nat → RowObject → State → Option (RowObject × State)
  | [], row, st => some (row, st)
  | i :: rest, row, st =>
    match ColumnNameToValue stmt st i with
    | (key, st1) =>
      match ColumnToValue st1 i with
      | (val, st2) =>
        match key with
        | none => none
        | some k => fillRow stmt rest (objectSet row k val) st2

/-- What a method call leaves behind: the return value slot and the state. -/
structure CallResult where
  returnValue : Option Returned
  state : State
  deriving DecidableEq

/-- Method `SQLiteStatementSync::Run`. -/
def Run (lib : Lib) (stmt : SQLiteStatementSync) (fuel : Nat) (st : State)
    (args : List Arg) : Option CallResult :=
  match sqlite3_reset stmt.statement_ st with
  | (r, st1) =>
    if r ≠ SQLITE_OK then
      some ⟨none, THROW_ERR_SQLITE_ERROR lib (some stmt.db_) st1⟩
    else
      match BindParams lib stmt fuel st1 args with
      | none => none
      | some (false, st2) => some ⟨none, st2⟩
      | some (true, st2) =>
        match sqlite3_step stmt.statement_ st2 with
        | (r, st3) =>
          if r ≠ SQLITE_ROW ∧ r ≠ SQLITE_DONE then
            some ⟨none, THROW_ERR_SQLITE_ERROR lib (some stmt.db_) st3⟩
          else some ⟨none, st3⟩

/-- Method `SQLiteStatementSync::Get`. -/
def Get (lib : Lib) (stmt : SQLiteStatementSync) (fuel : Nat) (st : State)
    (args : List Arg) : Option CallResult :=
  match sqlite3_reset stmt.statement_ st with
  | (r, st1) =>
    if r ≠ SQLITE_OK then
      some ⟨none, THROW_ERR_SQLITE_ERROR lib (some stmt.db_) st1⟩
    else
      match BindParams lib stmt fuel st1 args with
      | none => none
      | some (false, st2) => some ⟨none, st2⟩
      | some (true, st2) =>
        match sqlite3_step stmt.statement_ st2 with
        | (r, st3) =>
          if r ≠ SQLITE_ROW then
            if r ≠ SQLITE_DONE then
              some ⟨none, THROW_ERR_SQLITE_ERROR lib (some stmt.db_) st3⟩
            else some ⟨none, st3⟩
          else
            let num_cols := stmt.statement_.columns.length
            if num_cols = 0 then some ⟨none, st3⟩
            else
              match fillRow stmt (List.range num_cols) RowObject.fresh st3 with
              | none => none
              | some (result, st4) => some ⟨some (.object result.own), st4⟩

/-- The `while ((r = sqlite3_step(...)) == SQLITE_ROW)` loop of `All`: the last
status and the rows collected.  `none` when the fuel ran out or the row loop
aborted. -/
def allLoop (stmt : SQLiteStatementSync) (num_cols : Nat) :
    Nat → List Row → State → Option ((Int × List Row) × State)
  | 0, _, _ => none
  | fuel + 1, rows, st =>
    match sqlite3_step stmt.statement_ st with
    | (r, st1) =>
      if r = SQLITE_ROW then
        match fillRow stmt (List.range num_cols) RowObject.fresh st1 with
        | none => none
        | some (row, st2) => allLoop stmt num_cols fuel (rows ++ [row.own]) st2
      else some ((r, rows), st1)

/-- Method `SQLiteStatementSync::All`. -/
def All (lib : Lib) (stmt : SQLiteStatementSync) (fuel : Nat) (st : State)
    (args : List Arg) : Option CallResult :=
  match sqlite3_reset stmt.statement_ st with
  | (r, st1) =>
    if r ≠ SQLITE_OK then
      some ⟨none, THROW_ERR_SQLITE_ERROR lib (some stmt.db_) st1⟩
    else
      match BindParams lib stmt fuel st1 args with
      | none => none
      | some (false, st2) => some ⟨none, st2⟩
      | some (true, st2) =>
        let num_cols := stmt.statement_.columns.length
        match allLoop stmt num_cols fuel [] st2 with
        | none => none
        | some ((r, rows), st3) =>
          if r ≠ SQLITE_DONE then
            some ⟨none, THROW_ERR_SQLITE_ERROR lib (some stmt.db_) st3⟩
          else some ⟨some (.array rows), st3⟩

/-! ## Connection -/

/-- The fields of a `SQLiteDatabaseSync` wrapper; `none` is `nullptr`. -/
structure SQLiteDatabaseSync where
  location_ : String
  connection_ : Option sqlite3
  deriving DecidableEq

/-- Constructor `SQLiteDatabaseSync::SQLiteDatabaseSync(env, object, location,
open)`, with the exceptions thrown so far on the isolate. -/
def SQLiteDatabaseSync.construct (lib : Lib) (location : String) (open_flag : Bool)
    (thrown : List JSError) : SQLiteDatabaseSync × List JSError :=
  if open_flag then
    match lib.open_ (cstr location) with
    | (r, connection) =>
      if r ≠ SQLITE_OK then
        (⟨location, connection⟩,
          thrown ++ [JSError.ERR_SQLITE_ERROR (CreateSQLiteError lib connection)])
      else (⟨location, connection⟩, thrown)
  else (⟨location, none⟩, thrown)

/-- Method `SQLiteDatabaseSync::Open(args)`. -/
def SQLiteDatabaseSync.Open (lib : Lib) (db : SQLiteDatabaseSync) (thrown : List JSError) :
    SQLiteDatabaseSync × List JSError :=
  if db.connection_ ≠ none then
    (db, thrown ++ [JSError.ERR_INVALID_STATE .databaseAlreadyOpen])
  else
    match lib.open_ (cstr db.location_) with
    | (r, connection) =>
      if r ≠ SQLITE_OK then
        ({ db with connection_ := connection },
          thrown ++ [JSError.ERR_SQLITE_ERROR (CreateSQLiteError lib connection)])
      else ({ db with connection_ := connection }, thrown)

/-- Method `SQLiteDatabaseSync::Close(args)`. -/
def SQLiteDatabaseSync.Close (lib : Lib) (db : SQLiteDatabaseSync) (thrown : List JSError) :
    SQLiteDatabaseSync × List JSError :=
  match db.connection_ with
  | none => (db, thrown ++ [JSError.ERR_INVALID_STATE .databaseNotOpen])
  | some connection =>
    if lib.close connection ≠ SQLITE_OK then
      (db, thrown ++ [JSError.ERR_SQLITE_ERROR (CreateSQLiteError lib (some connection))])
    else ({ db with connection_ := none }, thrown)

/-- An engine call on a session handle, as `Close` can issue it. -/
inductive LibCall where
  | close (connection : sqlite3)
  deriving DecidableEq

/-- The engine calls issued by `SQLiteDatabaseSync::Close(args)`, path by path:
none on the early return taken for a null handle, one `sqlite3_close` on the
handle otherwise. -/
def SQLiteDatabaseSync.CloseCalls (db : SQLiteDatabaseSync) : List LibCall :=
  match db.connection_ with
  | none => []
  | some connection => [LibCall.close connection]

/-! ## Concrete engines used as inputs -/

/-- A bind status function of an engine with `n` slots: `SQLITE_OK` inside
`1..n`, `SQLITE_RANGE` outside. -/
def rangeChecked (n : Nat) (slot : Nat) (_ : Cell) : Int :=
  if 1 ≤ slot ∧ slot ≤ n then SQLITE_OK else SQLITE_RANGE

/-- A library whose open stores a handle and fails with code 14, whose close
succeeds, and whose prepare yields a statement without slots or columns. -/
def libDemo : Lib where
  errstr := fun c => if c = 25 then "column index out of range" else "unknown error"
  open_ := fun _ => (14, some ⟨14, "unable to open database file"⟩)
  close := fun _ => SQLITE_OK
  prepare := fun _ _ =>
    (SQLITE_OK,
      { paramCount := 0, paramName := fun _ => none, columns := [], resetRc := SQLITE_OK,
        resetClears := false, bindRc := rangeChecked 0, exec := fun _ _ => ⟨SQLITE_DONE, []⟩ })

/-- An open session handle with a range error as last error. -/
def dbDemo : sqlite3 := ⟨25, "column index out of range"⟩

/-- Modelled from the spec: the statement the engine prepares from
`"SELECT $val AS v"` (section 8), one slot named `$val`, one column named `v`,
one row holding the value bound to slot 1, then no more rows. -/
def stmtSelectVal : SQLiteStatementSync where
  db_ := dbDemo
  statement_ :=
    { paramCount := 1
      paramName := fun i => if i = 1 then some "$val" else none
      columns := [some "v"]
      resetRc := SQLITE_OK
      resetClears := false
      bindRc := rangeChecked 1
      exec := fun bound n => if n = 0 then ⟨SQLITE_ROW, [bound 1]⟩ else ⟨SQLITE_DONE, []⟩ }

/-- A statement with two slots, the first named `$a`, the second anonymous, as
prepared from `"INSERT INTO t VALUES ($a, ?)"`; stepping reports no row. -/
def stmtNamedThenAnon : SQLiteStatementSync where
  db_ := dbDemo
  statement_ :=
    { paramCount := 2
      paramName := fun i => if i = 1 then some "$a" else none
      columns := []
      resetRc := SQLITE_OK
      resetClears := false
      bindRc := rangeChecked 2
      exec := fun _ _ => ⟨SQLITE_DONE, []⟩ }

/-- A statement with three slots, the second named `$b`, the others anonymous,
as prepared from `"INSERT INTO t VALUES (?, $b, ?)"`; stepping reports no
row. -/
def stmtAnonNamedAnon : SQLiteStatementSync where
  db_ := dbDemo
  statement_ :=
    { paramCount := 3
      paramName := fun i => if i = 2 then some "$b" else none
      columns := []
      resetRc := SQLITE_OK
      resetClears := false
      bindRc := rangeChecked 3
      exec := fun _ _ => ⟨SQLITE_DONE, []⟩ }

/-- A statement with two anonymous slots, as prepared from
`"INSERT INTO t VALUES (?, ?)"`; stepping reports no row. -/
def stmtTwoAnon : SQLiteStatementSync where
  db_ := dbDemo
  statement_ :=
    { paramCount := 2
      paramName := fun _ => none
      columns := []
      resetRc := SQLITE_OK
      resetClears := false
      bindRc := rangeChecked 2
      exec := fun _ _ => ⟨SQLITE_DONE, []⟩ }

/-- A statement with two columns `a`, `b` and no slot, as prepared from
`"SELECT a, b FROM t"`, over a table of two rows. -/
def stmtSelectAB : SQLiteStatementSync where
  db_ := dbDemo
  statement_ :=
    { paramCount := 0
      paramName := fun _ => none
      columns := [some "a", some "b"]
      resetRc := SQLITE_OK
      resetClears := false
      bindRc := rangeChecked 0
      exec := fun _ n =>
        if n = 0 then ⟨SQLITE_ROW, [Cell.integer 1, Cell.text "x"]⟩
        else if n = 1 then ⟨SQLITE_ROW, [Cell.integer 2, Cell.null]⟩
        else ⟨SQLITE_DONE, []⟩ }

/-- The text `a`, NUL, `b`: three characters, the second being U+0000. -/
def textWithNul : String := ⟨['a', Char.ofNat 0, 'b']⟩

/-- An open connection on the in-memory location. -/
def dbOpen : SQLiteDatabaseSync := ⟨":memory:", some dbDemo⟩

/-- A statement with two columns that are both named `a`, as prepared from
`"SELECT 1 AS a, 2 AS a"`: one row holding 1 and 2, then no more rows. -/
def stmtDupColumns : SQLiteStatementSync where
  db_ := dbDemo
  statement_ :=
    { paramCount := 0
      paramName := fun _ => none
      columns := [some "a", some "a"]
      resetRc := SQLITE_OK
      resetClears := false
      bindRc := rangeChecked 0
      exec := fun _ n =>
        if n = 0 then ⟨SQLITE_ROW, [Cell.integer 1, Cell.integer 2]⟩ else ⟨SQLITE_DONE, []⟩ }

/-- A statement with the two columns `b` and `1` and no slot, as prepared from
`"SELECT 1 AS b, 2 AS \"1\""`: one row holding 1 and 2, then no more rows. -/
def stmtIndexColumn : SQLiteStatementSync where
  db_ := dbDemo
  statement_ :=
    { paramCount := 0
      paramName := fun _ => none
      columns := [some "b", some "1"]
      resetRc := SQLITE_OK
      resetClears := false
      bindRc := rangeChecked 0
      exec := fun _ n =>
        if n = 0 then ⟨SQLITE_ROW, [Cell.integer 1, Cell.integer 2]⟩ else ⟨SQLITE_DONE, []⟩ }

/-- A statement with the one column `__proto__` and no slot, as prepared from
`"SELECT 1 AS __proto__"`: one row holding 1, then no more rows. -/
def stmtProtoColumn : SQLiteStatementSync where
  db_ := dbDemo
  statement_ :=
    { paramCount := 0
      paramName := fun _ => none
      columns := [some "__proto__"]
      resetRc := SQLITE_OK
      resetClears := false
      bindRc := rangeChecked 0
      exec := fun _ n =>
        if n = 0 then ⟨SQLITE_ROW, [Cell.integer 1]⟩ else ⟨SQLITE_DONE, []⟩ }

/-- A statement with two anonymous slots and the two columns `a` and `b`, as
prepared from `"SELECT ? AS a, ? AS b"`: one row holding the values bound to
slots 1 and 2, then no more rows.  Its reset keeps the bound values. -/
def stmtSelectTwoSlots : SQLiteStatementSync where
  db_ := dbDemo
  statement_ :=
    { paramCount := 2
      paramName := fun _ => none
      columns := [some "a", some "b"]
      resetRc := SQLITE_OK
      resetClears := false
      bindRc := rangeChecked 2
      exec := fun bound n =>
        if n = 0 then ⟨SQLITE_ROW, [bound 1, bound 2]⟩ else ⟨SQLITE_DONE, []⟩ }

/-- The two-slot statement `stmtTwoAnon` on an engine whose reset reports the
failure code 1. -/
def stmtResetFails : SQLiteStatementSync where
  db_ := dbDemo
  statement_ := { stmtTwoAnon.statement_ with resetRc := 1 }

/-- The two-slot statement `stmtTwoAnon` on an engine whose reset drops the
bound values. -/
def stmtTwoAnonClearing : SQLiteStatementSync where
  db_ := dbDemo
  statement_ := { stmtTwoAnon.statement_ with resetClears := true }

/-- A one-slot statement on an engine that reports a name for every slot
index, also above the declared count. -/
def stmtNeverAbsent : SQLiteStatementSync where
  db_ := dbDemo
  statement_ :=
    { paramCount := 1
      paramName := fun _ => some "$p"
      columns := []
      resetRc := SQLITE_OK
      resetClears := false
      bindRc := rangeChecked 1
      exec := fun _ _ => ⟨SQLITE_DONE, []⟩ }

/-! ## Reference descriptions used in statements -/

/-- Predicate: the exception is one that the statement layer itself throws, that
is, any exception other than the two connection-state errors "database is not
open" and "database is already open". -/
def StatementError : JSError → Prop
  | .ERR_INVALID_STATE .databaseNotOpen => False
  | .ERR_INVALID_STATE .databaseAlreadyOpen => False
  | _ => True

/-- Predicate: from `old` to `new` only statement-layer exceptions were
thrown. -/
def ThrowsOnlyStatementErrors (old new : List JSError) : Prop :=
  ∃ extra, new = old ++ extra ∧ ∀ e ∈ extra, StatementError e

/-- The bind calls that a list of positional values should issue when the first
of them goes to slot `slot` and each next one to the next slot. -/
def bindCalls : Nat → List Value → List Call
  | _, [] => []
  | slot, v :: vs =>
    (match encode v with
      | some c => [Call.bind slot c]
      | none => []) ++ bindCalls (slot + 1) vs

/-- The bind calls that a keyed record should issue: for each property in
order, one bind of its encoded value at the slot the engine reports for its
key. -/
def recordCalls (s : sqlite3_stmt) (props : List (String × Value)) : List Call :=
  props.filterMap (fun kv =>
    (encode kv.2).map (Call.bind (sqlite3_bind_parameter_index s kv.1)))

/-- One column of the decoding of a row: the decoded cell is set on the row
object under the column name. -/
def decodeRowStep (columns : List (Option String)) (cells : List Cell) (obj : RowObject)
    (i : Nat) : RowObject :=
  match columns.getD i none with
  | some name => objectSet obj name (decodeCell (cells.getD i Cell.null))
  | none => obj

/-- The decoding of a row of cells under the column names: the own properties
of the row object got by setting on a new object, column after column, the
decoded cell under the column name. -/
def decodeRow (columns : List (Option String)) (cells : List Cell) : Row :=
  ((List.range columns.length).foldl (decodeRowStep columns cells) RowObject.fresh).own

/-- Predicate: from `st` to `st1` the call log and the thrown exceptions only
grew, the latter by statement-layer exceptions. -/
def Extends (st st1 : State) : Prop :=
  (∃ calls, st1.log = st.log ++ calls) ∧ ThrowsOnlyStatementErrors st.thrown st1.thrown

/-- Predicate: every call of the list is a bind call. -/
def AllBinds (l : List Call) : Prop := ∀ c ∈ l, ∃ slot cell, c = Call.bind slot cell

/-- The pairs a row of a statement should hold: for column `i`, in declaration
order, the column name and the decoding of cell `i`. -/
def rowPairs (names : List String) (cells : List Cell) : Row :=
  names.enum.map (fun p => (p.2, decodeCell (cells.getD p.1 Cell.null)))

/-- The number of slots below `cur`, from slot 1 on, that have no declared
name. -/
def unnamedBelow (s : sqlite3_stmt) (cur : Nat) : Nat :=
  (List.range cur).countP (fun k => decide (1 ≤ k) && (s.paramName k).isNone)

/-- The number of positional arguments in a list: those that are neither a plain
keyed record nor an array. -/
def positionalCount (args : List Arg) : Nat :=
  args.countP (fun a => !IsPOJO a && !a.IsArray)

/-- Modelled from the spec: what the engine's reset, which is not among the
translated sources, does to the bound values.  Section 4.4, step 1: "Reset the
statement (clears prior bound values and returns it to Idle)". -/
def ResetClearsBindings (s : sqlite3_stmt) : Prop := s.resetClears = true

/-- Predicate: the step from `s` to `s1` and the step from `t` to `t1` issued
the same calls and stored the same values: both logs grew by the same calls,
both binding lists grew by the same entries, and every entry stored comes from
a bind call among those calls. -/
def SameEffect (s s1 t t1 : State) : Prop :=
  ∃ (calls : List Call) (stored : List (Nat × Cell)),
    s1.log = s.log ++ calls ∧ t1.log = t.log ++ calls ∧
    s1.bound = stored ++ s.bound ∧ t1.bound = stored ++ t.bound ∧
    ∀ p ∈ stored, Call.bind p.1 p.2 ∈ calls

/-- The state a statement is in after a first call `(1, "x")` of run on the
two-slot statement: both slots bound, one step taken. -/
def stateAfterFirstRun : State :=
  { bound := [(2, Cell.text "x"), (1, Cell.float (.finite 1))]
    pc := 1
    row := []
    log := [Call.reset, Call.bind 1 (Cell.float (.finite 1)), Call.bind 2 (Cell.text "x"),
      Call.step]
    thrown := [] }

/-! ## Basic facts -/

theorem skipNamed_of_unnamed (s : sqlite3_stmt) (fuel idx : Nat)
    (h : s.paramName idx = none) : skipNamed s (fuel + 1) idx = some idx := by
  simp [skipNamed, h]

theorem BindValue_of_ok (lib : Lib) (stmt : SQLiteStatementSync) (st : State) (v : Value)
    (c : Cell) (idx : Nat) (hv : encode v = some c)
    (hrc : stmt.statement_.bindRc idx c = SQLITE_OK) :
    BindValue lib stmt st v idx =
      (true, { st with log := st.log ++ [Call.bind idx c], bound := (idx, c) :: st.bound }) := by
  simp [BindValue, hv, hrc]

theorem boundCell_cons_self (st : State) (slot : Nat) (c : Cell) (l : List Call) :
    State.boundCell { st with log := l, bound := (slot, c) :: st.bound } slot = c := by
  simp [State.boundCell, List.lookup]

theorem boundCell_cons_ne (st : State) (slot k : Nat) (c : Cell) (l : List Call)
    (h : slot ≠ k) :
    State.boundCell { st with log := l, bound := (k, c) :: st.bound } slot =
      st.boundCell slot := by
  have hb : (slot == k) = false := by simpa using h
  simp [State.boundCell, List.lookup, hb]

/-- Positional values over anonymous slots: the loop entered at cursor `cur`
binds them to `cur, cur + 1, ...` and leaves every lower slot as it was. -/
theorem bindLoop_positional (lib : Lib) (stmt : SQLiteStatementSync) (fuel : Nat)
    (hfuel : 0 < fuel) (vals : List Value) :
    ∀ (i cur : Nat) (st : State),
      (∀ k, cur ≤ k → k < cur + vals.length → stmt.statement_.paramName k = none) →
      (∀ v ∈ vals, (encode v).isSome) →
      (∀ k c, cur ≤ k → k < cur + vals.length → stmt.statement_.bindRc k c = SQLITE_OK) →
      ∃ st', bindLoop lib stmt fuel (vals.map Arg.value) i cur st
            = some (true, cur + vals.length, st') ∧
          st'.log = st.log ++ bindCalls cur vals ∧
          st'.thrown = st.thrown ∧
          (∀ k, k < cur → st'.boundCell k = st.boundCell k) ∧
          (∀ j (h : j < vals.length),
            encode (vals.get ⟨j, h⟩) = some (st'.boundCell (cur + j))) := by
  obtain ⟨f, rfl⟩ : ∃ f, fuel = f + 1 := ⟨fuel - 1, by omega⟩
  induction vals with
  | nil =>
    intro i cur st _ _ _
    exact ⟨st, by simp [bindLoop], by simp [bindCalls], rfl, fun _ _ => rfl,
      fun j h => absurd h (by simp)⟩
  | cons v vs ih =>
    intro i cur st hname hval hrc
    obtain ⟨c, hc⟩ := Option.isSome_iff_exists.mp (hval v (List.mem_cons_self _ _))
    have hn : stmt.statement_.paramName cur = none :=
      hname cur (le_refl _) (by simp)
    have hr : stmt.statement_.bindRc cur c = SQLITE_OK := hrc cur c (le_refl _) (by simp)
    obtain ⟨st', hrun, hlog, hthrown, hlow, hget⟩ :=
      ih (i + 1) (cur + 1)
        { st with log := st.log ++ [Call.bind cur c], bound := (cur, c) :: st.bound }
        (fun k h1 h2 => hname k (by omega) (by simp only [List.length_cons]; omega))
        (fun w hw => hval w (List.mem_cons_of_mem _ hw))
        (fun k d h1 h2 => hrc k d (by omega) (by simp only [List.length_cons]; omega))
    refine ⟨st', ?_, ?_, ?_, ?_, ?_⟩
    · simp only [List.map_cons, bindLoop, IsPOJO, Arg.IsArray, Bool.false_eq_true, if_false,
        skipNamed_of_unnamed _ _ _ hn, BindValue_of_ok lib stmt st v c cur hc hr, hrun,
        List.length_cons]
      simp [Nat.add_assoc, Nat.add_comm 1]
    · simp [hlog, bindCalls, hc, List.append_assoc]
    · simpa using hthrown
    · intro k hk
      rw [hlow k (by omega)]
      exact boundCell_cons_ne st k cur c _ (by omega)
    · intro j hj
      cases j with
      | zero =>
        have hz : encode ((v :: vs).get ⟨0, hj⟩) = some c := hc
        rw [hz, Nat.add_zero, hlow cur (by omega), boundCell_cons_self]
      | succ j =>
        have := hget j (by simpa using hj)
        simpa [Nat.add_assoc, Nat.add_comm 1] using this

/-! ## C1: positional arguments -/

/-- C1 (as stated) fails: the statement `stmtNamedThenAnon` has 2 declared slots
and is called with exactly 2 positional numbers, yet for no amount of fuel does
`BindParams` succeed; with fuel 2 it returns false after binding the first
argument to slot 2 (slot 1 is named and skipped) and the second to slot 3,
which the engine refuses. -/
theorem C1_counterexample_named_slot_skipped :
    stmtNamedThenAnon.statement_.paramCount = 2 ∧
    (∀ fuel st, BindParams libDemo stmtNamedThenAnon fuel State.init
        [.value (.number (.finite 1)), .value (.number (.finite 2))] ≠ some (true, st)) ∧
    BindParams libDemo stmtNamedThenAnon 2 State.init
        [.value (.number (.finite 1)), .value (.number (.finite 2))] =
      some (false,
        { bound := [(2, Cell.float (.finite 1))]
          pc := 0
          row := []
          log := [Call.bind 2 (Cell.float (.finite 1)), Call.bind 3 (Cell.float (.finite 2))]
          thrown :=
            [JSError.ERR_SQLITE_ERROR
                ⟨"column index out of range", "ERR_SQLITE_ERROR", 25, "column index out of range"⟩,
              JSError.ERR_INVALID_ARG_TYPE (.anonymousParameter 2)] }) := by
  refine ⟨rfl, ?_, by decide⟩
  intro fuel st
  match fuel with
  | 0 => simp [BindParams, bindLoop, IsPOJO, Arg.IsArray, skipNamed]
  | 1 => simp [BindParams, bindLoop, IsPOJO, Arg.IsArray, skipNamed, stmtNamedThenAnon]
  | f + 2 =>
    simp [BindParams, bindLoop, IsPOJO, Arg.IsArray, skipNamed, stmtNamedThenAnon, BindValue,
      encode, rangeChecked, SQLITE_OK, SQLITE_RANGE]

/-- C1 (amended): for a statement with N declared slots none of which has a
declared name, on an engine that accepts a bind at each of the slots 1..N, a
call with exactly N positional arguments, each a number, text, null or buffer,
makes `BindParams` succeed (given fuel for one test of the skip loop): it
issues the bind calls for slot 1, 2, ..., N in argument order, throws nothing,
and leaves slot j+1 holding the encoding of argument j. -/
theorem C1_positional_binds_slot_by_slot (lib : Lib) (stmt : SQLiteStatementSync)
    (fuel : Nat) (st : State) (vals : List Value)
    (hfuel : 0 < fuel)
    (hN : vals.length = stmt.statement_.paramCount)
    (hanon : ∀ k, 1 ≤ k → k ≤ stmt.statement_.paramCount → stmt.statement_.paramName k = none)
    (hvals : ∀ v ∈ vals, (encode v).isSome)
    (hengine : ∀ k c, 1 ≤ k → k ≤ stmt.statement_.paramCount →
      stmt.statement_.bindRc k c = SQLITE_OK) :
    ∃ st', BindParams lib stmt fuel st (vals.map Arg.value) = some (true, st') ∧
      st'.log = st.log ++ bindCalls 1 vals ∧
      st'.thrown = st.thrown ∧
      ∀ j (h : j < vals.length), encode (vals.get ⟨j, h⟩) = some (st'.boundCell (j + 1)) := by
  obtain ⟨st', hrun, hlog, hthrown, _, hget⟩ :=
    bindLoop_positional lib stmt fuel hfuel vals 0 1 st
      (fun k h1 h2 => hanon k h1 (by omega))
      hvals
      (fun k c h1 h2 => hengine k c h1 (by omega))
  refine ⟨st', by simp [BindParams, hrun], hlog, hthrown, ?_⟩
  intro j h
  simpa [Nat.add_comm] using hget j h

/-- C1 (amended), instance: two positional arguments `1` and `"x"` on the
statement with two anonymous slots. -/
theorem C1_positional_binds_slot_by_slot_witness :
    ∃ st', BindParams libDemo stmtTwoAnon 1 State.init
        ([Value.number (.finite 1), Value.string "x"].map Arg.value) = some (true, st') ∧
      st'.log = State.init.log ++ bindCalls 1 [Value.number (.finite 1), Value.string "x"] ∧
      st'.thrown = State.init.thrown ∧
      ∀ j (h : j < [Value.number (.finite 1), Value.string "x"].length),
        encode ([Value.number (.finite 1), Value.string "x"].get ⟨j, h⟩)
          = some (st'.boundCell (j + 1)) :=
  C1_positional_binds_slot_by_slot libDemo stmtTwoAnon 1 State.init
    [Value.number (.finite 1), Value.string "x"] (by decide) rfl (fun _ _ _ => rfl)
    (by decide)
    (fun k c h1 h2 => by
      have h2 : k ≤ 2 := h2
      simp [stmtTwoAnon, rangeChecked, h1, h2])

/-! ## C2: a key that matches no declared name -/

/-- C2 (evaluation at the failing input): on the statement with the single slot
`$val`, a call with the record `{nope: 1}` makes each of run, get and all
return normally after the reset alone: no bind, no step, no return value and
no exception thrown, so none is pending. -/
theorem C2_unknown_key_returns_without_error :
    Run libDemo stmtSelectVal 1 State.init [.pojo [("nope", .number (.finite 1))]]
      = some ⟨none, { State.init with log := [Call.reset] }⟩ ∧
    Get libDemo stmtSelectVal 1 State.init [.pojo [("nope", .number (.finite 1))]]
      = some ⟨none, { State.init with log := [Call.reset] }⟩ ∧
    All libDemo stmtSelectVal 1 State.init [.pojo [("nope", .number (.finite 1))]]
      = some ⟨none, { State.init with log := [Call.reset] }⟩ ∧
    State.pending { State.init with log := [Call.reset] } = none ∧
    sqlite3_bind_parameter_index stmtSelectVal.statement_ (cstr "nope") = 0 := by
  decide

/-! ## C3: keyed records -/

theorem cstr_of_no_nul (s : String) (h : Char.ofNat 0 ∉ s.data) : cstr s = s := by
  have : s.data.takeWhile (fun c => c != Char.ofNat 0) = s.data := by
    rw [List.takeWhile_eq_self_iff]
    intro c hc
    have : c ≠ Char.ofNat 0 := fun e => h (e ▸ hc)
    simpa using this
  simp [cstr, this]

/-- A name carried by some slot in `1..paramCount` is found by the index
lookup, at a slot in range that carries it. -/
theorem sqlite3_bind_parameter_index_of_declared (s : sqlite3_stmt) (name : String)
    (h : ∃ k, 1 ≤ k ∧ k ≤ s.paramCount ∧ s.paramName k = some name) :
    1 ≤ sqlite3_bind_parameter_index s name ∧
      sqlite3_bind_parameter_index s name ≤ s.paramCount ∧
      s.paramName (sqlite3_bind_parameter_index s name) = some name := by
  unfold sqlite3_bind_parameter_index
  cases hf : (List.range' 1 s.paramCount).find? (fun i => s.paramName i == some name) with
  | none =>
    obtain ⟨k, h1, h2, h3⟩ := h
    rw [List.find?_eq_none] at hf
    have := hf k (by rw [List.mem_range']; exact ⟨k - 1, by omega, by omega⟩)
    simp [h3] at this
  | some r =>
    have hmem := List.mem_of_find?_eq_some hf
    have hp := List.find?_some hf
    rw [List.mem_range'] at hmem
    obtain ⟨j, hj, rfl⟩ := hmem
    refine ⟨by simp, by simp; omega, ?_⟩
    simpa using hp

/-- A record whose keys are declared names and whose values the engine accepts
is bound property by property, throws nothing and reports success. -/
theorem bindNamed_of_declared (lib : Lib) (stmt : SQLiteStatementSync) (i : Nat)
    (props : List (String × Value)) :
    ∀ st : State,
      (∀ kv ∈ props, Char.ofNat 0 ∉ kv.1.data ∧
        ∃ k, 1 ≤ k ∧ k ≤ stmt.statement_.paramCount ∧
          stmt.statement_.paramName k = some kv.1) →
      (∀ kv ∈ props, (encode kv.2).isSome) →
      (∀ k c, 1 ≤ k → k ≤ stmt.statement_.paramCount →
        stmt.statement_.bindRc k c = SQLITE_OK) →
      ∃ st', bindNamed lib stmt i props st = (true, st') ∧
        st'.log = st.log ++ recordCalls stmt.statement_ props ∧
        st'.thrown = st.thrown := by
  induction props with
  | nil => intro st _ _ _; exact ⟨st, rfl, by simp [recordCalls], rfl⟩
  | cons kv rest ih =>
    intro st hkeys hvals hengine
    obtain ⟨key, value⟩ := kv
    obtain ⟨hnul, hdecl⟩ := hkeys (key, value) (List.mem_cons_self _ _)
    obtain ⟨c, hc⟩ := Option.isSome_iff_exists.mp (hvals (key, value) (List.mem_cons_self _ _))
    obtain ⟨h1, h2, _⟩ := sqlite3_bind_parameter_index_of_declared stmt.statement_ key hdecl
    have hrc := hengine (sqlite3_bind_parameter_index stmt.statement_ key) c h1 h2
    obtain ⟨st', hrun, hlog, hthrown⟩ :=
      ih { st with
            log := st.log ++ [Call.bind (sqlite3_bind_parameter_index stmt.statement_ key) c]
            bound := (sqlite3_bind_parameter_index stmt.statement_ key, c) :: st.bound }
        (fun kv hkv => hkeys kv (List.mem_cons_of_mem _ hkv))
        (fun kv hkv => hvals kv (List.mem_cons_of_mem _ hkv)) hengine
    refine ⟨st', ?_, ?_, ?_⟩
    · have hne : sqlite3_bind_parameter_index stmt.statement_ key ≠ 0 := by omega
      simp only [bindNamed, cstr_of_no_nul key hnul, hne, if_false,
        BindValue_of_ok lib stmt st value c _ hc hrc, hrun]
    · have hc2 : encode value = some c := hc
      simp [hlog, recordCalls, hc2, List.append_assoc]
    · simpa using hthrown

/-- The status and the calls of `BindValue` do not depend on the state it
starts from. -/
theorem BindValue_frame (lib : Lib) (stmt : SQLiteStatementSync) (v : Value) (idx : Nat)
    (s t : State) :
    ∃ Δ, (BindValue lib stmt s v idx).2.log = s.log ++ Δ ∧
      (BindValue lib stmt t v idx).2.log = t.log ++ Δ ∧
      (BindValue lib stmt s v idx).1 = (BindValue lib stmt t v idx).1 := by
  unfold BindValue
  cases encode v with
  | none => exact ⟨[], by simp, by simp, rfl⟩
  | some c =>
    by_cases hrc : stmt.statement_.bindRc idx c = SQLITE_OK
    · exact ⟨[Call.bind idx c], by simp [hrc], by simp [hrc], by simp [hrc]⟩
    · exact ⟨[Call.bind idx c], by simp [hrc, THROW_ERR_SQLITE_ERROR, State.throw],
        by simp [hrc, THROW_ERR_SQLITE_ERROR, State.throw], by simp [hrc]⟩

/-- The status and the calls of the record loop do not depend on the state it
starts from, nor on the argument index. -/
theorem bindNamed_frame (lib : Lib) (stmt : SQLiteStatementSync)
    (props : List (String × Value)) :
    ∀ (i j : Nat) (s t : State),
      ∃ Δ, (bindNamed lib stmt i props s).2.log = s.log ++ Δ ∧
        (bindNamed lib stmt j props t).2.log = t.log ++ Δ ∧
        (bindNamed lib stmt i props s).1 = (bindNamed lib stmt j props t).1 := by
  induction props with
  | nil => intro i j s t; exact ⟨[], by simp [bindNamed], by simp [bindNamed], rfl⟩
  | cons kv rest ih =>
    intro i j s t
    obtain ⟨key, value⟩ := kv
    by_cases h0 : sqlite3_bind_parameter_index stmt.statement_ (cstr key) = 0
    · exact ⟨[], by simp [bindNamed, h0], by simp [bindNamed, h0], by simp [bindNamed, h0]⟩
    · obtain ⟨Δ1, hs, ht, hb⟩ := BindValue_frame lib stmt value
        (sqlite3_bind_parameter_index stmt.statement_ (cstr key)) s t
      cases hS : BindValue lib stmt s value
          (sqlite3_bind_parameter_index stmt.statement_ (cstr key)) with
      | mk b s1 =>
        cases hT : BindValue lib stmt t value
            (sqlite3_bind_parameter_index stmt.statement_ (cstr key)) with
        | mk b2 t1 =>
          rw [hS, hT] at hb
          rw [hS] at hs
          rw [hT] at ht
          simp only at hb hs ht
          subst hb
          cases b with
          | false =>
            exact ⟨Δ1, by simp [bindNamed, h0, hS, State.throw, hs],
              by simp [bindNamed, h0, hT, State.throw, ht], by simp [bindNamed, h0, hS, hT]⟩
          | true =>
            obtain ⟨Δ2, hs2, ht2, hb2⟩ := ih i j s1 t1
            refine ⟨Δ1 ++ Δ2, ?_, ?_, ?_⟩
            · simp [bindNamed, h0, hS, hs2, hs, List.append_assoc]
            · simp [bindNamed, h0, hT, ht2, ht, List.append_assoc]
            · simp [bindNamed, h0, hS, hT, hb2]

/-- The cursor, the status and the calls of the argument loop do not depend on
the state it starts from, nor on the argument index. -/
theorem bindLoop_frame (lib : Lib) (stmt : SQLiteStatementSync) (fuel : Nat)
    (args : List Arg) :
    ∀ (i j cur : Nat) (s t : State) (ok : Bool) (cur' : Nat) (s' : State),
      bindLoop lib stmt fuel args i cur s = some (ok, cur', s') →
      ∃ Δ t', s'.log = s.log ++ Δ ∧
        bindLoop lib stmt fuel args j cur t = some (ok, cur', t') ∧
        t'.log = t.log ++ Δ := by
  induction args with
  | nil =>
    intro i j cur s t ok cur' s' h
    simp only [bindLoop, Option.some.injEq, Prod.mk.injEq] at h
    obtain ⟨rfl, rfl, rfl⟩ := h
    exact ⟨[], t, by simp, by simp [bindLoop], by simp⟩
  | cons arg rest ih =>
    intro i j cur s t ok cur' s' h
    cases arg with
    | pojo props =>
      obtain ⟨Δ1, hs, ht, hb⟩ := bindNamed_frame lib stmt props i j s t
      cases hS : bindNamed lib stmt i props s with
      | mk b s1 =>
        cases hT : bindNamed lib stmt j props t with
        | mk b2 t1 =>
          rw [hS, hT] at hb
          rw [hS] at hs
          rw [hT] at ht
          simp only at hb hs ht
          subst hb
          cases b with
          | false =>
            simp only [bindLoop, IsPOJO, if_true, hS, Option.some.injEq, Prod.mk.injEq] at h
            obtain ⟨rfl, rfl, rfl⟩ := h
            exact ⟨Δ1, t1, hs, by simp [bindLoop, IsPOJO, hT], ht⟩
          | true =>
            simp only [bindLoop, IsPOJO, if_true, hS] at h
            obtain ⟨Δ2, t', hs2, hrun, ht2⟩ := ih (i + 1) (j + 1) cur s1 t1 ok cur' s' h
            exact ⟨Δ1 ++ Δ2, t', by simp [hs2, hs, List.append_assoc],
              by simp [bindLoop, IsPOJO, hT, hrun], by simp [ht2, ht, List.append_assoc]⟩
    | array items =>
      simp only [bindLoop, IsPOJO, Arg.IsArray, Bool.false_eq_true, if_false, if_true] at h
      obtain ⟨Δ, t', hs, hrun, ht⟩ := ih (i + 1) (j + 1) cur s t ok cur' s' h
      exact ⟨Δ, t', hs, by simp [bindLoop, IsPOJO, Arg.IsArray, hrun], ht⟩
    | value v =>
      simp only [bindLoop, IsPOJO, Arg.IsArray, Bool.false_eq_true, if_false] at h
      cases hk : skipNamed stmt.statement_ fuel cur with
      | none => simp [hk] at h
      | some idx =>
        simp only [hk] at h
        obtain ⟨Δ1, hs, ht, hb⟩ := BindValue_frame lib stmt v idx s t
        cases hS : BindValue lib stmt s v idx with
        | mk b s1 =>
          cases hT : BindValue lib stmt t v idx with
          | mk b2 t1 =>
            rw [hS, hT] at hb
            rw [hS] at hs
            rw [hT] at ht
            simp only at hb hs ht
            subst hb
            cases b with
            | false =>
              simp only [hS, Option.some.injEq, Prod.mk.injEq] at h
              obtain ⟨rfl, rfl, rfl⟩ := h
              exact ⟨Δ1, _, by simp [State.throw, hs],
                by simp [bindLoop, IsPOJO, Arg.IsArray, hk, hT]; rfl,
                by simp [State.throw, ht]⟩
            | true =>
              simp only [hS] at h
              obtain ⟨Δ2, t', hs2, hrun, ht2⟩ :=
                ih (i + 1) (j + 1) (idx + 1) s1 t1 ok cur' s' h
              exact ⟨Δ1 ++ Δ2, t', by simp [hs2, hs, List.append_assoc],
                by simp [bindLoop, IsPOJO, Arg.IsArray, hk, hT, hrun],
                by simp [ht2, ht, List.append_assoc]⟩

/-- The argument loop over `pre ++ rest` runs `pre` and, when that succeeds,
goes on with `rest` from the cursor and state reached. -/
theorem bindLoop_append (lib : Lib) (stmt : SQLiteStatementSync) (fuel : Nat)
    (pre rest : List Arg) :
    ∀ (i cur : Nat) (s : State) (cur1 : Nat) (s1 : State),
      bindLoop lib stmt fuel pre i cur s = some (true, cur1, s1) →
      bindLoop lib stmt fuel (pre ++ rest) i cur s
        = bindLoop lib stmt fuel rest (i + pre.length) cur1 s1 := by
  induction pre with
  | nil =>
    intro i cur s cur1 s1 h
    simp only [bindLoop, Option.some.injEq, Prod.mk.injEq, true_and] at h
    obtain ⟨rfl, rfl⟩ := h
    simp
  | cons arg pre ih =>
    intro i cur s cur1 s1 h
    have hlen : i + (arg :: pre).length = i + 1 + pre.length := by
      simp only [List.length_cons]; omega
    rw [hlen]
    cases arg with
    | pojo props =>
      cases hS : bindNamed lib stmt i props s with
      | mk b s0 =>
        cases b with
        | false => simp [bindLoop, IsPOJO, hS] at h
        | true =>
          simp only [bindLoop, IsPOJO, if_true, hS] at h
          simp only [List.cons_append, bindLoop, IsPOJO, if_true, hS]
          exact ih (i + 1) cur s0 cur1 s1 h
    | array items =>
      simp only [bindLoop, IsPOJO, Arg.IsArray, Bool.false_eq_true, if_false, if_true] at h
      simp only [List.cons_append, bindLoop, IsPOJO, Arg.IsArray, Bool.false_eq_true, if_false,
        if_true]
      exact ih (i + 1) cur s cur1 s1 h
    | value v =>
      simp only [bindLoop, IsPOJO, Arg.IsArray, Bool.false_eq_true, if_false] at h
      simp only [List.cons_append, bindLoop, IsPOJO, Arg.IsArray, Bool.false_eq_true, if_false]
      cases hk : skipNamed stmt.statement_ fuel cur with
      | none => simp [hk] at h
      | some idx =>
        simp only [hk] at h ⊢
        cases hS : BindValue lib stmt s v idx with
        | mk b s0 =>
          cases b with
          | false => simp [hS] at h
          | true =>
            simp only [hS] at h ⊢
            exact ih (i + 1) (idx + 1) s0 cur1 s1 h

/-- C3: let a plain keyed record stand anywhere in the argument list, between
the arguments `pre` and `post`; let every key be NUL-free and equal to the
declared name of some slot, every value be a number, text, null or buffer, and
the engine accept binds at the declared slots.  If the arguments before the
record bind successfully, reaching cursor `c1`, and the arguments after it,
run from that cursor, end with status `ok` at cursor `c2` having issued the
calls `Δ` (which is the run of `pre ++ post`, the record absent), then with the
record present `BindParams` ends with the same status and the same cursor, and
its calls are those of `pre`, then one bind per property at the slot whose
declared name equals the key, then the same calls `Δ`. -/
theorem C3_record_binds_by_name_keeps_cursor (lib : Lib) (stmt : SQLiteStatementSync)
    (fuel : Nat) (st : State) (pre post : List Arg) (props : List (String × Value))
    (c1 c2 : Nat) (s1 s2 : State) (ok : Bool)
    (hkeys : ∀ kv ∈ props, Char.ofNat 0 ∉ kv.1.data ∧
      ∃ k, 1 ≤ k ∧ k ≤ stmt.statement_.paramCount ∧ stmt.statement_.paramName k = some kv.1)
    (hvals : ∀ kv ∈ props, (encode kv.2).isSome)
    (hengine : ∀ k c, 1 ≤ k → k ≤ stmt.statement_.paramCount →
      stmt.statement_.bindRc k c = SQLITE_OK)
    (hpre : bindLoop lib stmt fuel pre 0 1 st = some (true, c1, s1))
    (hpost : bindLoop lib stmt fuel post pre.length c1 s1 = some (ok, c2, s2)) :
    bindLoop lib stmt fuel (pre ++ post) 0 1 st = some (ok, c2, s2) ∧
    (∀ kv ∈ props,
      stmt.statement_.paramName (sqlite3_bind_parameter_index stmt.statement_ kv.1)
        = some kv.1) ∧
    (recordCalls stmt.statement_ props).length = props.length ∧
    ∃ Δ s', s2.log = s1.log ++ Δ ∧
      bindLoop lib stmt fuel (pre ++ Arg.pojo props :: post) 0 1 st = some (ok, c2, s') ∧
      BindParams lib stmt fuel st (pre ++ Arg.pojo props :: post) = some (ok, s') ∧
      s'.log = s1.log ++ recordCalls stmt.statement_ props ++ Δ := by
  refine ⟨?_, ?_, ?_, ?_⟩
  · rw [bindLoop_append lib stmt fuel pre post 0 1 st c1 s1 hpre]
    simpa using hpost
  · intro kv hkv
    exact (sqlite3_bind_parameter_index_of_declared stmt.statement_ kv.1 (hkeys kv hkv).2).2.2
  · unfold recordCalls
    have : ∀ l : List (String × Value), (∀ kv ∈ l, (encode kv.2).isSome) →
        (l.filterMap (fun kv =>
          (encode kv.2).map (Call.bind (sqlite3_bind_parameter_index stmt.statement_ kv.1)))).length
          = l.length := by
      intro l
      induction l with
      | nil => intro _; rfl
      | cons a l ih =>
        intro h
        obtain ⟨c, hc⟩ := Option.isSome_iff_exists.mp (h a (List.mem_cons_self _ _))
        simp [List.filterMap_cons, hc, ih (fun kv hkv => h kv (List.mem_cons_of_mem _ hkv))]
    exact this props hvals
  · obtain ⟨s1', hrec, hlog, _⟩ :=
      bindNamed_of_declared lib stmt pre.length props s1 hkeys hvals hengine
    obtain ⟨Δ, s', hs2, hrun, hs'⟩ :=
      bindLoop_frame lib stmt fuel post pre.length (pre.length + 1) c1 s1 s1' ok c2 s2 hpost
    have hfull : bindLoop lib stmt fuel (pre ++ Arg.pojo props :: post) 0 1 st
        = some (ok, c2, s') := by
      rw [bindLoop_append lib stmt fuel pre (Arg.pojo props :: post) 0 1 st c1 s1 hpre]
      simp only [Nat.zero_add, bindLoop, IsPOJO, if_true, hrec, hrun]
    exact ⟨Δ, s', hs2, hfull, by simp [BindParams, hfull], by rw [hs', hlog]⟩

/-- C3, instance: on the statement with slots `?`, `$b`, `?` the call
`(1, {$b: "x"}, null)` binds 1 to slot 1, "x" to slot 2 and null to slot 3. -/
theorem C3_record_binds_by_name_keeps_cursor_witness :
    BindParams libDemo stmtAnonNamedAnon 2 State.init
        [.value (.number (.finite 1)), .pojo [("$b", .string "x")], .value .null]
      = some (true,
          { State.init with
            bound := [(3, Cell.null), (2, Cell.text "x"), (1, Cell.float (.finite 1))]
            log := [Call.bind 1 (Cell.float (.finite 1)), Call.bind 2 (Cell.text "x"),
              Call.bind 3 Cell.null] }) ∧
    (bindLoop libDemo stmtAnonNamedAnon 2
        ([.value (.number (.finite 1))] ++ [.value .null]) 0 1 State.init
      = some (true, 4,
          { State.init with
            bound := [(3, Cell.null), (1, Cell.float (.finite 1))]
            log := [Call.bind 1 (Cell.float (.finite 1)), Call.bind 3 Cell.null] }) ∧
    (∀ kv ∈ [("$b", Value.string "x")],
      stmtAnonNamedAnon.statement_.paramName
          (sqlite3_bind_parameter_index stmtAnonNamedAnon.statement_ kv.1) = some kv.1) ∧
    (recordCalls stmtAnonNamedAnon.statement_ [("$b", Value.string "x")]).length
      = [("$b", Value.string "x")].length ∧
    ∃ Δ s',
      State.log
          { State.init with
            bound := [(3, Cell.null), (1, Cell.float (.finite 1))]
            log := [Call.bind 1 (Cell.float (.finite 1)), Call.bind 3 Cell.null] }
        = State.log
            { State.init with
              bound := [(1, Cell.float (.finite 1))]
              log := [Call.bind 1 (Cell.float (.finite 1))] } ++ Δ ∧
      bindLoop libDemo stmtAnonNamedAnon 2
          ([.value (.number (.finite 1))] ++ Arg.pojo [("$b", .string "x")] :: [.value .null])
          0 1 State.init = some (true, 4, s') ∧
      BindParams libDemo stmtAnonNamedAnon 2 State.init
          ([.value (.number (.finite 1))] ++ Arg.pojo [("$b", .string "x")] :: [.value .null])
        = some (true, s') ∧
      s'.log =
        State.log
            { State.init with
              bound := [(1, Cell.float (.finite 1))]
              log := [Call.bind 1 (Cell.float (.finite 1))] }
          ++ recordCalls stmtAnonNamedAnon.statement_ [("$b", .string "x")] ++ Δ) :=
  ⟨by decide,
    C3_record_binds_by_name_keeps_cursor libDemo stmtAnonNamedAnon 2 State.init
      [.value (.number (.finite 1))] [.value .null] [("$b", .string "x")] 2 4
      { State.init with
        bound := [(1, Cell.float (.finite 1))]
        log := [Call.bind 1 (Cell.float (.finite 1))] }
      { State.init with
        bound := [(3, Cell.null), (1, Cell.float (.finite 1))]
        log := [Call.bind 1 (Cell.float (.finite 1)), Call.bind 3 Cell.null] }
      true
      (by
        intro kv hkv
        simp only [List.mem_singleton] at hkv
        subst hkv
        exact ⟨by decide, 2, by decide, by decide, by decide⟩)
      (by decide)
      (fun k c h1 h2 => by
        have h2 : k ≤ 3 := h2
        simp [stmtAnonNamedAnon, rangeChecked, h1, h2])
      (by decide) (by decide)⟩

/-! ## C4: the `SELECT $val AS v` scenario -/

/-- C4 (as stated) fails: on the statement prepared from `"SELECT $val AS v"`,
`Get` with the single argument `{val: 42}` finds no slot for the key `val`
(the declared name is `$val`), binds nothing, does not step and sets no return
value, so no row `{v: 42}` comes back. -/
theorem C4_counterexample_unprefixed_key :
    sqlite3_bind_parameter_index stmtSelectVal.statement_ (cstr "val") = 0 ∧
    Get libDemo stmtSelectVal 1 State.init [.pojo [("val", .number (.finite 42))]]
      = some ⟨none, { State.init with log := [Call.reset] }⟩ ∧
    Get libDemo stmtSelectVal 1 State.init [.pojo [("val", .number (.finite 42))]]
      ≠ some ⟨some (.object [("v", .number (.finite 42))]),
          { bound := [(1, Cell.float (.finite 42))]
            pc := 1
            row := [Cell.float (.finite 42)]
            log := [Call.reset, Call.bind 1 (Cell.float (.finite 42)), Call.step,
              Call.column_name 0, Call.column 0]
            thrown := [] }⟩ := by
  decide

/-- C4 (amended): on the statement prepared from `"SELECT $val AS v"`, `Get`
with the single argument `{$val: 42}`, the key written with its sigil, binds
42 to slot 1, steps once, reads the one column and returns the row `{v: 42}`
with nothing thrown. -/
theorem C4_get_with_sigil_key_returns_row :
    Get libDemo stmtSelectVal 1 State.init [.pojo [("$val", .number (.finite 42))]]
      = some ⟨some (.object [("v", .number (.finite 42))]),
          { bound := [(1, Cell.float (.finite 42))]
            pc := 1
            row := [Cell.float (.finite 42)]
            log := [Call.reset, Call.bind 1 (Cell.float (.finite 42)), Call.step,
              Call.column_name 0, Call.column 0]
            thrown := [] }⟩ := by
  decide

/-! ## What binding leaves untouched -/

theorem AllBinds.nil : AllBinds [] := fun _ h => absurd h (List.not_mem_nil _)

theorem AllBinds.append {a b : List Call} (ha : AllBinds a) (hb : AllBinds b) :
    AllBinds (a ++ b) := by
  intro c hc
  rcases List.mem_append.mp hc with h | h
  · exact ha c h
  · exact hb c h

/-- Method `BindValue` keeps the cursor and the current row, logs bind calls
only, and throws nothing when it reports success. -/
theorem BindValue_effect (lib : Lib) (stmt : SQLiteStatementSync) (st : State) (v : Value)
    (idx : Nat) :
    (BindValue lib stmt st v idx).2.pc = st.pc ∧
    (BindValue lib stmt st v idx).2.row = st.row ∧
    (∃ Δ, (BindValue lib stmt st v idx).2.log = st.log ++ Δ ∧ AllBinds Δ) ∧
    ((BindValue lib stmt st v idx).1 = true →
      (BindValue lib stmt st v idx).2.thrown = st.thrown) := by
  unfold BindValue
  cases encode v with
  | none => exact ⟨rfl, rfl, ⟨[], by simp, AllBinds.nil⟩, fun _ => rfl⟩
  | some c =>
    have hb : AllBinds [Call.bind idx c] := by
      intro x hx
      exact ⟨idx, c, by simpa using hx⟩
    by_cases hrc : stmt.statement_.bindRc idx c = SQLITE_OK
    · exact ⟨by simp [hrc], by simp [hrc], ⟨_, by simp [hrc], hb⟩, by simp [hrc]⟩
    · exact ⟨by simp [hrc, THROW_ERR_SQLITE_ERROR, State.throw],
        by simp [hrc, THROW_ERR_SQLITE_ERROR, State.throw],
        ⟨_, by simp [hrc, THROW_ERR_SQLITE_ERROR, State.throw], hb⟩, by simp [hrc]⟩

theorem bindNamed_effect (lib : Lib) (stmt : SQLiteStatementSync) (i : Nat)
    (props : List (String × Value)) :
    ∀ st : State,
      (bindNamed lib stmt i props st).2.pc = st.pc ∧
      (bindNamed lib stmt i props st).2.row = st.row ∧
      (∃ Δ, (bindNamed lib stmt i props st).2.log = st.log ++ Δ ∧ AllBinds Δ) ∧
      ((bindNamed lib stmt i props st).1 = true →
        (bindNamed lib stmt i props st).2.thrown = st.thrown) := by
  induction props with
  | nil => intro st; exact ⟨rfl, rfl, ⟨[], by simp [bindNamed], AllBinds.nil⟩, fun _ => rfl⟩
  | cons kv rest ih =>
    intro st
    obtain ⟨key, value⟩ := kv
    by_cases h0 : sqlite3_bind_parameter_index stmt.statement_ (cstr key) = 0
    · exact ⟨by simp [bindNamed, h0], by simp [bindNamed, h0],
        ⟨[], by simp [bindNamed, h0], AllBinds.nil⟩, fun h => by simp [bindNamed, h0] at h⟩
    · obtain ⟨hpc, hrow, ⟨Δ1, hlog, hall⟩, hthrown⟩ := BindValue_effect lib stmt st value
        (sqlite3_bind_parameter_index stmt.statement_ (cstr key))
      cases hS : BindValue lib stmt st value
          (sqlite3_bind_parameter_index stmt.statement_ (cstr key)) with
      | mk b s1 =>
        rw [hS] at hpc hrow hlog hthrown
        simp only at hpc hrow hlog hthrown
        cases b with
        | false =>
          simp only [bindNamed, h0, if_false, hS]
          exact ⟨by simp [State.throw, hpc], by simp [State.throw, hrow],
            ⟨Δ1, by simp [State.throw, hlog], hall⟩, fun h => by simp at h⟩
        | true =>
          obtain ⟨hpc2, hrow2, ⟨Δ2, hlog2, hall2⟩, hthrown2⟩ := ih s1
          simp only [bindNamed, h0, if_false, hS]
          exact ⟨by rw [hpc2, hpc], by rw [hrow2, hrow],
            ⟨Δ1 ++ Δ2, by rw [hlog2, hlog, List.append_assoc], hall.append hall2⟩,
            fun h => by rw [hthrown2 h, hthrown rfl]⟩

/-- The argument loop keeps the step counter and the current row, logs bind
calls only, and throws nothing when it reports success. -/
theorem bindLoop_effect (lib : Lib) (stmt : SQLiteStatementSync) (fuel : Nat)
    (args : List Arg) :
    ∀ (i cur : Nat) (st : State) (ok : Bool) (cur' : Nat) (st' : State),
      bindLoop lib stmt fuel args i cur st = some (ok, cur', st') →
      st'.pc = st.pc ∧ st'.row = st.row ∧
      (∃ Δ, st'.log = st.log ++ Δ ∧ AllBinds Δ) ∧
      (ok = true → st'.thrown = st.thrown) := by
  induction args with
  | nil =>
    intro i cur st ok cur' st' h
    simp only [bindLoop, Option.some.injEq, Prod.mk.injEq] at h
    obtain ⟨rfl, rfl, rfl⟩ := h
    exact ⟨rfl, rfl, ⟨[], by simp, AllBinds.nil⟩, fun _ => rfl⟩
  | cons arg rest ih =>
    intro i cur st ok cur' st' h
    cases arg with
    | pojo props =>
      obtain ⟨hpc, hrow, ⟨Δ1, hlog, hall⟩, hthrown⟩ := bindNamed_effect lib stmt i props st
      cases hS : bindNamed lib stmt i props st with
      | mk b s1 =>
        rw [hS] at hpc hrow hlog hthrown
        simp only at hpc hrow hlog hthrown
        cases b with
        | false =>
          simp only [bindLoop, IsPOJO, if_true, hS, Option.some.injEq, Prod.mk.injEq] at h
          obtain ⟨rfl, rfl, rfl⟩ := h
          exact ⟨hpc, hrow, ⟨Δ1, hlog, hall⟩, fun h => by simp at h⟩
        | true =>
          simp only [bindLoop, IsPOJO, if_true, hS] at h
          obtain ⟨hpc2, hrow2, ⟨Δ2, hlog2, hall2⟩, hthrown2⟩ := ih (i + 1) cur s1 ok cur' st' h
          exact ⟨by rw [hpc2, hpc], by rw [hrow2, hrow],
            ⟨Δ1 ++ Δ2, by rw [hlog2, hlog, List.append_assoc], hall.append hall2⟩,
            fun h => by rw [hthrown2 h, hthrown rfl]⟩
    | array items =>
      simp only [bindLoop, IsPOJO, Arg.IsArray, Bool.false_eq_true, if_false, if_true] at h
      exact ih (i + 1) cur st ok cur' st' h
    | value v =>
      simp only [bindLoop, IsPOJO, Arg.IsArray, Bool.false_eq_true, if_false] at h
      cases hk : skipNamed stmt.statement_ fuel cur with
      | none => simp [hk] at h
      | some idx =>
        simp only [hk] at h
        obtain ⟨hpc, hrow, ⟨Δ1, hlog, hall⟩, hthrown⟩ := BindValue_effect lib stmt st v idx
        cases hS : BindValue lib stmt st v idx with
        | mk b s1 =>
          rw [hS] at hpc hrow hlog hthrown
          simp only at hpc hrow hlog hthrown
          cases b with
          | false =>
            simp only [hS, Option.some.injEq, Prod.mk.injEq] at h
            obtain ⟨rfl, rfl, rfl⟩ := h
            exact ⟨by simp [State.throw, hpc], by simp [State.throw, hrow],
              ⟨Δ1, by simp [State.throw, hlog], hall⟩, fun h => by simp at h⟩
          | true =>
            simp only [hS] at h
            obtain ⟨hpc2, hrow2, ⟨Δ2, hlog2, hall2⟩, hthrown2⟩ :=
              ih (i + 1) (idx + 1) s1 ok cur' st' h
            exact ⟨by rw [hpc2, hpc], by rw [hrow2, hrow],
              ⟨Δ1 ++ Δ2, by rw [hlog2, hlog, List.append_assoc], hall.append hall2⟩,
              fun h => by rw [hthrown2 h, hthrown rfl]⟩

/-- A successful `BindParams` after a reset: the step counter is 0, nothing was
thrown, and the log is the old log, the reset, then bind calls only. -/
theorem BindParams_after_reset (lib : Lib) (stmt : SQLiteStatementSync) (fuel : Nat)
    (st st2 : State) (args : List Arg)
    (hbind : BindParams lib stmt fuel (sqlite3_reset stmt.statement_ st).2 args
      = some (true, st2)) :
    st2.pc = 0 ∧ st2.thrown = st.thrown ∧
      ∃ binds, AllBinds binds ∧ st2.log = st.log ++ Call.reset :: binds := by
  unfold BindParams at hbind
  cases hL : bindLoop lib stmt fuel args 0 1 (sqlite3_reset stmt.statement_ st).2 with
  | none => simp [hL] at hbind
  | some r =>
    obtain ⟨ok, cur', st'⟩ := r
    simp only [hL, Option.map_some', Option.some.injEq, Prod.mk.injEq] at hbind
    obtain ⟨rfl, rfl⟩ := hbind
    obtain ⟨hpc, _, ⟨Δ, hlog, hall⟩, hthrown⟩ :=
      bindLoop_effect lib stmt fuel args 0 1 _ true cur' st' hL
    exact ⟨by rw [hpc]; rfl, by rw [hthrown rfl]; rfl,
      ⟨Δ, hall, by rw [hlog]; simp [sqlite3_reset]⟩⟩

/-! ## C5: `Get` on a statement that yields no row -/

/-- C5: when the reset reports success, binding succeeds and the first step
reports `SQLITE_DONE`, `Get` returns with the return value unset and nothing
thrown; after the reset and the bind calls its only engine call is that one
step, so no column name and no cell is read and no row object is built. -/
theorem C5_get_reports_no_result (lib : Lib) (stmt : SQLiteStatementSync) (fuel : Nat)
    (st st2 : State) (args : List Arg)
    (hreset : stmt.statement_.resetRc = SQLITE_OK)
    (hbind : BindParams lib stmt fuel (sqlite3_reset stmt.statement_ st).2 args
      = some (true, st2))
    (hstep : (sqlite3_step stmt.statement_ st2).1 = SQLITE_DONE) :
    ∃ res binds, Get lib stmt fuel st args = some res ∧
      res.returnValue = none ∧
      res.state.thrown = st.thrown ∧
      AllBinds binds ∧
      res.state.log = st.log ++ Call.reset :: binds ++ [Call.step] := by
  obtain ⟨_, hthrown, binds, hall, hlog⟩ :=
    BindParams_after_reset lib stmt fuel st st2 args hbind
  refine ⟨⟨none, (sqlite3_step stmt.statement_ st2).2⟩, binds, ?_, rfl, ?_, hall, ?_⟩
  · have hr : (sqlite3_reset stmt.statement_ st).1 = SQLITE_OK := hreset
    unfold Get
    simp [hr, hbind, hstep, SQLITE_DONE, SQLITE_ROW]
  · simpa [sqlite3_step] using hthrown
  · simp [sqlite3_step, hlog]

/-- C5, instance: `Get` with `(1, "x")` on the statement with two anonymous
slots, whose first step reports `SQLITE_DONE`. -/
theorem C5_get_reports_no_result_witness :
    ∃ res binds, Get libDemo stmtTwoAnon 1 State.init
        [.value (.number (.finite 1)), .value (.string "x")] = some res ∧
      res.returnValue = none ∧
      res.state.thrown = State.init.thrown ∧
      AllBinds binds ∧
      res.state.log = State.init.log ++ Call.reset :: binds ++ [Call.step] :=
  C5_get_reports_no_result libDemo stmtTwoAnon 1 State.init
    { State.init with
      bound := [(2, Cell.text "x"), (1, Cell.float (.finite 1))]
      log := [Call.reset, Call.bind 1 (Cell.float (.finite 1)), Call.bind 2 (Cell.text "x")] }
    [.value (.number (.finite 1)), .value (.string "x")] rfl (by decide) (by decide)

/-! ## C7: `Run` -/

/-- C7: when the reset reports success and binding succeeds, `Run` returns with
the return value unset, and after the reset and the bind calls its only engine
call is one step.  If that step's status is neither `SQLITE_ROW` nor
`SQLITE_DONE` exactly one exception is thrown, the structured engine error; if
the status is one of the two nothing is thrown. -/
theorem C7_run_steps_once (lib : Lib) (stmt : SQLiteStatementSync) (fuel : Nat)
    (st st2 : State) (args : List Arg)
    (hreset : stmt.statement_.resetRc = SQLITE_OK)
    (hbind : BindParams lib stmt fuel (sqlite3_reset stmt.statement_ st).2 args
      = some (true, st2)) :
    ∃ res binds, Run lib stmt fuel st args = some res ∧
      res.returnValue = none ∧
      AllBinds binds ∧
      res.state.log = st.log ++ Call.reset :: binds ++ [Call.step] ∧
      (((sqlite3_step stmt.statement_ st2).1 ≠ SQLITE_ROW ∧
          (sqlite3_step stmt.statement_ st2).1 ≠ SQLITE_DONE) →
        res.state.thrown
          = st.thrown ++ [JSError.ERR_SQLITE_ERROR (CreateSQLiteError lib (some stmt.db_))]) ∧
      (((sqlite3_step stmt.statement_ st2).1 = SQLITE_ROW ∨
          (sqlite3_step stmt.statement_ st2).1 = SQLITE_DONE) →
        res.state.thrown = st.thrown) := by
  obtain ⟨_, hthrown, binds, hall, hlog⟩ :=
    BindParams_after_reset lib stmt fuel st st2 args hbind
  have hr : (sqlite3_reset stmt.statement_ st).1 = SQLITE_OK := hreset
  by_cases herr : (sqlite3_step stmt.statement_ st2).1 ≠ SQLITE_ROW ∧
      (sqlite3_step stmt.statement_ st2).1 ≠ SQLITE_DONE
  · refine ⟨⟨none, THROW_ERR_SQLITE_ERROR lib (some stmt.db_)
        (sqlite3_step stmt.statement_ st2).2⟩, binds, ?_, rfl, hall, ?_, ?_, ?_⟩
    · unfold Run
      simp [hr, hbind, herr]
    · simp [THROW_ERR_SQLITE_ERROR, State.throw, sqlite3_step, hlog]
    · intro _
      simp [THROW_ERR_SQLITE_ERROR, State.throw, sqlite3_step, hthrown]
    · intro h
      rcases h with h | h
      · exact absurd h herr.1
      · exact absurd h herr.2
  · refine ⟨⟨none, (sqlite3_step stmt.statement_ st2).2⟩, binds, ?_, rfl, hall, ?_, ?_, ?_⟩
    · unfold Run
      simp [hr, hbind, herr]
    · simp [sqlite3_step, hlog]
    · intro h
      exact absurd h herr
    · intro _
      simpa [sqlite3_step] using hthrown

/-- C7, instance: `Run` without arguments on the two-column select, whose first
step reports a row. -/
theorem C7_run_steps_once_witness :
    ∃ res binds, Run libDemo stmtSelectAB 0 State.init [] = some res ∧
      res.returnValue = none ∧
      AllBinds binds ∧
      res.state.log = State.init.log ++ Call.reset :: binds ++ [Call.step] ∧
      (((sqlite3_step stmtSelectAB.statement_ { State.init with log := [Call.reset] }).1
            ≠ SQLITE_ROW ∧
          (sqlite3_step stmtSelectAB.statement_ { State.init with log := [Call.reset] }).1
            ≠ SQLITE_DONE) →
        res.state.thrown
          = State.init.thrown ++
            [JSError.ERR_SQLITE_ERROR (CreateSQLiteError libDemo (some stmtSelectAB.db_))]) ∧
      (((sqlite3_step stmtSelectAB.statement_ { State.init with log := [Call.reset] }).1
            = SQLITE_ROW ∨
          (sqlite3_step stmtSelectAB.statement_ { State.init with log := [Call.reset] }).1
            = SQLITE_DONE) →
        res.state.thrown = State.init.thrown) :=
  C7_run_steps_once libDemo stmtSelectAB 0 State.init { State.init with log := [Call.reset] }
    [] rfl (by decide)

/-! ## C6: `All` -/

theorem boundCell_congr (s t : State) (h : s.bound = t.bound) : s.boundCell = t.boundCell := by
  funext slot
  simp [State.boundCell, h]

/-- Over named columns the row loop runs to its end: it yields the fold of
`decodeRowStep` over the columns visited and changes nothing but the log. -/
theorem fillRow_of_named (stmt : SQLiteStatementSync) (idxs : List Nat) :
    ∀ (row : RowObject) (st : State),
      (∀ i ∈ idxs, (stmt.statement_.columns.getD i none).isSome) →
      ∃ st', fillRow stmt idxs row st
            = some (idxs.foldl (decodeRowStep stmt.statement_.columns st.row) row, st') ∧
          st'.bound = st.bound ∧ st'.pc = st.pc ∧ st'.row = st.row ∧
          st'.thrown = st.thrown := by
  induction idxs with
  | nil => intro row st _; exact ⟨st, rfl, rfl, rfl, rfl, rfl⟩
  | cons i rest ih =>
    intro row st h
    obtain ⟨name, hname⟩ := Option.isSome_iff_exists.mp (h i (List.mem_cons_self _ _))
    obtain ⟨st', hrun, hb, hpc, hrow, hthrown⟩ :=
      ih (objectSet row name (decodeCell (st.row.getD i Cell.null)))
        { st with log := st.log ++ [Call.column_name i] ++ [Call.column i] }
        (fun j hj => h j (List.mem_cons_of_mem _ hj))
    refine ⟨st', ?_, hb, hpc, hrow, hthrown⟩
    simp only [fillRow, ColumnNameToValue, hname, ColumnToValue, List.foldl_cons, decodeRowStep]
    simpa using hrun

theorem getD_isSome_of_all (columns : List (Option String))
    (h : ∀ c ∈ columns, c.isSome) :
    ∀ i ∈ List.range columns.length, (columns.getD i none).isSome := by
  intro i hi
  have hlt : i < columns.length := List.mem_range.mp hi
  rw [List.getD_eq_getElem _ _ hlt]
  exact h _ (List.getElem_mem hlt)

/-- The step loop of `All` over `k` rows followed by `SQLITE_DONE`. -/
theorem allLoop_of_rows (stmt : SQLiteStatementSync)
    (hnames : ∀ c ∈ stmt.statement_.columns, c.isSome) (k : Nat) :
    ∀ (fuel : Nat) (rows : List Row) (st : State),
      k < fuel →
      (∀ j, j < k → (stmt.statement_.exec st.boundCell (st.pc + j)).rc = SQLITE_ROW) →
      (stmt.statement_.exec st.boundCell (st.pc + k)).rc = SQLITE_DONE →
      ∃ st', allLoop stmt stmt.statement_.columns.length fuel rows st
            = some ((SQLITE_DONE,
                rows ++ (List.range k).map (fun j =>
                  decodeRow stmt.statement_.columns
                    (stmt.statement_.exec st.boundCell (st.pc + j)).cells)), st') ∧
          st'.thrown = st.thrown := by
  induction k with
  | zero =>
    intro fuel rows st hfuel _ hdone
    obtain ⟨f, rfl⟩ : ∃ f, fuel = f + 1 := ⟨fuel - 1, by omega⟩
    refine ⟨(sqlite3_step stmt.statement_ st).2, ?_, rfl⟩
    have hd : (stmt.statement_.exec st.boundCell st.pc).rc = SQLITE_DONE := by simpa using hdone
    simp [allLoop, sqlite3_step, hd, SQLITE_DONE, SQLITE_ROW]
  | succ k ih =>
    intro fuel rows st hfuel hrows hdone
    obtain ⟨f, rfl⟩ : ∃ f, fuel = f + 1 := ⟨fuel - 1, by omega⟩
    have hr : (stmt.statement_.exec st.boundCell st.pc).rc = SQLITE_ROW := by
      simpa using hrows 0 (by omega)
    obtain ⟨st2, hfill, hb, hpc, _, hthrown⟩ :=
      fillRow_of_named stmt (List.range stmt.statement_.columns.length) RowObject.fresh
        (sqlite3_step stmt.statement_ st).2
        (getD_isSome_of_all _ hnames)
    have hbc : st2.boundCell = st.boundCell := boundCell_congr _ _ (by rw [hb]; rfl)
    have hpc2 : st2.pc = st.pc + 1 := by rw [hpc]; rfl
    obtain ⟨st', hrun, hthrown'⟩ := ih f
      (rows ++ [decodeRow stmt.statement_.columns
        (stmt.statement_.exec st.boundCell st.pc).cells]) st2 (by omega)
      (fun j hj => by
        rw [hbc, hpc2]
        have := hrows (j + 1) (by omega)
        simpa [Nat.add_assoc, Nat.add_comm 1] using this)
      (by
        rw [hbc, hpc2]
        simpa [Nat.add_assoc, Nat.add_comm 1] using hdone)
    refine ⟨st', ?_, by rw [hthrown', hthrown]; rfl⟩
    have hown : (List.foldl
        (decodeRowStep stmt.statement_.columns (sqlite3_step stmt.statement_ st).2.row)
        RowObject.fresh (List.range stmt.statement_.columns.length)).own
          = decodeRow stmt.statement_.columns
              (stmt.statement_.exec st.boundCell st.pc).cells := rfl
    have hstep1 : (sqlite3_step stmt.statement_ st).1 = SQLITE_ROW := hr
    rw [allLoop]
    simp only [hstep1, if_true, hfill, hown, hrun, hbc, hpc2]
    simp [List.range_succ_eq_map, List.map_map, Function.comp_def, Nat.add_assoc,
      Nat.add_comm 1]

/-- C6: when the reset reports success, binding succeeds, every column has a
name, and the engine's successive step results under the bound values are k
times `SQLITE_ROW` followed by `SQLITE_DONE`, then with fuel above k `All`
sets as return value the array of exactly k row objects, the j-th being the
decoding of the cells of the j-th step, and throws nothing; for k = 0 the
array is empty. -/
theorem C6_all_returns_rows_in_order (lib : Lib) (stmt : SQLiteStatementSync) (fuel : Nat)
    (st st2 : State) (args : List Arg) (k : Nat)
    (hreset : stmt.statement_.resetRc = SQLITE_OK)
    (hbind : BindParams lib stmt fuel (sqlite3_reset stmt.statement_ st).2 args
      = some (true, st2))
    (hnames : ∀ c ∈ stmt.statement_.columns, c.isSome)
    (hrows : ∀ j, j < k → (stmt.statement_.exec st2.boundCell j).rc = SQLITE_ROW)
    (hdone : (stmt.statement_.exec st2.boundCell k).rc = SQLITE_DONE)
    (hfuel : k < fuel) :
    ∃ res, All lib stmt fuel st args = some res ∧
      res.returnValue = some (.array ((List.range k).map (fun j =>
        decodeRow stmt.statement_.columns (stmt.statement_.exec st2.boundCell j).cells))) ∧
      ((List.range k).map (fun j =>
        decodeRow stmt.statement_.columns
          (stmt.statement_.exec st2.boundCell j).cells)).length = k ∧
      res.state.thrown = st.thrown := by
  obtain ⟨hpc, hthrown, _⟩ := BindParams_after_reset lib stmt fuel st st2 args hbind
  obtain ⟨st', hrun, hthrown'⟩ := allLoop_of_rows stmt hnames k fuel [] st2 hfuel
    (fun j hj => by simpa [hpc] using hrows j hj) (by simpa [hpc] using hdone)
  have hr : (sqlite3_reset stmt.statement_ st).1 = SQLITE_OK := hreset
  refine ⟨⟨_, st'⟩, ?_, rfl, by simp, by rw [hthrown', hthrown]⟩
  unfold All
  simp only [hr, hbind, hrun, hpc]
  simp

/-- C6, instance: `All` without arguments on the two-column select over two
rows. -/
theorem C6_all_returns_rows_in_order_witness :
    ∃ res, All libDemo stmtSelectAB 3 State.init [] = some res ∧
      res.returnValue = some (.array ((List.range 2).map (fun j =>
        decodeRow stmtSelectAB.statement_.columns
          (stmtSelectAB.statement_.exec
            (State.boundCell { State.init with log := [Call.reset] }) j).cells))) ∧
      ((List.range 2).map (fun j =>
        decodeRow stmtSelectAB.statement_.columns
          (stmtSelectAB.statement_.exec
            (State.boundCell { State.init with log := [Call.reset] }) j).cells)).length = 2 ∧
      res.state.thrown = State.init.thrown :=
  C6_all_returns_rows_in_order libDemo stmtSelectAB 3 State.init
    { State.init with log := [Call.reset] } [] 2 rfl (by decide) (by decide)
    (fun j hj => by
      have : j = 0 ∨ j = 1 := by omega
      rcases this with rfl | rfl <;> rfl)
    rfl (by decide)

/-! ## C8: bind, then decode -/

/-- C8 (evaluation at the failing input): the text `a`, NUL, `b` is bound in
full, as a text cell of three characters, and the engine accepts it; when the
engine reports that very cell, `ColumnToValue` returns the text `a`, which is
not the text that was bound. -/
theorem C8_text_with_nul_is_truncated :
    BindValue libDemo stmtTwoAnon State.init (Value.string textWithNul) 1
      = (true,
          { State.init with
            bound := [(1, Cell.text textWithNul)]
            log := [Call.bind 1 (Cell.text textWithNul)] }) ∧
    (ColumnToValue { State.init with row := [Cell.text textWithNul] } 0).1
      = Value.string "a" ∧
    (ColumnToValue { State.init with row := [Cell.text textWithNul] } 0).1
      ≠ Value.string textWithNul := by
  decide

/-- Round trip on the rest of the domain: a number, a null, a byte sequence and
a text without NUL character decode, from the cell they were bound as, to the
value that was bound. -/
theorem decodeCell_encode_of_no_nul (v : Value) (c : Cell) (hv : encode v = some c)
    (htext : ∀ s, v = Value.string s → Char.ofNat 0 ∉ s.data) : decodeCell c = v := by
  cases v with
  | number d => simp only [encode, Option.some.injEq] at hv; subst hv; rfl
  | string s =>
    simp only [encode, Option.some.injEq] at hv
    subst hv
    simp [decodeCell, cstr_of_no_nul s (htext s rfl)]
  | null => simp only [encode, Option.some.injEq] at hv; subst hv; rfl
  | buffer b => simp only [encode, Option.some.injEq] at hv; subst hv; rfl
  | undefined => simp [encode] at hv
  | boolean b => simp [encode] at hv
  | other => simp [encode] at hv

/-! ## C10: a failing open -/

/-- C10 (as stated) fails: under `libDemo` the engine's open reports failure
and stores a handle; after construction with open = true, and after an
explicit open on a closed connection, the session handle is that handle, not
null. -/
theorem C10_counterexample_handle_kept :
    (libDemo.open_ (cstr ":memory:")).1 ≠ SQLITE_OK ∧
    (SQLiteDatabaseSync.construct libDemo ":memory:" true []).1.connection_
      = some ⟨14, "unable to open database file"⟩ ∧
    (SQLiteDatabaseSync.construct libDemo ":memory:" true []).1.connection_ ≠ none ∧
    (SQLiteDatabaseSync.Open libDemo ⟨":memory:", none⟩ []).1.connection_
      = some ⟨14, "unable to open database file"⟩ ∧
    (SQLiteDatabaseSync.Open libDemo ⟨":memory:", none⟩ []).1.connection_ ≠ none := by
  decide

/-- C10 (amended): if the engine's open primitive reports failure, then after
construction with open = true, and after an explicit open on a connection
whose handle was null, exactly one exception has been thrown, the structured
engine error read from the handle the engine stored, and the connection's
session handle is that stored handle: it is null only if the engine stored
null. -/
theorem C10_failed_open_throws_and_keeps_stored_handle (lib : Lib) (location : String)
    (thrown : List JSError)
    (hfail : (lib.open_ (cstr location)).1 ≠ SQLITE_OK) :
    SQLiteDatabaseSync.construct lib location true thrown
      = (⟨location, (lib.open_ (cstr location)).2⟩,
          thrown ++
            [JSError.ERR_SQLITE_ERROR (CreateSQLiteError lib (lib.open_ (cstr location)).2)]) ∧
    SQLiteDatabaseSync.Open lib ⟨location, none⟩ thrown
      = (⟨location, (lib.open_ (cstr location)).2⟩,
          thrown ++
            [JSError.ERR_SQLITE_ERROR (CreateSQLiteError lib (lib.open_ (cstr location)).2)]) := by
  constructor
  · simp [SQLiteDatabaseSync.construct, hfail]
  · simp [SQLiteDatabaseSync.Open, hfail]

/-- C10 (amended), instance: the failing open of `libDemo` on the in-memory
location. -/
theorem C10_failed_open_throws_and_keeps_stored_handle_witness :
    SQLiteDatabaseSync.construct libDemo ":memory:" true []
      = (⟨":memory:", (libDemo.open_ (cstr ":memory:")).2⟩,
          [] ++
            [JSError.ERR_SQLITE_ERROR
              (CreateSQLiteError libDemo (libDemo.open_ (cstr ":memory:")).2)]) ∧
    SQLiteDatabaseSync.Open libDemo ⟨":memory:", none⟩ []
      = (⟨":memory:", (libDemo.open_ (cstr ":memory:")).2⟩,
          [] ++
            [JSError.ERR_SQLITE_ERROR
              (CreateSQLiteError libDemo (libDemo.open_ (cstr ":memory:")).2)]) :=
  C10_failed_open_throws_and_keeps_stored_handle libDemo ":memory:" [] (by decide)

/-! ## What a mode leaves behind -/

theorem Extends.refl (st : State) : Extends st st :=
  ⟨⟨[], by simp⟩, ⟨[], by simp, fun _ h => absurd h (List.not_mem_nil _)⟩⟩

theorem Extends.trans {a b c : State} (h1 : Extends a b) (h2 : Extends b c) : Extends a c := by
  obtain ⟨⟨l1, hl1⟩, ⟨e1, he1, hp1⟩⟩ := h1
  obtain ⟨⟨l2, hl2⟩, ⟨e2, he2, hp2⟩⟩ := h2
  refine ⟨⟨l1 ++ l2, by rw [hl2, hl1, List.append_assoc]⟩,
    ⟨e1 ++ e2, by rw [he2, he1, List.append_assoc], ?_⟩⟩
  intro e he
  rcases List.mem_append.mp he with h | h
  · exact hp1 e h
  · exact hp2 e h

theorem Extends.of_log {st st1 : State} (calls : List Call)
    (hlog : st1.log = st.log ++ calls) (hthrown : st1.thrown = st.thrown) : Extends st st1 :=
  ⟨⟨calls, hlog⟩, ⟨[], by simp [hthrown], fun _ h => absurd h (List.not_mem_nil _)⟩⟩

theorem Extends.of_parts {st st1 : State} (calls : List Call) (errs : List JSError)
    (hlog : st1.log = st.log ++ calls) (hthrown : st1.thrown = st.thrown ++ errs)
    (herrs : ∀ e ∈ errs, StatementError e) : Extends st st1 :=
  ⟨⟨calls, hlog⟩, ⟨errs, hthrown, herrs⟩⟩

theorem Extends.throw (st : State) (e : JSError) (he : StatementError e) :
    Extends st (st.throw e) :=
  ⟨⟨[], by simp [State.throw]⟩, ⟨[e], rfl, fun x hx => by
    rw [List.mem_singleton] at hx
    exact hx ▸ he⟩⟩

theorem BindValue_extends (lib : Lib) (stmt : SQLiteStatementSync) (st : State) (v : Value)
    (idx : Nat) : Extends st (BindValue lib stmt st v idx).2 := by
  unfold BindValue
  cases encode v with
  | none => exact Extends.refl st
  | some c =>
    by_cases hrc : stmt.statement_.bindRc idx c = SQLITE_OK
    · simp only [hrc, ne_eq, not_true_eq_false, if_false, if_true]
      exact Extends.of_log [Call.bind idx c] rfl rfl
    · simp only [hrc, ne_eq, not_false_eq_true, if_true, if_false, THROW_ERR_SQLITE_ERROR]
      exact Extends.of_parts [Call.bind idx c]
        [JSError.ERR_SQLITE_ERROR (CreateSQLiteError lib (some stmt.db_))]
        (by simp [State.throw]) (by simp [State.throw]) (by simp [StatementError])

theorem bindNamed_extends (lib : Lib) (stmt : SQLiteStatementSync) (i : Nat)
    (props : List (String × Value)) :
    ∀ st : State, Extends st (bindNamed lib stmt i props st).2 := by
  induction props with
  | nil => intro st; exact Extends.refl st
  | cons kv rest ih =>
    intro st
    obtain ⟨key, value⟩ := kv
    by_cases h0 : sqlite3_bind_parameter_index stmt.statement_ (cstr key) = 0
    · simp only [bindNamed, h0, if_true]
      exact Extends.refl st
    · have hB := BindValue_extends lib stmt st value
        (sqlite3_bind_parameter_index stmt.statement_ (cstr key))
      cases hS : BindValue lib stmt st value
          (sqlite3_bind_parameter_index stmt.statement_ (cstr key)) with
      | mk b s1 =>
        rw [hS] at hB
        cases b with
        | false =>
          simp only [bindNamed, h0, if_false, hS]
          exact hB.trans (Extends.throw _ _ trivial)
        | true =>
          simp only [bindNamed, h0, if_false, hS]
          exact hB.trans (ih s1)

theorem bindLoop_extends (lib : Lib) (stmt : SQLiteStatementSync) (fuel : Nat)
    (args : List Arg) :
    ∀ (i cur : Nat) (st : State) (ok : Bool) (cur1 : Nat) (st1 : State),
      bindLoop lib stmt fuel args i cur st = some (ok, cur1, st1) → Extends st st1 := by
  induction args with
  | nil =>
    intro i cur st ok cur1 st1 h
    simp only [bindLoop, Option.some.injEq, Prod.mk.injEq] at h
    obtain ⟨_, _, rfl⟩ := h
    exact Extends.refl st
  | cons arg rest ih =>
    intro i cur st ok cur1 st1 h
    cases arg with
    | pojo props =>
      have hB := bindNamed_extends lib stmt i props st
      cases hS : bindNamed lib stmt i props st with
      | mk b s1 =>
        rw [hS] at hB
        cases b with
        | false =>
          simp only [bindLoop, IsPOJO, if_true, hS, Option.some.injEq, Prod.mk.injEq] at h
          obtain ⟨_, _, rfl⟩ := h
          exact hB
        | true =>
          simp only [bindLoop, IsPOJO, if_true, hS] at h
          exact hB.trans (ih (i + 1) cur s1 ok cur1 st1 h)
    | array items =>
      simp only [bindLoop, IsPOJO, Arg.IsArray, Bool.false_eq_true, if_false, if_true] at h
      exact ih (i + 1) cur st ok cur1 st1 h
    | value v =>
      simp only [bindLoop, IsPOJO, Arg.IsArray, Bool.false_eq_true, if_false] at h
      cases hk : skipNamed stmt.statement_ fuel cur with
      | none => simp [hk] at h
      | some idx =>
        simp only [hk] at h
        have hB := BindValue_extends lib stmt st v idx
        cases hS : BindValue lib stmt st v idx with
        | mk b s1 =>
          rw [hS] at hB
          cases b with
          | false =>
            simp only [hS, Option.some.injEq, Prod.mk.injEq] at h
            obtain ⟨_, _, rfl⟩ := h
            exact hB.trans (Extends.throw _ _ trivial)
          | true =>
            simp only [hS] at h
            exact hB.trans (ih (i + 1) (idx + 1) s1 ok cur1 st1 h)

theorem BindParams_extends (lib : Lib) (stmt : SQLiteStatementSync) (fuel : Nat)
    (st st1 : State) (args : List Arg) (ok : Bool)
    (h : BindParams lib stmt fuel st args = some (ok, st1)) : Extends st st1 := by
  unfold BindParams at h
  cases hL : bindLoop lib stmt fuel args 0 1 st with
  | none => simp [hL] at h
  | some r =>
    obtain ⟨ok1, cur1, s1⟩ := r
    simp only [hL, Option.map_some', Option.some.injEq, Prod.mk.injEq] at h
    obtain ⟨_, rfl⟩ := h
    exact bindLoop_extends lib stmt fuel args 0 1 st ok1 cur1 s1 hL

theorem sqlite3_step_extends (s : sqlite3_stmt) (st : State) :
    Extends st (sqlite3_step s st).2 :=
  Extends.of_log [Call.step] rfl rfl

theorem fillRow_extends (stmt : SQLiteStatementSync) (idxs : List Nat) :
    ∀ (row : RowObject) (st : State) (row1 : RowObject) (st1 : State),
      fillRow stmt idxs row st = some (row1, st1) →
      Extends st st1 ∧ st1.bound = st.bound ∧ st1.pc = st.pc := by
  induction idxs with
  | nil =>
    intro row st row1 st1 h
    simp only [fillRow, Option.some.injEq, Prod.mk.injEq] at h
    obtain ⟨_, rfl⟩ := h
    exact ⟨Extends.refl st, rfl, rfl⟩
  | cons i rest ih =>
    intro row st row1 st1 h
    cases hc : stmt.statement_.columns.getD i none with
    | none => simp only [fillRow, ColumnNameToValue, hc, ColumnToValue, reduceCtorEq] at h
    | some name =>
      simp only [fillRow, ColumnNameToValue, hc, ColumnToValue] at h
      have h1 : Extends st
          { st with log := st.log ++ [Call.column_name i] ++ [Call.column i] } :=
        Extends.of_log [Call.column_name i, Call.column i] (by simp) rfl
      obtain ⟨hE, hb, hpc⟩ := ih _ _ _ _ h
      exact ⟨h1.trans hE, hb, hpc⟩

theorem allLoop_extends (stmt : SQLiteStatementSync) (num_cols : Nat) :
    ∀ (fuel : Nat) (rows : List Row) (st : State) (r : Int × List Row) (st1 : State),
      allLoop stmt num_cols fuel rows st = some (r, st1) → Extends st st1 := by
  intro fuel
  induction fuel with
  | zero => intro rows st r st1 h; simp [allLoop] at h
  | succ f ih =>
    intro rows st r st1 h
    rw [allLoop] at h
    have hstep := sqlite3_step_extends stmt.statement_ st
    by_cases hr : (sqlite3_step stmt.statement_ st).1 = SQLITE_ROW
    · simp only [hr, if_true] at h
      cases hF : fillRow stmt (List.range num_cols) RowObject.fresh
          (sqlite3_step stmt.statement_ st).2 with
      | none => simp [hF] at h
      | some p =>
        obtain ⟨row, s2⟩ := p
        rw [hF] at h
        simp only at h
        exact hstep.trans ((fillRow_extends stmt _ _ _ _ _ hF).1.trans (ih _ _ _ _ h))
    · simp only [hr, if_false, Option.some.injEq, Prod.mk.injEq] at h
      obtain ⟨_, rfl⟩ := h
      exact hstep

/-- Whatever a mode leaves behind extends the state right after its reset. -/
theorem Extends.reset_first {s : sqlite3_stmt} {st st1 : State}
    (h : Extends (sqlite3_reset s st).2 st1) :
    (∃ rest, st1.log = st.log ++ Call.reset :: rest) ∧
      ThrowsOnlyStatementErrors st.thrown st1.thrown := by
  obtain ⟨⟨calls, hlog⟩, hthrown⟩ := h
  exact ⟨⟨calls, by rw [hlog]; simp [sqlite3_reset]⟩, hthrown⟩

theorem Run_extends (lib : Lib) (stmt : SQLiteStatementSync) (fuel : Nat) (st : State)
    (args : List Arg) (res : CallResult) (h : Run lib stmt fuel st args = some res) :
    Extends (sqlite3_reset stmt.statement_ st).2 res.state := by
  unfold Run at h
  by_cases hr : (sqlite3_reset stmt.statement_ st).1 = SQLITE_OK
  · simp only [hr, ne_eq, not_true_eq_false, if_false] at h
    cases hB : BindParams lib stmt fuel (sqlite3_reset stmt.statement_ st).2 args with
    | none => simp [hB] at h
    | some r =>
      obtain ⟨ok, st2⟩ := r
      have hE := BindParams_extends lib stmt fuel _ st2 args ok hB
      cases ok with
      | false =>
        simp only [hB, Option.some.injEq] at h
        subst h
        exact hE
      | true =>
        simp only [hB] at h
        have hS := sqlite3_step_extends stmt.statement_ st2
        split at h
        · simp only [Option.some.injEq] at h
          subst h
          exact hE.trans (hS.trans (Extends.throw _ _ trivial))
        · simp only [Option.some.injEq] at h
          subst h
          exact hE.trans hS
  · simp only [hr, ne_eq, not_false_eq_true, if_true, Option.some.injEq] at h
    subst h
    exact Extends.throw _ _ trivial

theorem Get_extends (lib : Lib) (stmt : SQLiteStatementSync) (fuel : Nat) (st : State)
    (args : List Arg) (res : CallResult) (h : Get lib stmt fuel st args = some res) :
    Extends (sqlite3_reset stmt.statement_ st).2 res.state := by
  unfold Get at h
  by_cases hr : (sqlite3_reset stmt.statement_ st).1 = SQLITE_OK
  · simp only [hr, ne_eq, not_true_eq_false, if_false] at h
    cases hB : BindParams lib stmt fuel (sqlite3_reset stmt.statement_ st).2 args with
    | none => simp [hB] at h
    | some r =>
      obtain ⟨ok, st2⟩ := r
      have hE := BindParams_extends lib stmt fuel _ st2 args ok hB
      cases ok with
      | false =>
        simp only [hB, Option.some.injEq] at h
        subst h
        exact hE
      | true =>
        simp only [hB] at h
        have hS := sqlite3_step_extends stmt.statement_ st2
        split at h
        · split at h
          · simp only [Option.some.injEq] at h
            subst h
            exact hE.trans (hS.trans (Extends.throw _ _ trivial))
          · simp only [Option.some.injEq] at h
            subst h
            exact hE.trans hS
        · split at h
          · simp only [Option.some.injEq] at h
            subst h
            exact hE.trans hS
          · cases hF : fillRow stmt (List.range stmt.statement_.columns.length)
                RowObject.fresh (sqlite3_step stmt.statement_ st2).2 with
            | none => simp [hF] at h
            | some p =>
              obtain ⟨row, st4⟩ := p
              simp only [hF, Option.some.injEq] at h
              subst h
              exact hE.trans (hS.trans (fillRow_extends stmt _ _ _ _ _ hF).1)
  · simp only [hr, ne_eq, not_false_eq_true, if_true, Option.some.injEq] at h
    subst h
    exact Extends.throw _ _ trivial

theorem All_extends (lib : Lib) (stmt : SQLiteStatementSync) (fuel : Nat) (st : State)
    (args : List Arg) (res : CallResult) (h : All lib stmt fuel st args = some res) :
    Extends (sqlite3_reset stmt.statement_ st).2 res.state := by
  unfold All at h
  by_cases hr : (sqlite3_reset stmt.statement_ st).1 = SQLITE_OK
  · simp only [hr, ne_eq, not_true_eq_false, if_false] at h
    cases hB : BindParams lib stmt fuel (sqlite3_reset stmt.statement_ st).2 args with
    | none => simp [hB] at h
    | some r =>
      obtain ⟨ok, st2⟩ := r
      have hE := BindParams_extends lib stmt fuel _ st2 args ok hB
      cases ok with
      | false =>
        simp only [hB, Option.some.injEq] at h
        subst h
        exact hE
      | true =>
        simp only [hB] at h
        cases hA : allLoop stmt stmt.statement_.columns.length fuel [] st2 with
        | none => simp [hA] at h
        | some q =>
          obtain ⟨rr, st3⟩ := q
          have hL := allLoop_extends stmt _ fuel [] st2 rr st3 hA
          obtain ⟨rc, rows⟩ := rr
          simp only [hA] at h
          split at h
          · simp only [Option.some.injEq] at h
            subst h
            exact hE.trans (hL.trans (Extends.throw _ _ trivial))
          · simp only [Option.some.injEq] at h
            subst h
            exact hE.trans hL
  · simp only [hr, ne_eq, not_false_eq_true, if_true, Option.some.injEq] at h
    subst h
    exact Extends.throw _ _ trivial

/-! ## C11: closing a connection that is not open -/

/-- C11: on every connection whose session handle is null, and construction
with open = false yields such a connection, `Close` throws the invalid-state
error "database is not open", issues no engine call (its outcome is the same
under every engine) and leaves the handle null.  On an open connection whose
close the engine reports as successful, `Close` throws nothing and leaves the
handle null, so that a second `Close` throws that invalid-state error. -/
theorem C11_close_needs_an_open_connection (lib : Lib) (location : String)
    (db : SQLiteDatabaseSync) (thrown : List JSError) (connection : sqlite3)
    (hopen : db.connection_ = some connection)
    (hok : lib.close connection = SQLITE_OK) :
    (∀ (engine : Lib) (d : SQLiteDatabaseSync) (t : List JSError), d.connection_ = none →
      SQLiteDatabaseSync.Close engine d t
          = (d, t ++ [JSError.ERR_INVALID_STATE .databaseNotOpen]) ∧
        d.CloseCalls = [] ∧
        (SQLiteDatabaseSync.Close engine d t).1.connection_ = none) ∧
    (SQLiteDatabaseSync.construct lib location false thrown).1.connection_ = none ∧
    (SQLiteDatabaseSync.Close lib db thrown).1.connection_ = none ∧
    (SQLiteDatabaseSync.Close lib db thrown).2 = thrown ∧
    db.CloseCalls = [LibCall.close connection] ∧
    (∀ t, SQLiteDatabaseSync.Close lib (SQLiteDatabaseSync.Close lib db thrown).1 t
      = ((SQLiteDatabaseSync.Close lib db thrown).1,
          t ++ [JSError.ERR_INVALID_STATE .databaseNotOpen])) := by
  have hclose : SQLiteDatabaseSync.Close lib db thrown
      = ({ db with connection_ := none }, thrown) := by
    simp [SQLiteDatabaseSync.Close, hopen, hok]
  refine ⟨?_, ?_, ?_, ?_, ?_, ?_⟩
  · intro engine d t hd
    simp [SQLiteDatabaseSync.Close, SQLiteDatabaseSync.CloseCalls, hd]
  · simp [SQLiteDatabaseSync.construct]
  · rw [hclose]
  · rw [hclose]
  · simp [SQLiteDatabaseSync.CloseCalls, hopen]
  · intro t
    rw [hclose]
    simp [SQLiteDatabaseSync.Close]

/-- C11, instance: the open connection `dbOpen` under `libDemo`, whose close
succeeds. -/
theorem C11_close_needs_an_open_connection_witness :
    (∀ (engine : Lib) (d : SQLiteDatabaseSync) (t : List JSError), d.connection_ = none →
      SQLiteDatabaseSync.Close engine d t
          = (d, t ++ [JSError.ERR_INVALID_STATE .databaseNotOpen]) ∧
        d.CloseCalls = [] ∧
        (SQLiteDatabaseSync.Close engine d t).1.connection_ = none) ∧
    (SQLiteDatabaseSync.construct libDemo ":memory:" false []).1.connection_ = none ∧
    (SQLiteDatabaseSync.Close libDemo dbOpen []).1.connection_ = none ∧
    (SQLiteDatabaseSync.Close libDemo dbOpen []).2 = [] ∧
    dbOpen.CloseCalls = [LibCall.close dbDemo] ∧
    (∀ t, SQLiteDatabaseSync.Close libDemo (SQLiteDatabaseSync.Close libDemo dbOpen []).1 t
      = ((SQLiteDatabaseSync.Close libDemo dbOpen []).1,
          t ++ [JSError.ERR_INVALID_STATE .databaseNotOpen])) :=
  C11_close_needs_an_open_connection libDemo ":memory:" dbOpen [] dbDemo rfl rfl

/-! ## C12: array arguments -/

/-- C12 (evaluation at the failing input): on the statement with two anonymous
slots, a call whose only argument is the array `[1, 2]` makes run, get and all
issue no bind, throw nothing and step the statement; and in the call
`([1, 2], 7)` the array is passed over while 7 is bound to slot 1 and the
statement is stepped. -/
theorem C12_array_argument_is_skipped_silently :
    Run libDemo stmtTwoAnon 1 State.init
        [.array [.number (.finite 1), .number (.finite 2)]]
      = some ⟨none, { State.init with pc := 1, log := [Call.reset, Call.step] }⟩ ∧
    Get libDemo stmtTwoAnon 1 State.init
        [.array [.number (.finite 1), .number (.finite 2)]]
      = some ⟨none, { State.init with pc := 1, log := [Call.reset, Call.step] }⟩ ∧
    All libDemo stmtTwoAnon 1 State.init
        [.array [.number (.finite 1), .number (.finite 2)]]
      = some ⟨some (.array []),
          { State.init with pc := 1, log := [Call.reset, Call.step] }⟩ ∧
    Run libDemo stmtTwoAnon 1 State.init
        [.array [.number (.finite 1), .number (.finite 2)], .value (.number (.finite 7))]
      = some ⟨none,
          { State.init with
            bound := [(1, Cell.float (.finite 7))]
            pc := 1
            log := [Call.reset, Call.bind 1 (Cell.float (.finite 7)), Call.step] }⟩ := by
  decide

/-! ## C14: a bind that the engine refuses -/

/-- C14 (evaluation at the failing input): on the statement with two anonymous
slots, run with the three numbers `(1, 2, 3)` sends 3 to slot 3, which the
engine refuses although a number is an accepted type.  `BindValue` throws the
structured engine error, then `BindParams` throws the invalid-argument-type
error for argument 3 on top of it; that second exception is the one pending
when run returns, and the statement is not stepped. -/
theorem C14_refused_bind_surfaces_as_invalid_arg_type :
    encode (Value.number (.finite 3)) = some (Cell.float (.finite 3)) ∧
    stmtTwoAnon.statement_.bindRc 3 (Cell.float (.finite 3)) = SQLITE_RANGE ∧
    Run libDemo stmtTwoAnon 1 State.init
        [.value (.number (.finite 1)), .value (.number (.finite 2)),
          .value (.number (.finite 3))]
      = some ⟨none,
          { bound := [(2, Cell.float (.finite 2)), (1, Cell.float (.finite 1))]
            pc := 0
            row := []
            log := [Call.reset, Call.bind 1 (Cell.float (.finite 1)),
              Call.bind 2 (Cell.float (.finite 2)), Call.bind 3 (Cell.float (.finite 3))]
            thrown :=
              [JSError.ERR_SQLITE_ERROR
                  ⟨"column index out of range", "ERR_SQLITE_ERROR", 25,
                    "column index out of range"⟩,
                JSError.ERR_INVALID_ARG_TYPE (.anonymousParameter 3)] }⟩ ∧
    State.pending
        { bound := [(2, Cell.float (.finite 2)), (1, Cell.float (.finite 1))]
          pc := 0
          row := []
          log := [Call.reset, Call.bind 1 (Cell.float (.finite 1)),
            Call.bind 2 (Cell.float (.finite 2)), Call.bind 3 (Cell.float (.finite 3))]
          thrown :=
            [JSError.ERR_SQLITE_ERROR
                ⟨"column index out of range", "ERR_SQLITE_ERROR", 25,
                  "column index out of range"⟩,
              JSError.ERR_INVALID_ARG_TYPE (.anonymousParameter 3)] }
      = some (JSError.ERR_INVALID_ARG_TYPE (.anonymousParameter 3)) := by
  decide

/-! ## C15: integer cells -/

/-- C15 (evaluation at the failing input): for the integer cell holding
2147483648, which is 2^31 and well below 2^53, `ColumnToValue` returns the
number -2147483648. -/
theorem C15_integer_cell_is_cut_to_32_bits :
    (2147483648 : Int) = 2 ^ 31 ∧
    (ColumnToValue { State.init with row := [Cell.integer 2147483648] } 0).1
      = Value.number (.finite (-2147483648)) ∧
    (ColumnToValue { State.init with row := [Cell.integer 2147483648] } 0).1
      ≠ Value.number (.finite 2147483648) := by
  refine ⟨by norm_num, by decide, by decide⟩

/-- Inside the range of a C `int` the conversion is the identity, so an integer
cell in that range decodes to the number it holds. -/
theorem decodeCell_integer_of_int32 (n : Int) (hlo : -2 ^ 31 ≤ n) (hhi : n < 2 ^ 31) :
    decodeCell (Cell.integer n) = Value.number (.finite n) := by
  have h : toInt32 n = n := by
    unfold toInt32
    norm_num at hlo hhi ⊢
    omega
  simp [decodeCell, h]

/-! ## C17: the error translator -/

/-- C17: for every last-error state of the engine, extended code `c` and
message `m`, and every error-string lookup, `CreateSQLiteError` builds the
object with message `m`, code field `"ERR_SQLITE_ERROR"`, errcode field `c` and
errstr field the lookup of `c`; and `THROW_ERR_SQLITE_ERROR` leaves exactly
that object pending. -/
theorem C17_CreateSQLiteError_fields (lib : Lib) (c : Int) (m : String) (st : State) :
    (CreateSQLiteError lib (some ⟨c, m⟩)).message = m ∧
    (CreateSQLiteError lib (some ⟨c, m⟩)).code = "ERR_SQLITE_ERROR" ∧
    (CreateSQLiteError lib (some ⟨c, m⟩)).errcode = c ∧
    (CreateSQLiteError lib (some ⟨c, m⟩)).errstr = lib.errstr c ∧
    (THROW_ERR_SQLITE_ERROR lib (some ⟨c, m⟩) st).pending
      = some (JSError.ERR_SQLITE_ERROR ⟨m, "ERR_SQLITE_ERROR", c, lib.errstr c⟩) := by
  refine ⟨rfl, rfl, rfl, rfl, ?_⟩
  simp [THROW_ERR_SQLITE_ERROR, State.throw, State.pending, CreateSQLiteError]

/-! ## C19: the leading reset -/

/-- C19: each execution mode (run, get, all) that returns has issued the reset
of the statement as its first engine call.  If the reset reports failure the
mode returns, for every amount of fuel, having thrown the structured engine
error and nothing else, with the reset as its only engine call: no bind, no
step, no column read, and no return value. -/
theorem C19_reset_first_and_fatal (lib : Lib) (stmt : SQLiteStatementSync) (fuel : Nat)
    (st : State) (args : List Arg) :
    (∀ res, Run lib stmt fuel st args = some res →
      ∃ rest, res.state.log = st.log ++ Call.reset :: rest) ∧
    (∀ res, Get lib stmt fuel st args = some res →
      ∃ rest, res.state.log = st.log ++ Call.reset :: rest) ∧
    (∀ res, All lib stmt fuel st args = some res →
      ∃ rest, res.state.log = st.log ++ Call.reset :: rest) ∧
    (stmt.statement_.resetRc ≠ SQLITE_OK →
      ∃ res, Run lib stmt fuel st args = some res ∧
        Get lib stmt fuel st args = some res ∧
        All lib stmt fuel st args = some res ∧
        res.returnValue = none ∧
        res.state.log = st.log ++ [Call.reset] ∧
        res.state.thrown
          = st.thrown ++ [JSError.ERR_SQLITE_ERROR (CreateSQLiteError lib (some stmt.db_))]) := by
  refine ⟨fun res h => (Run_extends lib stmt fuel st args res h).reset_first.1,
    fun res h => (Get_extends lib stmt fuel st args res h).reset_first.1,
    fun res h => (All_extends lib stmt fuel st args res h).reset_first.1, ?_⟩
  intro hfail
  have hr : (sqlite3_reset stmt.statement_ st).1 ≠ SQLITE_OK := hfail
  refine ⟨⟨none, THROW_ERR_SQLITE_ERROR lib (some stmt.db_)
      (sqlite3_reset stmt.statement_ st).2⟩, ?_, ?_, ?_, rfl, ?_, ?_⟩
  · unfold Run
    simp [hr]
  · unfold Get
    simp [hr]
  · unfold All
    simp [hr]
  · simp [THROW_ERR_SQLITE_ERROR, State.throw, sqlite3_reset]
  · simp [THROW_ERR_SQLITE_ERROR, State.throw, sqlite3_reset]

/-- C19, instance: the statement whose reset reports code 1, called with one
number. -/
theorem C19_reset_first_and_fatal_witness :
    ∃ res, Run libDemo stmtResetFails 1 State.init [.value (.number (.finite 1))] = some res ∧
      Get libDemo stmtResetFails 1 State.init [.value (.number (.finite 1))] = some res ∧
      All libDemo stmtResetFails 1 State.init [.value (.number (.finite 1))] = some res ∧
      res.returnValue = none ∧
      res.state.log = State.init.log ++ [Call.reset] ∧
      res.state.thrown
        = State.init.thrown ++
          [JSError.ERR_SQLITE_ERROR (CreateSQLiteError libDemo (some stmtResetFails.db_))] :=
  (C19_reset_first_and_fatal libDemo stmtResetFails 1 State.init
    [.value (.number (.finite 1))]).2.2.2 (by decide)

/-! ## C13: values that cannot be bound -/

theorem BindValue_of_unbindable (lib : Lib) (stmt : SQLiteStatementSync) (st : State)
    (v : Value) (idx : Nat) (hv : encode v = none) :
    BindValue lib stmt st v idx = (false, st) := by
  simp [BindValue, hv]

theorem pending_throw (st : State) (e : JSError) : (st.throw e).pending = some e := by
  simp [State.throw, State.pending]

/-- The record loop over `before ++ rest` runs `before` and, when that succeeds,
goes on with `rest` from the state reached. -/
theorem bindNamed_append (lib : Lib) (stmt : SQLiteStatementSync) (i : Nat)
    (before rest : List (String × Value)) :
    ∀ (s s2 : State), bindNamed lib stmt i before s = (true, s2) →
      bindNamed lib stmt i (before ++ rest) s = bindNamed lib stmt i rest s2 := by
  induction before with
  | nil =>
    intro s s2 h
    simp only [bindNamed, Prod.mk.injEq, true_and] at h
    subst h
    rfl
  | cons kv before ih =>
    intro s s2 h
    obtain ⟨key, value⟩ := kv
    by_cases h0 : sqlite3_bind_parameter_index stmt.statement_ (cstr key) = 0
    · simp [bindNamed, h0] at h
    · cases hS : BindValue lib stmt s value
          (sqlite3_bind_parameter_index stmt.statement_ (cstr key)) with
      | mk b s0 =>
        cases b with
        | false => simp [bindNamed, h0, hS] at h
        | true =>
          simp only [bindNamed, h0, if_false, hS] at h
          simp only [List.cons_append, bindNamed, h0, if_false, hS]
          exact ih s0 s2 h

/-- What the three modes do when the reset succeeds and `BindParams` returns
false: they return at once with the return value unset. -/
theorem modes_of_failed_binding (lib : Lib) (stmt : SQLiteStatementSync) (fuel : Nat)
    (st st2 : State) (args : List Arg)
    (hreset : stmt.statement_.resetRc = SQLITE_OK)
    (hbind : BindParams lib stmt fuel (sqlite3_reset stmt.statement_ st).2 args
      = some (false, st2)) :
    Run lib stmt fuel st args = some ⟨none, st2⟩ ∧
    Get lib stmt fuel st args = some ⟨none, st2⟩ ∧
    All lib stmt fuel st args = some ⟨none, st2⟩ := by
  have hr : (sqlite3_reset stmt.statement_ st).1 = SQLITE_OK := hreset
  refine ⟨?_, ?_, ?_⟩
  · unfold Run
    simp [hr, hbind]
  · unfold Get
    simp [hr, hbind]
  · unfold All
    simp [hr, hbind]

/-- Where the code does reject a value: let the reset succeed and the arguments
`pre` bind successfully, up to cursor `c1` and state `s1`, and let `v` be a
value that is no number, text, null or buffer and that `BindParams` sends to
`BindValue`.  If `v` is the next positional argument (and the skip loop
ends), or the value of a property, under a key for which the engine reports a
slot, of the record that is the next argument (the properties before it being
bound successfully), then run, get and all return with the return value unset
and, pending, the invalid-argument-type error that carries the 1-based index
of the argument (and the key, for a named value); the log at return is the one
reached before `v`, the reset followed by bind calls only, so no bind call was
issued for `v` and the statement was not stepped. -/
theorem unbindable_value_is_rejected_when_reached (lib : Lib) (stmt : SQLiteStatementSync)
    (fuel : Nat) (st : State) (pre post : List Arg) (c1 : Nat) (s1 : State) (v : Value)
    (hreset : stmt.statement_.resetRc = SQLITE_OK)
    (hpre : bindLoop lib stmt fuel pre 0 1 (sqlite3_reset stmt.statement_ st).2
      = some (true, c1, s1))
    (hv : encode v = none) :
    (∃ binds, AllBinds binds ∧ s1.log = st.log ++ Call.reset :: binds) ∧
    (∀ idx, skipNamed stmt.statement_ fuel c1 = some idx →
      ∃ res, Run lib stmt fuel st (pre ++ Arg.value v :: post) = some res ∧
        Get lib stmt fuel st (pre ++ Arg.value v :: post) = some res ∧
        All lib stmt fuel st (pre ++ Arg.value v :: post) = some res ∧
        res.returnValue = none ∧
        res.state.pending
          = some (JSError.ERR_INVALID_ARG_TYPE (.anonymousParameter (pre.length + 1))) ∧
        res.state.log = s1.log) ∧
    (∀ before after key s2,
      bindNamed lib stmt pre.length before s1 = (true, s2) →
      sqlite3_bind_parameter_index stmt.statement_ (cstr key) ≠ 0 →
      ∃ res,
        Run lib stmt fuel st (pre ++ Arg.pojo (before ++ (key, v) :: after) :: post)
          = some res ∧
        Get lib stmt fuel st (pre ++ Arg.pojo (before ++ (key, v) :: after) :: post)
          = some res ∧
        All lib stmt fuel st (pre ++ Arg.pojo (before ++ (key, v) :: after) :: post)
          = some res ∧
        res.returnValue = none ∧
        res.state.pending
          = some (JSError.ERR_INVALID_ARG_TYPE
              (.namedParameter (cstr key) (pre.length + 1))) ∧
        res.state.log = s2.log ∧
        ∃ binds, AllBinds binds ∧ s2.log = s1.log ++ binds) := by
  refine ⟨?_, ?_, ?_⟩
  · obtain ⟨_, _, ⟨binds, hlog, hall⟩, _⟩ :=
      bindLoop_effect lib stmt fuel pre 0 1 _ true c1 s1 hpre
    exact ⟨binds, hall, by rw [hlog]; simp [sqlite3_reset]⟩
  · intro idx hidx
    have hloop : bindLoop lib stmt fuel (pre ++ Arg.value v :: post) 0 1
        (sqlite3_reset stmt.statement_ st).2
          = some (false, idx,
              s1.throw (.ERR_INVALID_ARG_TYPE (.anonymousParameter (pre.length + 1)))) := by
      rw [bindLoop_append lib stmt fuel pre _ 0 1 _ c1 s1 hpre]
      simp [bindLoop, IsPOJO, Arg.IsArray, hidx, BindValue_of_unbindable lib stmt s1 v idx hv]
    have hbind : BindParams lib stmt fuel (sqlite3_reset stmt.statement_ st).2
        (pre ++ Arg.value v :: post)
          = some (false,
              s1.throw (.ERR_INVALID_ARG_TYPE (.anonymousParameter (pre.length + 1)))) := by
      simp [BindParams, hloop]
    obtain ⟨h1, h2, h3⟩ := modes_of_failed_binding lib stmt fuel st _ _ hreset hbind
    exact ⟨_, h1, h2, h3, rfl, pending_throw _ _, rfl⟩
  · intro before after key s2 hbefore hkey
    have hrec : bindNamed lib stmt pre.length (before ++ (key, v) :: after) s1
        = (false,
            s2.throw (.ERR_INVALID_ARG_TYPE (.namedParameter (cstr key) (pre.length + 1)))) := by
      rw [bindNamed_append lib stmt pre.length before _ s1 s2 hbefore]
      simp [bindNamed, hkey, BindValue_of_unbindable lib stmt s2 v _ hv]
    have hloop : bindLoop lib stmt fuel
        (pre ++ Arg.pojo (before ++ (key, v) :: after) :: post) 0 1
        (sqlite3_reset stmt.statement_ st).2
          = some (false, c1,
              s2.throw (.ERR_INVALID_ARG_TYPE
                (.namedParameter (cstr key) (pre.length + 1)))) := by
      rw [bindLoop_append lib stmt fuel pre _ 0 1 _ c1 s1 hpre]
      simp [bindLoop, IsPOJO, hrec]
    have hbind : BindParams lib stmt fuel (sqlite3_reset stmt.statement_ st).2
        (pre ++ Arg.pojo (before ++ (key, v) :: after) :: post)
          = some (false,
              s2.throw (.ERR_INVALID_ARG_TYPE
                (.namedParameter (cstr key) (pre.length + 1)))) := by
      simp [BindParams, hloop]
    obtain ⟨h1, h2, h3⟩ := modes_of_failed_binding lib stmt fuel st _ _ hreset hbind
    have heff := bindNamed_effect lib stmt pre.length before s1
    rw [hbefore] at heff
    obtain ⟨_, _, ⟨binds, hlog, hall⟩, _⟩ := heff
    exact ⟨_, h1, h2, h3, rfl, pending_throw _ _, rfl, binds, hall, hlog⟩

/-- Instance of the rejection: on the statement with two anonymous slots, after
the positional argument 1, the value `undefined` as next positional
argument. -/
theorem unbindable_value_is_rejected_when_reached_instance :
    ∃ res, Run libDemo stmtTwoAnon 1 State.init
        ([.value (.number (.finite 1))] ++ Arg.value .undefined :: []) = some res ∧
      Get libDemo stmtTwoAnon 1 State.init
        ([.value (.number (.finite 1))] ++ Arg.value .undefined :: []) = some res ∧
      All libDemo stmtTwoAnon 1 State.init
        ([.value (.number (.finite 1))] ++ Arg.value .undefined :: []) = some res ∧
      res.returnValue = none ∧
      res.state.pending
        = some (JSError.ERR_INVALID_ARG_TYPE
            (.anonymousParameter ([Arg.value (.number (.finite 1))].length + 1))) ∧
      res.state.log
        = State.log
            { State.init with
              bound := [(1, Cell.float (.finite 1))]
              log := [Call.reset, Call.bind 1 (Cell.float (.finite 1))] } :=
  (unbindable_value_is_rejected_when_reached libDemo stmtTwoAnon 1 State.init
    [.value (.number (.finite 1))] [] 2
    { State.init with
      bound := [(1, Cell.float (.finite 1))]
      log := [Call.reset, Call.bind 1 (Cell.float (.finite 1))] }
    .undefined rfl (by decide) rfl).2.1 2 (by decide)

/-- C13 (evaluation at the failing inputs): two values that are no number,
text, null or buffer reach no rejection.  The boolean `true` inside the plain
record `{nope: true}`, whose key has no slot on the statement prepared from
`"SELECT $val AS v"`: run, get and all return after the reset alone with
nothing thrown.  The array `[1, 2]` as positional argument of the statement
with two anonymous slots: run, get and all issue no bind call, throw nothing
and step the statement. -/
theorem C13_unbindable_value_passes_unreported :
    encode (Value.boolean true) = none ∧
    sqlite3_bind_parameter_index stmtSelectVal.statement_ (cstr "nope") = 0 ∧
    Run libDemo stmtSelectVal 1 State.init [.pojo [("nope", .boolean true)]]
      = some ⟨none, { State.init with log := [Call.reset] }⟩ ∧
    Get libDemo stmtSelectVal 1 State.init [.pojo [("nope", .boolean true)]]
      = some ⟨none, { State.init with log := [Call.reset] }⟩ ∧
    All libDemo stmtSelectVal 1 State.init [.pojo [("nope", .boolean true)]]
      = some ⟨none, { State.init with log := [Call.reset] }⟩ ∧
    Arg.IsArray (.array [.number (.finite 1), .number (.finite 2)]) = true ∧
    Run libDemo stmtTwoAnon 1 State.init [.array [.number (.finite 1), .number (.finite 2)]]
      = some ⟨none, { State.init with pc := 1, log := [Call.reset, Call.step] }⟩ ∧
    Get libDemo stmtTwoAnon 1 State.init [.array [.number (.finite 1), .number (.finite 2)]]
      = some ⟨none, { State.init with pc := 1, log := [Call.reset, Call.step] }⟩ ∧
    All libDemo stmtTwoAnon 1 State.init [.array [.number (.finite 1), .number (.finite 2)]]
      = some ⟨some (.array []),
          { State.init with pc := 1, log := [Call.reset, Call.step] }⟩ := by
  decide

/-! ## C18: the positional cursor -/

/-- On exit the skip loop stands on a slot without a declared name, at or after
the cursor it started from, and every slot it passed has a declared name. -/
theorem skipNamed_exit (s : sqlite3_stmt) (fuel : Nat) :
    ∀ (cur idx : Nat), skipNamed s fuel cur = some idx →
      cur ≤ idx ∧ s.paramName idx = none ∧
        ∀ k, cur ≤ k → k < idx → s.paramName k ≠ none := by
  induction fuel with
  | zero => intro cur idx h; simp [skipNamed] at h
  | succ f ih =>
    intro cur idx h
    cases hn : s.paramName cur with
    | none =>
      simp only [skipNamed, hn, Option.some.injEq] at h
      subst h
      exact ⟨le_refl _, hn, fun k h1 h2 => absurd h2 (by omega)⟩
    | some name =>
      simp only [skipNamed, hn] at h
      obtain ⟨hle, hnone, hpass⟩ := ih (cur + 1) idx h
      refine ⟨by omega, hnone, ?_⟩
      intro k h1 h2
      by_cases hk : k = cur
      · subst hk; simp [hn]
      · exact hpass k (by omega) h2

/-- With fuel above the distance, the skip loop reaches the first slot without a
declared name. -/
theorem skipNamed_reaches (s : sqlite3_stmt) (idx : Nat) (hnone : s.paramName idx = none) :
    ∀ (fuel cur : Nat), cur ≤ idx → idx - cur < fuel →
      (∀ k, cur ≤ k → k < idx → s.paramName k ≠ none) →
      skipNamed s fuel cur = some idx := by
  intro fuel
  induction fuel with
  | zero => intro cur _ h _; omega
  | succ f ih =>
    intro cur hle hfuel hpass
    by_cases hc : cur = idx
    · subst hc
      simp [skipNamed, hnone]
    · cases hn : s.paramName cur with
      | none => exact absurd hn (hpass cur (le_refl _) (by omega))
      | some name =>
        simp only [skipNamed, hn]
        exact ih (cur + 1) (by omega) (by omega) (fun k h1 h2 => hpass k (by omega) h2)

theorem unnamedBelow_succ (s : sqlite3_stmt) (c : Nat) :
    unnamedBelow s (c + 1)
      = unnamedBelow s c + (if 1 ≤ c ∧ s.paramName c = none then 1 else 0) := by
  unfold unnamedBelow
  rw [List.range_succ, List.countP_append]
  by_cases h : 1 ≤ c ∧ s.paramName c = none
  · simp [List.countP_cons, h.1, h.2]
  · simp only [h, if_false, Nat.add_zero, Nat.add_right_eq_self]
    rw [not_and_or] at h
    rcases h with h | h
    · simp [List.countP_cons, h]
    · cases hn : s.paramName c with
      | none => exact absurd hn h
      | some name => simp [List.countP_cons, hn]

theorem unnamedBelow_mono (s : sqlite3_stmt) (a : Nat) :
    ∀ b, a ≤ b → unnamedBelow s a ≤ unnamedBelow s b := by
  intro b hab
  induction b with
  | zero =>
    have : a = 0 := by omega
    subst this
    exact le_refl _
  | succ b ih =>
    by_cases h : a = b + 1
    · subst h; exact le_refl _
    · have := ih (by omega)
      rw [unnamedBelow_succ]
      omega

/-- Passing only slots that have a declared name does not change the count. -/
theorem unnamedBelow_of_named (s : sqlite3_stmt) (a : Nat) :
    ∀ b, a ≤ b → (∀ k, a ≤ k → k < b → s.paramName k ≠ none) →
      unnamedBelow s b = unnamedBelow s a := by
  intro b hab
  induction b with
  | zero =>
    intro _
    have : a = 0 := by omega
    subst this
    rfl
  | succ b ih =>
    intro hpass
    by_cases h : a = b + 1
    · subst h; rfl
    · have hb := ih (by omega) (fun k h1 h2 => hpass k h1 (by omega))
      have hn := hpass b (by omega) (by omega)
      rw [unnamedBelow_succ, hb]
      simp [hn]

/-- The cursor counts the positional arguments taken: after a successful run of
the argument loop the number of nameless slots below the cursor has grown by
the number of positional arguments. -/
theorem bindLoop_cursor (lib : Lib) (stmt : SQLiteStatementSync) (fuel : Nat)
    (args : List Arg) :
    ∀ (i cur : Nat) (st : State) (cur1 : Nat) (st1 : State),
      1 ≤ cur →
      bindLoop lib stmt fuel args i cur st = some (true, cur1, st1) →
      1 ≤ cur1 ∧
        unnamedBelow stmt.statement_ cur1
          = unnamedBelow stmt.statement_ cur + positionalCount args := by
  induction args with
  | nil =>
    intro i cur st cur1 st1 hcur h
    simp only [bindLoop, Option.some.injEq, Prod.mk.injEq, true_and] at h
    obtain ⟨rfl, _⟩ := h
    exact ⟨hcur, by simp [positionalCount]⟩
  | cons arg rest ih =>
    intro i cur st cur1 st1 hcur h
    cases arg with
    | pojo props =>
      cases hS : bindNamed lib stmt i props st with
      | mk b s0 =>
        cases b with
        | false => simp [bindLoop, IsPOJO, hS] at h
        | true =>
          simp only [bindLoop, IsPOJO, if_true, hS] at h
          obtain ⟨h1, h2⟩ := ih (i + 1) cur s0 cur1 st1 hcur h
          exact ⟨h1, by simpa [positionalCount, IsPOJO] using h2⟩
    | array items =>
      simp only [bindLoop, IsPOJO, Arg.IsArray, Bool.false_eq_true, if_false, if_true] at h
      obtain ⟨h1, h2⟩ := ih (i + 1) cur st cur1 st1 hcur h
      exact ⟨h1, by simpa [positionalCount, IsPOJO, Arg.IsArray] using h2⟩
    | value v =>
      simp only [bindLoop, IsPOJO, Arg.IsArray, Bool.false_eq_true, if_false] at h
      cases hk : skipNamed stmt.statement_ fuel cur with
      | none => simp [hk] at h
      | some idx =>
        simp only [hk] at h
        obtain ⟨hle, hnone, hpass⟩ := skipNamed_exit stmt.statement_ fuel cur idx hk
        cases hS : BindValue lib stmt st v idx with
        | mk b s0 =>
          cases b with
          | false => simp [hS] at h
          | true =>
            simp only [hS] at h
            obtain ⟨h1, h2⟩ := ih (i + 1) (idx + 1) s0 cur1 st1 (by omega) h
            refine ⟨h1, ?_⟩
            have hidx : 1 ≤ idx := by omega
            rw [h2, unnamedBelow_succ, unnamedBelow_of_named stmt.statement_ cur idx hle hpass]
            simp [positionalCount, IsPOJO, Arg.IsArray, List.countP_cons, hidx, hnone]
            omega

/-- C18: let the arguments `pre`, records, arrays and positional values in any
mix, bind successfully, and let `v` be the next positional argument, the j-th
one with j = `positionalCount pre + 1`.  Let `slot` be the j-th slot without a
declared name: a slot in `1..paramCount` that has no declared name and has
exactly j - 1 nameless slots below it.  With fuel above the slot count the
skip loop stops on `slot`, `v` is handed to `BindValue` for `slot`, whose bind
call, for a value of accepted type, is the one call added to the log, and the
loop goes on from cursor `slot + 1`.  Whatever the cursor, the slot the skip
loop stops on has no declared name. -/
theorem C18_positional_takes_next_nameless_slot (lib : Lib) (stmt : SQLiteStatementSync)
    (fuel : Nat) (st : State) (pre post : List Arg) (v : Value) (c1 : Nat) (s1 : State)
    (slot : Nat)
    (hpre : bindLoop lib stmt fuel pre 0 1 st = some (true, c1, s1))
    (hslot1 : 1 ≤ slot) (hslotN : slot ≤ stmt.statement_.paramCount)
    (hnameless : stmt.statement_.paramName slot = none)
    (hjth : unnamedBelow stmt.statement_ slot = positionalCount pre)
    (hfuel : stmt.statement_.paramCount < fuel) :
    skipNamed stmt.statement_ fuel c1 = some slot ∧
    bindLoop lib stmt fuel (pre ++ Arg.value v :: post) 0 1 st
      = (match BindValue lib stmt s1 v slot with
        | (false, s2) =>
          some (false, slot,
            s2.throw (.ERR_INVALID_ARG_TYPE (.anonymousParameter (pre.length + 1))))
        | (true, s2) => bindLoop lib stmt fuel post (pre.length + 1) (slot + 1) s2) ∧
    (∀ c, encode v = some c →
      (BindValue lib stmt s1 v slot).2.log = s1.log ++ [Call.bind slot c]) ∧
    (∀ cur idx, skipNamed stmt.statement_ fuel cur = some idx →
      stmt.statement_.paramName idx = none) := by
  obtain ⟨hc1, hcount⟩ := bindLoop_cursor lib stmt fuel pre 0 1 st c1 s1 (le_refl _) hpre
  have hzero : unnamedBelow stmt.statement_ 1 = 0 := by
    simp [unnamedBelow, List.range_succ]
  have heq : unnamedBelow stmt.statement_ c1 = unnamedBelow stmt.statement_ slot := by
    rw [hcount, hzero, hjth, Nat.zero_add]
  have hsucc : unnamedBelow stmt.statement_ (slot + 1)
      = unnamedBelow stmt.statement_ slot + 1 := by
    rw [unnamedBelow_succ]
    simp [hslot1, hnameless]
  have hle : c1 ≤ slot := by
    by_contra hlt
    have := unnamedBelow_mono stmt.statement_ (slot + 1) c1 (by omega)
    omega
  have hpass : ∀ k, c1 ≤ k → k < slot → stmt.statement_.paramName k ≠ none := by
    intro k h1 h2 hk
    have hk1 : unnamedBelow stmt.statement_ (k + 1) = unnamedBelow stmt.statement_ k + 1 := by
      rw [unnamedBelow_succ]
      have : 1 ≤ k := by omega
      simp [this, hk]
    have hm1 := unnamedBelow_mono stmt.statement_ c1 k h1
    have hm2 := unnamedBelow_mono stmt.statement_ (k + 1) slot (by omega)
    omega
  have hskip : skipNamed stmt.statement_ fuel c1 = some slot :=
    skipNamed_reaches stmt.statement_ slot hnameless fuel c1 hle (by omega) hpass
  refine ⟨hskip, ?_, ?_, ?_⟩
  · rw [bindLoop_append lib stmt fuel pre _ 0 1 st c1 s1 hpre]
    simp only [Nat.zero_add, bindLoop, IsPOJO, Arg.IsArray, Bool.false_eq_true, if_false, hskip]
  · intro c hc
    unfold BindValue
    by_cases hrc : stmt.statement_.bindRc slot c = SQLITE_OK
    · simp [hc, hrc]
    · simp [hc, hrc, THROW_ERR_SQLITE_ERROR, State.throw]
  · intro cur idx h
    exact (skipNamed_exit stmt.statement_ fuel cur idx h).2.1

/-- C18, instance: on the statement with slots `?`, `$b`, `?`, after the
arguments `(1, {$b: "x"})` the positional argument null is the second one and
goes to slot 3, the second slot without a declared name. -/
theorem C18_positional_takes_next_nameless_slot_witness :
    skipNamed stmtAnonNamedAnon.statement_ 4 2 = some 3 ∧
    bindLoop libDemo stmtAnonNamedAnon 4
        ([.value (.number (.finite 1)), .pojo [("$b", .string "x")]]
          ++ Arg.value .null :: []) 0 1 State.init
      = (match BindValue libDemo stmtAnonNamedAnon
            { State.init with
              bound := [(2, Cell.text "x"), (1, Cell.float (.finite 1))]
              log := [Call.bind 1 (Cell.float (.finite 1)), Call.bind 2 (Cell.text "x")] }
            .null 3 with
        | (false, s2) =>
          some (false, 3,
            s2.throw (.ERR_INVALID_ARG_TYPE (.anonymousParameter
              ([Arg.value (.number (.finite 1)), Arg.pojo [("$b", .string "x")]].length + 1))))
        | (true, s2) =>
          bindLoop libDemo stmtAnonNamedAnon 4 []
            ([Arg.value (.number (.finite 1)), Arg.pojo [("$b", .string "x")]].length + 1)
            (3 + 1) s2) ∧
    (∀ c, encode Value.null = some c →
      (BindValue libDemo stmtAnonNamedAnon
          { State.init with
            bound := [(2, Cell.text "x"), (1, Cell.float (.finite 1))]
            log := [Call.bind 1 (Cell.float (.finite 1)), Call.bind 2 (Cell.text "x")] }
          .null 3).2.log
        = State.log
            { State.init with
              bound := [(2, Cell.text "x"), (1, Cell.float (.finite 1))]
              log := [Call.bind 1 (Cell.float (.finite 1)), Call.bind 2 (Cell.text "x")] }
          ++ [Call.bind 3 c]) ∧
    (∀ cur idx, skipNamed stmtAnonNamedAnon.statement_ 4 cur = some idx →
      stmtAnonNamedAnon.statement_.paramName idx = none) :=
  C18_positional_takes_next_nameless_slot libDemo stmtAnonNamedAnon 4 State.init
    [.value (.number (.finite 1)), .pojo [("$b", .string "x")]] [] .null 2
    { State.init with
      bound := [(2, Cell.text "x"), (1, Cell.float (.finite 1))]
      log := [Call.bind 1 (Cell.float (.finite 1)), Call.bind 2 (Cell.text "x")] }
    3 (by decide) (by decide) (by decide) (by decide) (by decide) (by decide)

/-! ## C16: the pairs of a row -/

/-- C16 (as stated) fails, in three ways.  The statement `stmtDupColumns` has 2
columns, both named `a`, over the cells 1 and 2: the row that `Get` returns,
and the one in the array that `All` returns, holds the single pair `("a", 2)`.
The statement `stmtIndexColumn` has the 2 distinct columns `b` and `1`: the row
holds 2 pairs, but the pair of column `1` comes first.  The statement
`stmtProtoColumn` has the 1 column `__proto__`: the row holds no pair. -/
theorem C16_counterexample_row_is_a_host_object :
    stmtDupColumns.statement_.columns.length = 2 ∧
    (Get libDemo stmtDupColumns 1 State.init []).map (fun res => res.returnValue)
      = some (some (.object [("a", .number (.finite 2))])) ∧
    (All libDemo stmtDupColumns 2 State.init []).map (fun res => res.returnValue)
      = some (some (.array [[("a", .number (.finite 2))]])) ∧
    [("a", Value.number (.finite 2))].length ≠ stmtDupColumns.statement_.columns.length ∧
    stmtIndexColumn.statement_.columns = [some "b", some "1"] ∧
    (Get libDemo stmtIndexColumn 1 State.init []).map (fun res => res.returnValue)
      = some (some (.object [("1", .number (.finite 2)), ("b", .number (.finite 1))])) ∧
    (All libDemo stmtIndexColumn 2 State.init []).map (fun res => res.returnValue)
      = some (some (.array [[("1", .number (.finite 2)), ("b", .number (.finite 1))]])) ∧
    rowPairs ["b", "1"] [Cell.integer 1, Cell.integer 2]
      = [("b", .number (.finite 1)), ("1", .number (.finite 2))] ∧
    stmtProtoColumn.statement_.columns = [some "__proto__"] ∧
    (Get libDemo stmtProtoColumn 1 State.init []).map (fun res => res.returnValue)
      = some (some (.object [])) ∧
    (All libDemo stmtProtoColumn 2 State.init []).map (fun res => res.returnValue)
      = some (some (.array [[]])) := by
  decide

/-- On an object whose prototype is `Object.prototype`, `Set` of a key that is
not an own key, not an array index and not `__proto__` appends the pair. -/
theorem objectSet_of_fresh (own : Row) (key : String) (val : Value)
    (h : ∀ p ∈ own, p.1 ≠ key) (hproto : key ≠ "__proto__")
    (hindex : arrayIndex? key = none) :
    objectSet ⟨Proto.objectPrototype, own⟩ key val
      = ⟨Proto.objectPrototype, own ++ [(key, val)]⟩ := by
  have hany : own.any (fun p => p.1 == key) = false := by
    rw [List.any_eq_false]
    intro p hp
    simpa using h p hp
  simp [objectSet, hany, hproto, defineOwn, hindex]

/-- Over pairwise distinct names, none an array index and none `__proto__`, the
fold that builds the row object appends one pair per column. -/
theorem foldl_decodeRowStep_of_distinct (columns : List (Option String)) (cells : List Cell)
    (ns : List String) :
    ∀ (i : Nat) (acc : Row),
      (∀ j (h : j < ns.length), columns.getD (i + j) none = some (ns.get ⟨j, h⟩)) →
      ns.Nodup →
      (∀ n ∈ ns, arrayIndex? n = none) →
      "__proto__" ∉ ns →
      (∀ n ∈ ns, ∀ p ∈ acc, p.1 ≠ n) →
      (List.range' i ns.length).foldl (decodeRowStep columns cells)
          ⟨Proto.objectPrototype, acc⟩
        = ⟨Proto.objectPrototype, acc ++ (ns.enumFrom i).map
            (fun p => (p.2, decodeCell (cells.getD p.1 Cell.null)))⟩ := by
  induction ns with
  | nil => intro i acc _ _ _ _ _; simp
  | cons n ns ih =>
    intro i acc hcol hnodup hindex hproto hfresh
    have h0 : columns.getD i none = some n := by
      simpa using hcol 0 (by simp)
    have hn : n ≠ "__proto__" := fun heq => hproto (heq ▸ List.mem_cons_self _ _)
    have hstep : decodeRowStep columns cells ⟨Proto.objectPrototype, acc⟩ i
        = ⟨Proto.objectPrototype, acc ++ [(n, decodeCell (cells.getD i Cell.null))]⟩ := by
      simp only [decodeRowStep, h0]
      exact objectSet_of_fresh acc n _ (fun p hp => hfresh n (List.mem_cons_self _ _) p hp)
        hn (hindex n (List.mem_cons_self _ _))
    have hnd := List.nodup_cons.mp hnodup
    have hrest := ih (i + 1) (acc ++ [(n, decodeCell (cells.getD i Cell.null))])
      (fun j h => by
        have := hcol (j + 1) (by simpa using h)
        simpa [Nat.add_assoc, Nat.add_comm 1] using this)
      hnd.2
      (fun m hm => hindex m (List.mem_cons_of_mem _ hm))
      (fun hm => hproto (List.mem_cons_of_mem _ hm))
      (fun m hm p hp => by
        rcases List.mem_append.mp hp with hp | hp
        · exact hfresh m (List.mem_cons_of_mem _ hm) p hp
        · rw [List.mem_singleton] at hp
          subst hp
          intro heq
          have heq2 : n = m := heq
          exact hnd.1 (heq2 ▸ hm))
    simp only [List.length_cons, List.range', List.foldl_cons, hstep, List.enumFrom,
      List.map_cons]
    rw [hrest]
    simp

/-- Over pairwise distinct column names, none an array index and none
`__proto__`, the row object holds the list of pairs. -/
theorem decodeRow_of_distinct (names : List String) (cells : List Cell)
    (hdistinct : names.Nodup) (hindex : ∀ n ∈ names, arrayIndex? n = none)
    (hproto : "__proto__" ∉ names) :
    decodeRow (names.map some) cells = rowPairs names cells := by
  unfold decodeRow rowPairs
  rw [List.range_eq_range', List.length_map]
  have := foldl_decodeRowStep_of_distinct (names.map some) cells names 0 []
    (fun j h => by
      rw [Nat.zero_add, List.getD_eq_getElem _ _ (by simpa using h)]
      simp)
    hdistinct hindex hproto (fun _ _ p hp => absurd hp (List.not_mem_nil _))
  rw [RowObject.fresh, this]
  simp [List.enum]

/-- What `Get` does on a row: when the reset and the binding succeed, the first
step reports a row, and the statement has at least one column and a name for
every column, it returns the row object and throws nothing. -/
theorem Get_of_row (lib : Lib) (stmt : SQLiteStatementSync) (fuel : Nat)
    (st st2 : State) (args : List Arg)
    (hreset : stmt.statement_.resetRc = SQLITE_OK)
    (hbind : BindParams lib stmt fuel (sqlite3_reset stmt.statement_ st).2 args
      = some (true, st2))
    (hnames : ∀ c ∈ stmt.statement_.columns, c.isSome)
    (hcols : stmt.statement_.columns ≠ [])
    (hrow : (stmt.statement_.exec st2.boundCell 0).rc = SQLITE_ROW) :
    ∃ res, Get lib stmt fuel st args = some res ∧
      res.returnValue = some (.object (decodeRow stmt.statement_.columns
        (stmt.statement_.exec st2.boundCell 0).cells)) ∧
      res.state.thrown = st.thrown := by
  obtain ⟨hpc, hthrown, _⟩ := BindParams_after_reset lib stmt fuel st st2 args hbind
  obtain ⟨st4, hfill, _, _, _, hthrown4⟩ :=
    fillRow_of_named stmt (List.range stmt.statement_.columns.length) RowObject.fresh
      (sqlite3_step stmt.statement_ st2).2 (getD_isSome_of_all _ hnames)
  have hr : (sqlite3_reset stmt.statement_ st).1 = SQLITE_OK := hreset
  have hs : (sqlite3_step stmt.statement_ st2).1 = SQLITE_ROW := by
    simpa [sqlite3_step, hpc] using hrow
  have hlen : stmt.statement_.columns.length ≠ 0 := by
    simpa [List.length_eq_zero] using hcols
  have hown : (List.foldl
      (decodeRowStep stmt.statement_.columns (sqlite3_step stmt.statement_ st2).2.row)
      RowObject.fresh (List.range stmt.statement_.columns.length)).own
        = decodeRow stmt.statement_.columns
            (stmt.statement_.exec st2.boundCell 0).cells := by
    simp [decodeRow, sqlite3_step, hpc]
  refine ⟨⟨_, st4⟩, ?_, rfl, by rw [hthrown4]; simpa [sqlite3_step] using hthrown⟩
  unfold Get
  simp only [hr, hbind, hs, hlen, hfill, hown]
  simp

/-- C16 (amended): for a statement whose c columns have the names `names`,
pairwise distinct, none of them an array index (a plain numeral up to
2^32 - 2) and none of them `__proto__`, after a successful reset and binding,
the row that `Get` returns for a first step reporting a row (given c ≥ 1), and
each row of the array that `All` returns for k steps reporting a row followed
by `SQLITE_DONE` (given fuel above k), is `rowPairs names cells`: exactly c
pairs, the i-th being the name of column i and the decoding of cell i, in
column declaration order. -/
theorem C16_row_pairs_for_distinct_names (lib : Lib) (stmt : SQLiteStatementSync)
    (fuel : Nat) (st st2 : State) (args : List Arg) (names : List String)
    (hreset : stmt.statement_.resetRc = SQLITE_OK)
    (hbind : BindParams lib stmt fuel (sqlite3_reset stmt.statement_ st).2 args
      = some (true, st2))
    (hcols : stmt.statement_.columns = names.map some)
    (hdistinct : names.Nodup)
    (hindex : ∀ n ∈ names, arrayIndex? n = none)
    (hproto : "__proto__" ∉ names) :
    (∀ cells, (rowPairs names cells).length = names.length ∧
      ∀ i (h : i < names.length),
        (rowPairs names cells).get? i
          = some (names.get ⟨i, h⟩, decodeCell (cells.getD i Cell.null))) ∧
    (names ≠ [] → (stmt.statement_.exec st2.boundCell 0).rc = SQLITE_ROW →
      ∃ res, Get lib stmt fuel st args = some res ∧
        res.returnValue
          = some (.object (rowPairs names (stmt.statement_.exec st2.boundCell 0).cells))) ∧
    (∀ k, (∀ j, j < k → (stmt.statement_.exec st2.boundCell j).rc = SQLITE_ROW) →
      (stmt.statement_.exec st2.boundCell k).rc = SQLITE_DONE → k < fuel →
      ∃ res, All lib stmt fuel st args = some res ∧
        res.returnValue
          = some (.array ((List.range k).map (fun j =>
              rowPairs names (stmt.statement_.exec st2.boundCell j).cells)))) := by
  have hnames : ∀ c ∈ stmt.statement_.columns, c.isSome := by
    intro c hc
    rw [hcols, List.mem_map] at hc
    obtain ⟨n, _, rfl⟩ := hc
    rfl
  refine ⟨?_, ?_, ?_⟩
  · intro cells
    exact ⟨by simp [rowPairs], fun i h => by simp [rowPairs, List.enum, h]⟩
  · intro hne hrow
    obtain ⟨res, hget, hret, _⟩ := Get_of_row lib stmt fuel st st2 args hreset hbind hnames
      (by rw [hcols]; simpa using hne) hrow
    refine ⟨res, hget, ?_⟩
    rw [hret, hcols, decodeRow_of_distinct names _ hdistinct hindex hproto]
  · intro k hrows hdone hfuel
    obtain ⟨hpc, _, _⟩ := BindParams_after_reset lib stmt fuel st st2 args hbind
    obtain ⟨st3, hrun, _⟩ := allLoop_of_rows stmt hnames k fuel [] st2 hfuel
      (fun j hj => by simpa [hpc] using hrows j hj) (by simpa [hpc] using hdone)
    have hr : (sqlite3_reset stmt.statement_ st).1 = SQLITE_OK := hreset
    refine ⟨⟨_, st3⟩, ?_, rfl⟩
    unfold All
    simp only [hr, hbind, hrun, hpc]
    simp only [hcols, decodeRow_of_distinct names _ hdistinct hindex hproto]
    simp

/-- C16 (amended), instance: the two-column select with the distinct names `a`
and `b`. -/
theorem C16_row_pairs_for_distinct_names_witness :
    (∀ cells, (rowPairs ["a", "b"] cells).length = ["a", "b"].length ∧
      ∀ i (h : i < ["a", "b"].length),
        (rowPairs ["a", "b"] cells).get? i
          = some (["a", "b"].get ⟨i, h⟩, decodeCell (cells.getD i Cell.null))) ∧
    (["a", "b"] ≠ [] →
      (stmtSelectAB.statement_.exec
        (State.boundCell { State.init with log := [Call.reset] }) 0).rc = SQLITE_ROW →
      ∃ res, Get libDemo stmtSelectAB 3 State.init [] = some res ∧
        res.returnValue
          = some (.object (rowPairs ["a", "b"]
              (stmtSelectAB.statement_.exec
                (State.boundCell { State.init with log := [Call.reset] }) 0).cells))) ∧
    (∀ k,
      (∀ j, j < k →
        (stmtSelectAB.statement_.exec
          (State.boundCell { State.init with log := [Call.reset] }) j).rc = SQLITE_ROW) →
      (stmtSelectAB.statement_.exec
        (State.boundCell { State.init with log := [Call.reset] }) k).rc = SQLITE_DONE →
      k < 3 →
      ∃ res, All libDemo stmtSelectAB 3 State.init [] = some res ∧
        res.returnValue
          = some (.array ((List.range k).map (fun j =>
              rowPairs ["a", "b"]
                (stmtSelectAB.statement_.exec
                  (State.boundCell { State.init with log := [Call.reset] }) j).cells)))) :=
  C16_row_pairs_for_distinct_names libDemo stmtSelectAB 3 State.init
    { State.init with log := [Call.reset] } [] ["a", "b"] rfl (by decide) rfl (by decide)
    (by decide) (by decide)

/-! ## C20: bound values across two calls -/

theorem sameEffect_refl (s t : State) : SameEffect s s t t :=
  ⟨[], [], by simp, by simp, by simp, by simp, fun _ h => absurd h (List.not_mem_nil _)⟩

theorem sameEffect_trans {s s1 s2 t t1 t2 : State} (h1 : SameEffect s s1 t t1)
    (h2 : SameEffect s1 s2 t1 t2) : SameEffect s s2 t t2 := by
  obtain ⟨c1, b1, hs1, ht1, hsb1, htb1, hm1⟩ := h1
  obtain ⟨c2, b2, hs2, ht2, hsb2, htb2, hm2⟩ := h2
  refine ⟨c1 ++ c2, b2 ++ b1, by rw [hs2, hs1, List.append_assoc],
    by rw [ht2, ht1, List.append_assoc], by rw [hsb2, hsb1, List.append_assoc],
    by rw [htb2, htb1, List.append_assoc], ?_⟩
  intro p hp
  rcases List.mem_append.mp hp with h | h
  · exact List.mem_append_right _ (hm2 p h)
  · exact List.mem_append_left _ (hm1 p h)

theorem sameEffect_throw {s s1 t t1 : State} (h : SameEffect s s1 t t1) (e f : JSError) :
    SameEffect s (s1.throw e) t (t1.throw f) := by
  obtain ⟨c, b, hs, ht, hsb, htb, hm⟩ := h
  exact ⟨c, b, by simpa [State.throw] using hs, by simpa [State.throw] using ht,
    by simpa [State.throw] using hsb, by simpa [State.throw] using htb, hm⟩

theorem BindValue_sameEffect (lib : Lib) (stmt : SQLiteStatementSync) (v : Value) (idx : Nat)
    (s t : State) :
    SameEffect s (BindValue lib stmt s v idx).2 t (BindValue lib stmt t v idx).2 ∧
      (BindValue lib stmt s v idx).1 = (BindValue lib stmt t v idx).1 := by
  unfold BindValue
  cases encode v with
  | none => exact ⟨sameEffect_refl s t, rfl⟩
  | some c =>
    by_cases hrc : stmt.statement_.bindRc idx c = SQLITE_OK
    · exact ⟨⟨[Call.bind idx c], [(idx, c)], by simp [hrc], by simp [hrc], by simp [hrc],
        by simp [hrc], by simp⟩, by simp [hrc]⟩
    · exact ⟨⟨[Call.bind idx c], [], by simp [hrc, THROW_ERR_SQLITE_ERROR, State.throw],
        by simp [hrc, THROW_ERR_SQLITE_ERROR, State.throw],
        by simp [hrc, THROW_ERR_SQLITE_ERROR, State.throw],
        by simp [hrc, THROW_ERR_SQLITE_ERROR, State.throw],
        fun _ h => absurd h (List.not_mem_nil _)⟩, by simp [hrc]⟩

theorem bindNamed_sameEffect (lib : Lib) (stmt : SQLiteStatementSync)
    (props : List (String × Value)) :
    ∀ (i j : Nat) (s t : State),
      SameEffect s (bindNamed lib stmt i props s).2 t (bindNamed lib stmt j props t).2 ∧
        (bindNamed lib stmt i props s).1 = (bindNamed lib stmt j props t).1 := by
  induction props with
  | nil => intro i j s t; exact ⟨sameEffect_refl s t, rfl⟩
  | cons kv rest ih =>
    intro i j s t
    obtain ⟨key, value⟩ := kv
    by_cases h0 : sqlite3_bind_parameter_index stmt.statement_ (cstr key) = 0
    · simp only [bindNamed, h0, if_true]
      exact ⟨sameEffect_refl s t, trivial⟩
    · obtain ⟨hE, hb⟩ := BindValue_sameEffect lib stmt value
        (sqlite3_bind_parameter_index stmt.statement_ (cstr key)) s t
      cases hS : BindValue lib stmt s value
          (sqlite3_bind_parameter_index stmt.statement_ (cstr key)) with
      | mk b s1 =>
        cases hT : BindValue lib stmt t value
            (sqlite3_bind_parameter_index stmt.statement_ (cstr key)) with
        | mk b2 t1 =>
          rw [hS, hT] at hb hE
          simp only at hb
          subst hb
          cases b with
          | false =>
            simp only [bindNamed, h0, if_false, hS, hT]
            exact ⟨sameEffect_throw hE _ _, trivial⟩
          | true =>
            simp only [bindNamed, h0, if_false, hS, hT]
            obtain ⟨hE2, hb2⟩ := ih i j s1 t1
            exact ⟨sameEffect_trans hE hE2, hb2⟩

/-- The argument loop issues the same calls, stores the same values and ends
with the same status and cursor from whatever state it starts. -/
theorem bindLoop_sameEffect (lib : Lib) (stmt : SQLiteStatementSync) (fuel : Nat)
    (args : List Arg) :
    ∀ (i j cur : Nat) (s t : State) (ok : Bool) (cur1 : Nat) (s1 : State),
      bindLoop lib stmt fuel args i cur s = some (ok, cur1, s1) →
      ∃ t1, bindLoop lib stmt fuel args j cur t = some (ok, cur1, t1) ∧
        SameEffect s s1 t t1 := by
  induction args with
  | nil =>
    intro i j cur s t ok cur1 s1 h
    simp only [bindLoop, Option.some.injEq, Prod.mk.injEq] at h
    obtain ⟨rfl, rfl, rfl⟩ := h
    exact ⟨t, by simp [bindLoop], sameEffect_refl _ _⟩
  | cons arg rest ih =>
    intro i j cur s t ok cur1 s1 h
    cases arg with
    | pojo props =>
      obtain ⟨hE, hb⟩ := bindNamed_sameEffect lib stmt props i j s t
      cases hS : bindNamed lib stmt i props s with
      | mk b s0 =>
        cases hT : bindNamed lib stmt j props t with
        | mk b2 t0 =>
          rw [hS, hT] at hb hE
          simp only at hb
          subst hb
          cases b with
          | false =>
            simp only [bindLoop, IsPOJO, if_true, hS, Option.some.injEq, Prod.mk.injEq] at h
            obtain ⟨rfl, rfl, rfl⟩ := h
            exact ⟨t0, by simp [bindLoop, IsPOJO, hT], hE⟩
          | true =>
            simp only [bindLoop, IsPOJO, if_true, hS] at h
            obtain ⟨t1, hrun, hE2⟩ := ih (i + 1) (j + 1) cur s0 t0 ok cur1 s1 h
            exact ⟨t1, by simp [bindLoop, IsPOJO, hT, hrun], sameEffect_trans hE hE2⟩
    | array items =>
      simp only [bindLoop, IsPOJO, Arg.IsArray, Bool.false_eq_true, if_false, if_true] at h
      obtain ⟨t1, hrun, hE⟩ := ih (i + 1) (j + 1) cur s t ok cur1 s1 h
      exact ⟨t1, by simp [bindLoop, IsPOJO, Arg.IsArray, hrun], hE⟩
    | value v =>
      simp only [bindLoop, IsPOJO, Arg.IsArray, Bool.false_eq_true, if_false] at h
      cases hk : skipNamed stmt.statement_ fuel cur with
      | none => simp [hk] at h
      | some idx =>
        simp only [hk] at h
        obtain ⟨hE, hb⟩ := BindValue_sameEffect lib stmt v idx s t
        cases hS : BindValue lib stmt s v idx with
        | mk b s0 =>
          cases hT : BindValue lib stmt t v idx with
          | mk b2 t0 =>
            rw [hS, hT] at hb hE
            simp only at hb
            subst hb
            cases b with
            | false =>
              simp only [hS, Option.some.injEq, Prod.mk.injEq] at h
              obtain ⟨rfl, rfl, rfl⟩ := h
              exact ⟨_, by simp [bindLoop, IsPOJO, Arg.IsArray, hk, hT]; rfl, sameEffect_throw hE _ _⟩
            | true =>
              simp only [hS] at h
              obtain ⟨t1, hrun, hE2⟩ := ih (i + 1) (j + 1) (idx + 1) s0 t0 ok cur1 s1 h
              exact ⟨t1, by simp [bindLoop, IsPOJO, Arg.IsArray, hk, hT, hrun], sameEffect_trans hE hE2⟩

theorem mem_of_lookup_eq_some (l : List (Nat × Cell)) (k : Nat) (c : Cell)
    (h : l.lookup k = some c) : (k, c) ∈ l := by
  induction l with
  | nil => simp at h
  | cons p rest ih =>
    obtain ⟨a, b⟩ := p
    by_cases hk : k = a
    · subst hk
      simp only [List.lookup, beq_self_eq_true, Option.some.injEq] at h
      subst h
      exact List.mem_cons_self _ _
    · have hb : (k == a) = false := by simpa using hk
      simp only [List.lookup, hb] at h
      exact List.mem_cons_of_mem _ (ih h)

/-- On an engine whose reset retains the bound values, the values of a first
call outlive the reset of the second: after run `(1, "x")` and then run `(3)`
on the two-slot statement, slot 2 still holds the text `x` when the statement
is stepped. -/
theorem bound_values_outlive_a_retaining_reset :
    stmtTwoAnon.statement_.resetClears = false ∧
    Run libDemo stmtTwoAnon 1 State.init [.value (.number (.finite 1)), .value (.string "x")]
      = some ⟨none, stateAfterFirstRun⟩ ∧
    (Run libDemo stmtTwoAnon 1 stateAfterFirstRun [.value (.number (.finite 3))]).map
        (fun res => (res.state.boundCell 1, res.state.boundCell 2))
      = some (Cell.float (.finite 3), Cell.text "x") := by
  decide

/-- What clearing would give: on an engine whose reset clears the bound values,
as the spec says of it and as SQLite's does not, let a call follow an earlier
call that left the statement in any state `prior`.  Once the second call's
reset has run no value is bound.  If its binding succeeds, the values bound
when the statement is stepped are those that the same arguments bind on a
freshly prepared statement, the step sees the same thing as there, and every
slot for which the second call issued no bind call reads as null. -/
theorem second_call_binds_from_its_own_arguments_after_clearing (lib : Lib)
    (stmt : SQLiteStatementSync) (fuel : Nat) (prior s2 : State) (args : List Arg)
    (hspec : ResetClearsBindings stmt.statement_)
    (hbind : BindParams lib stmt fuel (sqlite3_reset stmt.statement_ prior).2 args
      = some (true, s2)) :
    (sqlite3_reset stmt.statement_ prior).2.bound = [] ∧
    (∃ fresh, BindParams lib stmt fuel (sqlite3_reset stmt.statement_ State.init).2 args
        = some (true, fresh) ∧
      s2.bound = fresh.bound ∧
      stmt.statement_.exec s2.boundCell s2.pc
        = stmt.statement_.exec fresh.boundCell fresh.pc) ∧
    (∃ binds, AllBinds binds ∧ s2.log = prior.log ++ Call.reset :: binds ∧
      ∀ slot, (∀ c, Call.bind slot c ∉ binds) → s2.boundCell slot = Cell.null) := by
  have hclear : stmt.statement_.resetClears = true := hspec
  have hb0 : ∀ st : State, (sqlite3_reset stmt.statement_ st).2.bound = [] := by
    intro st
    simp [sqlite3_reset, hclear]
  unfold BindParams at hbind
  cases hL : bindLoop lib stmt fuel args 0 1 (sqlite3_reset stmt.statement_ prior).2 with
  | none => simp [hL] at hbind
  | some r =>
    obtain ⟨ok, cur1, s1⟩ := r
    simp only [hL, Option.map_some', Option.some.injEq, Prod.mk.injEq] at hbind
    obtain ⟨rfl, rfl⟩ := hbind
    obtain ⟨fresh, hrun, calls, stored, hslog, _, hsb, hfb, hmem⟩ :=
      bindLoop_sameEffect lib stmt fuel args 0 0 1 (sqlite3_reset stmt.statement_ prior).2
        (sqlite3_reset stmt.statement_ State.init).2 true cur1 s1 hL
    obtain ⟨hpc, _, ⟨binds, hlog, hall⟩, _⟩ :=
      bindLoop_effect lib stmt fuel args 0 1 _ true cur1 s1 hL
    obtain ⟨hpcf, _, _, _⟩ := bindLoop_effect lib stmt fuel args 0 1 _ true cur1 fresh hrun
    have hbound : s1.bound = fresh.bound := by
      rw [hsb, hfb, hb0, hb0]
    have hcalls : calls = binds := List.append_cancel_left (hslog.symm.trans hlog)
    refine ⟨hb0 prior, ⟨fresh, by simp [BindParams, hrun], hbound, ?_⟩,
      ⟨binds, hall, by rw [hlog]; simp [sqlite3_reset], ?_⟩⟩
    · rw [boundCell_congr s1 fresh hbound, hpc, hpcf]
      rfl
    · intro slot hno
      unfold State.boundCell
      cases hl : s1.bound.lookup slot with
      | none => rfl
      | some c =>
        have hin : (slot, c) ∈ stored := by
          have := mem_of_lookup_eq_some _ _ _ hl
          rwa [hsb, hb0, List.append_nil] at this
        exact absurd (hcalls ▸ hmem (slot, c) hin) (hno c)

/-- Instance of the clearing case: on the two-slot statement with a clearing
reset, the call `(3)` after the call `(1, "x")`. -/
theorem second_call_binds_from_its_own_arguments_after_clearing_instance :
    (sqlite3_reset stmtTwoAnonClearing.statement_ stateAfterFirstRun).2.bound = [] ∧
    (∃ fresh, BindParams libDemo stmtTwoAnonClearing 1
        (sqlite3_reset stmtTwoAnonClearing.statement_ State.init).2
        [.value (.number (.finite 3))] = some (true, fresh) ∧
      State.bound
          { bound := [(1, Cell.float (.finite 3))]
            pc := 0
            row := []
            log := stateAfterFirstRun.log ++ [Call.reset, Call.bind 1 (Cell.float (.finite 3))]
            thrown := [] }
        = fresh.bound ∧
      stmtTwoAnonClearing.statement_.exec
          (State.boundCell
            { bound := [(1, Cell.float (.finite 3))]
              pc := 0
              row := []
              log := stateAfterFirstRun.log ++
                [Call.reset, Call.bind 1 (Cell.float (.finite 3))]
              thrown := [] })
          (State.pc
            { bound := [(1, Cell.float (.finite 3))]
              pc := 0
              row := []
              log := stateAfterFirstRun.log ++
                [Call.reset, Call.bind 1 (Cell.float (.finite 3))]
              thrown := [] })
        = stmtTwoAnonClearing.statement_.exec fresh.boundCell fresh.pc) ∧
    (∃ binds, AllBinds binds ∧
      State.log
          { bound := [(1, Cell.float (.finite 3))]
            pc := 0
            row := []
            log := stateAfterFirstRun.log ++ [Call.reset, Call.bind 1 (Cell.float (.finite 3))]
            thrown := [] }
        = stateAfterFirstRun.log ++ Call.reset :: binds ∧
      ∀ slot, (∀ c, Call.bind slot c ∉ binds) →
        State.boundCell
            { bound := [(1, Cell.float (.finite 3))]
              pc := 0
              row := []
              log := stateAfterFirstRun.log ++
                [Call.reset, Call.bind 1 (Cell.float (.finite 3))]
              thrown := [] } slot
          = Cell.null) :=
  second_call_binds_from_its_own_arguments_after_clearing libDemo stmtTwoAnonClearing 1
    stateAfterFirstRun
    { bound := [(1, Cell.float (.finite 3))]
      pc := 0
      row := []
      log := stateAfterFirstRun.log ++ [Call.reset, Call.bind 1 (Cell.float (.finite 3))]
      thrown := [] }
    [.value (.number (.finite 3))] rfl (by decide)

/-- C20 (evaluation at the failing input): the statement prepared from
`"SELECT ? AS a, ? AS b"` on an engine whose reset keeps the bound values, as
SQLite's does.  After get `(1, "x")` returned the row `{a: 1, b: "x"}`, get
`(3)` returns the row `{a: 3, b: "x"}`, not `{a: 3, b: null}`: the step of the
second call still sees, in slot 2, the text bound by the first call.  The same
happens for all `(3)` after run `(1, "x")`. -/
theorem C20_first_call_values_reach_the_second_step :
    stmtSelectTwoSlots.statement_.resetClears = false ∧
    (Get libDemo stmtSelectTwoSlots 1 State.init
        [.value (.number (.finite 1)), .value (.string "x")]).map
        (fun res => res.returnValue)
      = some (some (.object [("a", .number (.finite 1)), ("b", .string "x")])) ∧
    ((Get libDemo stmtSelectTwoSlots 1 State.init
        [.value (.number (.finite 1)), .value (.string "x")]).bind
        (fun first => Get libDemo stmtSelectTwoSlots 1 first.state
          [.value (.number (.finite 3))])).map
        (fun res => (res.returnValue, res.state.boundCell 2, res.state.thrown))
      = some (some (.object [("a", .number (.finite 3)), ("b", .string "x")]),
          Cell.text "x", []) ∧
    ((Run libDemo stmtSelectTwoSlots 1 State.init
        [.value (.number (.finite 1)), .value (.string "x")]).bind
        (fun first => All libDemo stmtSelectTwoSlots 2 first.state
          [.value (.number (.finite 3))])).map
        (fun res => (res.returnValue, res.state.boundCell 2, res.state.thrown))
      = some (some (.array [[("a", .number (.finite 3)), ("b", .string "x")]]),
          Cell.text "x", []) ∧
    Returned.object [("a", .number (.finite 3)), ("b", .string "x")]
      ≠ Returned.object [("a", .number (.finite 3)), ("b", .null)] := by
  decide

/-! ## C21: termination of `BindParams` and the range of the cursor -/

/-- When no name is reported above the declared count, the skip loop ends
within `paramCount + 1` tests, on a slot that is the cursor itself or at most
`paramCount + 1`. -/
theorem skipNamed_terminates (s : sqlite3_stmt)
    (habsent : ∀ k, s.paramCount < k → s.paramName k = none) :
    ∀ (fuel cur : Nat), max cur (s.paramCount + 1) - cur < fuel →
      ∃ idx, skipNamed s fuel cur = some idx ∧ cur ≤ idx ∧
        idx ≤ max cur (s.paramCount + 1) := by
  intro fuel
  induction fuel with
  | zero => intro cur h; omega
  | succ f ih =>
    intro cur hfuel
    cases hn : s.paramName cur with
    | none => exact ⟨cur, by simp [skipNamed, hn], le_refl _, le_max_left _ _⟩
    | some name =>
      have hcur : cur ≤ s.paramCount := by
        by_contra hgt
        have := habsent cur (by omega)
        simp [hn] at this
      have hmax : max cur (s.paramCount + 1) = s.paramCount + 1 := max_eq_right (by omega)
      have hmax1 : max (cur + 1) (s.paramCount + 1) = s.paramCount + 1 :=
        max_eq_right (by omega)
      obtain ⟨idx, hrun, hle, hup⟩ := ih (cur + 1) (by rw [hmax1]; rw [hmax] at hfuel; omega)
      exact ⟨idx, by simp [skipNamed, hn, hrun], by omega, by rw [hmax]; rw [hmax1] at hup; exact hup⟩

/-- Without the assumption the skip loop need not end: when every slot index
carries a name it runs out of any amount of fuel. -/
theorem skipNamed_of_all_named (s : sqlite3_stmt) (hnamed : ∀ k, s.paramName k ≠ none) :
    ∀ (fuel cur : Nat), skipNamed s fuel cur = none := by
  intro fuel
  induction fuel with
  | zero => intro cur; rfl
  | succ f ih =>
    intro cur
    cases hn : s.paramName cur with
    | none => exact absurd hn (hnamed cur)
    | some name => simp [skipNamed, hn, ih]

theorem positionalCount_append (pre rest : List Arg) :
    positionalCount (pre ++ rest) = positionalCount pre + positionalCount rest := by
  simp [positionalCount, List.countP_append]

/-- The argument loop returns, and its cursor moves forward by at most one slot
per positional argument once it is past the declared slots. -/
theorem bindLoop_terminates (lib : Lib) (stmt : SQLiteStatementSync) (fuel : Nat)
    (habsent : ∀ k, stmt.statement_.paramCount < k → stmt.statement_.paramName k = none)
    (hfuel : stmt.statement_.paramCount < fuel) (args : List Arg) :
    ∀ (i cur : Nat) (st : State), 1 ≤ cur →
      ∃ ok cur1 st1, bindLoop lib stmt fuel args i cur st = some (ok, cur1, st1) ∧
        cur ≤ cur1 ∧
        cur1 ≤ max cur (stmt.statement_.paramCount + 1) + positionalCount args := by
  induction args with
  | nil =>
    intro i cur st _
    exact ⟨true, cur, st, rfl, le_refl _, by simp [positionalCount]⟩
  | cons arg rest ih =>
    intro i cur st hcur
    cases arg with
    | pojo props =>
      cases hS : bindNamed lib stmt i props st with
      | mk b s0 =>
        cases b with
        | false =>
          exact ⟨false, cur, s0, by simp [bindLoop, IsPOJO, hS], le_refl _,
            le_trans (le_max_left _ _) (Nat.le_add_right _ _)⟩
        | true =>
          obtain ⟨ok, cur1, st1, hrun, hle, hup⟩ := ih (i + 1) cur s0 hcur
          exact ⟨ok, cur1, st1, by simp [bindLoop, IsPOJO, hS, hrun], hle,
            by simpa [positionalCount, IsPOJO] using hup⟩
    | array items =>
      obtain ⟨ok, cur1, st1, hrun, hle, hup⟩ := ih (i + 1) cur st hcur
      exact ⟨ok, cur1, st1, by simp [bindLoop, IsPOJO, Arg.IsArray, hrun], hle,
        by simpa [positionalCount, IsPOJO, Arg.IsArray] using hup⟩
    | value v =>
      obtain ⟨idx, hk, hidx1, hidx2⟩ :=
        skipNamed_terminates stmt.statement_ habsent fuel cur (by
          rcases Nat.le_total cur (stmt.statement_.paramCount + 1) with h | h
          · rw [max_eq_right h]; omega
          · rw [max_eq_left h]; omega)
      have hcount : positionalCount (Arg.value v :: rest) = positionalCount rest + 1 := by
        simp [positionalCount, IsPOJO, Arg.IsArray]
      cases hS : BindValue lib stmt st v idx with
      | mk b s0 =>
        cases b with
        | false =>
          exact ⟨false, idx, _, by simp [bindLoop, IsPOJO, Arg.IsArray, hk, hS]; rfl, hidx1,
            le_trans hidx2 (Nat.le_add_right _ _)⟩
        | true =>
          obtain ⟨ok, cur1, st1, hrun, hle, hup⟩ := ih (i + 1) (idx + 1) s0 (by omega)
          refine ⟨ok, cur1, st1, by simp [bindLoop, IsPOJO, Arg.IsArray, hk, hS, hrun],
            by omega, ?_⟩
          rw [hcount]
          have hm : max (idx + 1) (stmt.statement_.paramCount + 1)
              ≤ max cur (stmt.statement_.paramCount + 1) + 1 := by
            apply max_le
            · omega
            · exact le_trans (le_max_right _ _) (Nat.le_add_right _ _)
          omega

/-- C21: assume the engine reports no name for any slot index above the declared
parameter count.  Then for every statement, every state and every argument
list, `BindParams` returns as soon as the fuel exceeds the declared count; the
cursor it ends with is at most the declared count plus the number of
positional arguments plus 1, and so is the cursor reached after every leading
part of the argument list; and each run of the skip loop, from any cursor,
ends on a slot that is that cursor or at most the declared count plus 1. -/
theorem C21_BindParams_terminates_with_bounded_cursor (lib : Lib)
    (stmt : SQLiteStatementSync) (fuel : Nat) (st : State) (args : List Arg)
    (habsent : ∀ k, stmt.statement_.paramCount < k → stmt.statement_.paramName k = none)
    (hfuel : stmt.statement_.paramCount < fuel) :
    (∃ ok st1, BindParams lib stmt fuel st args = some (ok, st1)) ∧
    (∃ ok cur1 st1, bindLoop lib stmt fuel args 0 1 st = some (ok, cur1, st1) ∧
      1 ≤ cur1 ∧ cur1 ≤ stmt.statement_.paramCount + positionalCount args + 1) ∧
    (∀ pre rest, args = pre ++ rest →
      ∃ ok cur1 st1, bindLoop lib stmt fuel pre 0 1 st = some (ok, cur1, st1) ∧
        cur1 ≤ stmt.statement_.paramCount + positionalCount args + 1) ∧
    (∀ cur, 1 ≤ cur →
      ∃ idx, skipNamed stmt.statement_ fuel cur = some idx ∧ cur ≤ idx ∧
        idx ≤ max cur (stmt.statement_.paramCount + 1)) := by
  have hmax : max 1 (stmt.statement_.paramCount + 1) = stmt.statement_.paramCount + 1 :=
    max_eq_right (by omega)
  obtain ⟨ok, cur1, st1, hrun, hle, hup⟩ :=
    bindLoop_terminates lib stmt fuel habsent hfuel args 0 1 st (le_refl _)
  rw [hmax] at hup
  refine ⟨⟨ok, st1, by simp [BindParams, hrun]⟩, ⟨ok, cur1, st1, hrun, hle, by omega⟩, ?_, ?_⟩
  · intro pre rest hsplit
    obtain ⟨ok2, cur2, st2, hrun2, _, hup2⟩ :=
      bindLoop_terminates lib stmt fuel habsent hfuel pre 0 1 st (le_refl _)
    rw [hmax] at hup2
    refine ⟨ok2, cur2, st2, hrun2, ?_⟩
    rw [hsplit, positionalCount_append]
    omega
  · intro cur hcur
    exact skipNamed_terminates stmt.statement_ habsent fuel cur (by
      rcases Nat.le_total cur (stmt.statement_.paramCount + 1) with h | h
      · rw [max_eq_right h]; omega
      · rw [max_eq_left h]; omega)

/-- C21, instance: the statement with slots `?`, `$b`, `?`, called with
`(1, {$b: "x"}, null, 5)`: three positional arguments, the last of which is
sent to slot 4. -/
theorem C21_BindParams_terminates_with_bounded_cursor_witness :
    (∃ ok st1, BindParams libDemo stmtAnonNamedAnon 4 State.init
        [.value (.number (.finite 1)), .pojo [("$b", .string "x")], .value .null,
          .value (.number (.finite 5))] = some (ok, st1)) ∧
    (∃ ok cur1 st1, bindLoop libDemo stmtAnonNamedAnon 4
        [.value (.number (.finite 1)), .pojo [("$b", .string "x")], .value .null,
          .value (.number (.finite 5))] 0 1 State.init = some (ok, cur1, st1) ∧
      1 ≤ cur1 ∧
      cur1 ≤ stmtAnonNamedAnon.statement_.paramCount
        + positionalCount
            [.value (.number (.finite 1)), .pojo [("$b", .string "x")], .value .null,
              .value (.number (.finite 5))] + 1) ∧
    (∀ pre rest,
      [Arg.value (.number (.finite 1)), .pojo [("$b", .string "x")], .value .null,
          .value (.number (.finite 5))] = pre ++ rest →
      ∃ ok cur1 st1, bindLoop libDemo stmtAnonNamedAnon 4 pre 0 1 State.init
          = some (ok, cur1, st1) ∧
        cur1 ≤ stmtAnonNamedAnon.statement_.paramCount
          + positionalCount
              [.value (.number (.finite 1)), .pojo [("$b", .string "x")], .value .null,
                .value (.number (.finite 5))] + 1) ∧
    (∀ cur, 1 ≤ cur →
      ∃ idx, skipNamed stmtAnonNamedAnon.statement_ 4 cur = some idx ∧ cur ≤ idx ∧
        idx ≤ max cur (stmtAnonNamedAnon.statement_.paramCount + 1)) :=
  C21_BindParams_terminates_with_bounded_cursor libDemo stmtAnonNamedAnon 4 State.init
    [.value (.number (.finite 1)), .pojo [("$b", .string "x")], .value .null,
      .value (.number (.finite 5))]
    (fun k hk => by
      have hk3 : 3 < k := hk
      have : k ≠ 2 := by omega
      simp [stmtAnonNamedAnon, this])
    (by decide)

/-- The assumption of C21 is needed: on `stmtNeverAbsent`, whose engine
reports a name for every slot index, `BindParams` with one positional argument
runs out of every amount of fuel. -/
theorem BindParams_runs_out_without_the_assumption :
    ∀ fuel, BindParams libDemo stmtNeverAbsent fuel State.init
      [.value (.number (.finite 1))] = none := by
  intro fuel
  have h := skipNamed_of_all_named stmtNeverAbsent.statement_
    (fun k => by simp [stmtNeverAbsent]) fuel 1
  simp [BindParams, bindLoop, IsPOJO, Arg.IsArray, h]

/-! ## C9: a statement whose connection was closed -/

end NodeSqlite
